import Mathlib

/-!
# SmartKnob firmware: mode state machine, position seek and torque models

Shallow embedding of `PoC/firmware/src` (config, haptics, comms, button, main).

Conventions of the embedding
* C++ `float` values are elements of a linear ordered field `α`; the math
  library function `sin` and the constant `_PI` are parameters, so every
  definition is executable over `ℚ`.  Decimal literals are the decimal values.
* `unsigned long` values are natural numbers below `2 ^ 32`; subtraction of two
  of them wraps modulo `2 ^ 32` (`usub`).
* Global variables are the fields of one record `Knob`, with the names they have
  in the source.  Serial output is not modelled.
* The motor object is the record `BLDCMotor`: the fields the firmware reads and
  writes, and `moved`, the argument of the latest `motor.move` call.
* One control cycle samples `millis()` and `micros()` once.
* Division is that of the field, where `x / 0 = 0`; a float division by zero gives
  an infinity or a NaN instead.  The torque models divide by `bound_max - bound_min`
  and by `virtual_inertia`; the definitions named `...Checked` make these two
  divisions explicit, with `none` for a value that is not a real number.
-/

namespace SmartKnob

/-! ## config.h -/

/-- Mode enum of `config.h`, in declaration order. -/
inductive HapticMode where
  | MODE_HAPTIC
  | MODE_INERTIA
  | MODE_SPRING
  | MODE_BOUNDED
  | MODE_POSITION
  deriving DecidableEq, Repr

/-- Integer value of an enumerator (used where the firmware indexes a table by a mode). -/
def HapticMode.toNat : HapticMode → Nat
  | .MODE_HAPTIC => 0
  | .MODE_INERTIA => 1
  | .MODE_SPRING => 2
  | .MODE_BOUNDED => 3
  | .MODE_POSITION => 4

/-- The two motion-control types the firmware assigns to `motor.controller`. -/
inductive MotionControlType where
  | torque
  | angle
  deriving DecidableEq, Repr

/-- Motor collaborator: the members of `motor` used by the firmware, plus `moved`,
the value handed to the latest `motor.move` call. -/
structure BLDCMotor (α : Type) where
  controller : MotionControlType
  target : α
  shaft_angle : α
  shaft_velocity : α
  voltage_limit : α
  moved : α
  deriving DecidableEq, Repr

/-- Button record of `button.h` (`lastState = true` is `HIGH`); the pin number is constant. -/
structure ButtonState where
  lastState : Bool
  lastPressMs : Nat
  deriving DecidableEq, Repr

/-- All global variables of the firmware (`config.cpp`, `haptics.cpp`, `button.cpp`, `main.cpp`). -/
structure Knob (α : Type) where
  motor : BLDCMotor α
  currentMode : HapticMode
  previousMode : HapticMode
  detent_count : Int
  detent_strength : α
  virtual_inertia : α
  inertia_damping : α
  inertia_friction : α
  coupling_K : α
  spring_center : α
  spring_stiffness : α
  spring_damping : α
  bound_min : α
  bound_max : α
  wall_strength : α
  wall_damping : α
  last_reported_angle : α
  last_report_us : Nat
  report_interval_ms : α
  report_threshold_deg : α
  seek_tolerance_rad : α
  seek_settle_start : Nat
  seek_start_time : Nat
  virt_pos : α
  virt_vel : α
  prev_time_us : Nat
  userBtn : ButtonState
  deriving DecidableEq, Repr

/-- Minimum milliseconds between accepted presses. -/
def DEBOUNCE_MS : Nat := 200

/-- Hold time at the target before returning. -/
def SEEK_SETTLE_MS : Nat := 200

/-- Seek timeout in milliseconds. -/
def SEEK_TIMEOUT_MS : Nat := 10000

/-- Difference of two `unsigned long` values (32 bits on the target), wrapping. -/
def usub (a b : Nat) : Nat := (a % 4294967296 + (4294967296 - b % 4294967296)) % 4294967296

/-- Arduino `constrain(amt, low, high)`. -/
def constrain {β : Type} [LinearOrder β] (amt low high : β) : β :=
  if amt < low then low else if amt > high then high else amt

section Firmware

variable {α : Type} [LinearOrderedField α]

/-- Reporting defaults of `config.h`. -/
def DEFAULT_REPORT_INTERVAL_MS : α := 20

/-- Minimum change to report, in degrees. -/
def DEFAULT_REPORT_THRESHOLD_DEG : α := 1 / 2

/-- Faster reporting for inertia mode. -/
def INERTIA_REPORT_INTERVAL_MS : α := 10

/-- Maximum motor voltage. -/
def VOLTAGE_LIMIT : α := 8

/-- Helper `getCurrentAngleDeg` of `config.h`. -/
def getCurrentAngleDeg (_PI : α) (s : Knob α) : α :=
  s.motor.shaft_angle * 180 / _PI

/-- State after `setup()`: the defaults of `config.cpp`, the motor configuration of
`setup()`, the button record of `initButton`; `angle0` and `vel0` are the first
sensor readings. -/
def initial (_PI angle0 vel0 : α) : Knob α where
  motor :=
    { controller := .torque, target := 0, shaft_angle := angle0, shaft_velocity := vel0,
      voltage_limit := VOLTAGE_LIMIT, moved := 0 }
  currentMode := .MODE_HAPTIC
  previousMode := .MODE_HAPTIC
  detent_count := 36
  detent_strength := 3 / 2
  virtual_inertia := 5
  inertia_damping := 1
  inertia_friction := 1 / 5
  coupling_K := 40
  spring_center := 0
  spring_stiffness := 10
  spring_damping := 1 / 10
  bound_min := -60 * _PI / 180
  bound_max := 60 * _PI / 180
  wall_strength := 20
  wall_damping := 2
  last_reported_angle := 0
  last_report_us := 0
  report_interval_ms := DEFAULT_REPORT_INTERVAL_MS
  report_threshold_deg := DEFAULT_REPORT_THRESHOLD_DEG
  seek_tolerance_rad := 6 / 100
  seek_settle_start := 0
  seek_start_time := 0
  virt_pos := 0
  virt_vel := 0
  prev_time_us := 0
  userBtn := { lastState := true, lastPressMs := 0 }

/-! ## haptics.cpp -/

/-- `resetInertiaState()`; `now_us` is the value of `micros()`. -/
def resetInertiaState (now_us : Nat) (s : Knob α) : Knob α :=
  { s with virt_pos := s.motor.shaft_angle, virt_vel := 0, prev_time_us := now_us }

/-- `computeHapticTorque()`. -/
def computeHapticTorque (sin : α → α) (s : Knob α) : α :=
  let angle_rad := s.motor.shaft_angle
  let phase := (s.detent_count : α) * angle_rad
  s.detent_strength * -(sin phase)

/-- `computeInertiaTorque()`: the returned torque and the updated globals. -/
def computeInertiaTorque (now_us : Nat) (s : Knob α) : α × Knob α :=
  let actual_pos := s.motor.shaft_angle
  let dt0 : α := (usub now_us s.prev_time_us : α) * (1 / 1000000)
  let dt : α := if dt0 ≤ 0 ∨ dt0 > 1 / 10 then 1 / 1000 else dt0
  let pos_error := actual_pos - s.virt_pos
  let accel0 := (s.coupling_K * pos_error - s.inertia_damping * s.virt_vel) / s.virtual_inertia
  let accel :=
    if s.inertia_friction > 0 then
      if s.virt_vel > 0 then accel0 - s.inertia_friction
      else if s.virt_vel < 0 then accel0 + s.inertia_friction
      else accel0
    else accel0
  let virt_vel := s.virt_vel + accel * dt
  let virt_pos := s.virt_pos + virt_vel * dt
  (-s.coupling_K * pos_error,
    { s with prev_time_us := now_us, virt_vel := virt_vel, virt_pos := virt_pos })

/-- `computeSpringTorque()`. -/
def computeSpringTorque (s : Knob α) : α :=
  let displacement := s.motor.shaft_angle - s.spring_center
  let torque := -s.spring_stiffness * displacement
  torque - s.spring_damping * s.motor.shaft_velocity

/-- `computeBoundedTorque()`. -/
def computeBoundedTorque (sin : α → α) (_PI : α) (s : Knob α) : α :=
  let pos := s.motor.shaft_angle
  let vel := s.motor.shaft_velocity
  let buffer_rad : α := 2 * _PI / 180
  if pos < s.bound_min - buffer_rad then
    let overflow := (s.bound_min + buffer_rad * 5) - pos
    let torque := s.wall_strength * overflow - s.wall_damping * vel
    torque
  else if pos > s.bound_max + buffer_rad then
    let overflow := pos - (s.bound_max - buffer_rad * 5)
    let torque := -s.wall_strength * overflow - s.wall_damping * vel
    torque
  else
    let range := s.bound_max - s.bound_min
    let normalized := (pos - s.bound_min) / range
    let phase := normalized * ((s.detent_count - 1 : Int) : α) * 2 * _PI
    let torque := s.detent_strength * -(sin phase)
    torque

/-! ## comms.cpp -/

/-- `doHaptic`. -/
def doHaptic (s : Knob α) : Knob α :=
  { s with
    motor := { s.motor with controller := .torque }
    currentMode := .MODE_HAPTIC
    report_interval_ms := DEFAULT_REPORT_INTERVAL_MS }

/-- `doInertia`; `now_us` is the value of `micros()` read by `resetInertiaState`. -/
def doInertia (now_us : Nat) (s : Knob α) : Knob α :=
  resetInertiaState now_us
    { s with
      motor := { s.motor with controller := .torque }
      currentMode := .MODE_INERTIA
      report_interval_ms := INERTIA_REPORT_INTERVAL_MS }

/-- `doSpring` (the command text is not read by the handler). -/
def doSpring (s : Knob α) : Knob α :=
  { s with
    motor := { s.motor with controller := .torque }
    currentMode := .MODE_SPRING
    report_interval_ms := DEFAULT_REPORT_INTERVAL_MS
    spring_center := s.motor.shaft_angle }

/-- `doBounded`. -/
def doBounded (s : Knob α) : Knob α :=
  { s with
    motor := { s.motor with controller := .torque }
    currentMode := .MODE_BOUNDED
    report_interval_ms := DEFAULT_REPORT_INTERVAL_MS }

/-- Library setter `command.scalar(&value, cmd)`: a supplied number is stored, an
absent one leaves the variable as it is. -/
def scalar (value : α) (cmd : Option α) : α :=
  match cmd with
  | none => value
  | some v => v

/-- `doDetentCount`; `cmd` is `none` for null or empty text, else the `atoi` value. -/
def doDetentCount (cmd : Option Int) (s : Knob α) : Knob α :=
  match cmd with
  | none => s
  | some n => { s with detent_count := constrain n 2 360 }

/-- `doDetentStrength`. -/
def doDetentStrength (cmd : Option α) (s : Knob α) : Knob α :=
  { s with detent_strength := scalar s.detent_strength cmd }

/-- `doDamping`. -/
def doDamping (cmd : Option α) (s : Knob α) : Knob α :=
  { s with inertia_damping := scalar s.inertia_damping cmd }

/-- `doFriction`. -/
def doFriction (cmd : Option α) (s : Knob α) : Knob α :=
  { s with inertia_friction := scalar s.inertia_friction cmd }

/-- `doInertiaVal`. -/
def doInertiaVal (cmd : Option α) (s : Knob α) : Knob α :=
  { s with virtual_inertia := scalar s.virtual_inertia cmd }

/-- `doCoupling`. -/
def doCoupling (cmd : Option α) (s : Knob α) : Knob α :=
  { s with coupling_K := scalar s.coupling_K cmd }

/-- `doSpringStiffness`. -/
def doSpringStiffness (cmd : Option α) (s : Knob α) : Knob α :=
  { s with spring_stiffness := scalar s.spring_stiffness cmd }

/-- `doSpringCenter`; `cmd` is `none` for null or empty text, else the `atof` value. -/
def doSpringCenter (_PI : α) (cmd : Option α) (s : Knob α) : Knob α :=
  match cmd with
  | none => { s with spring_center := s.motor.shaft_angle }
  | some v => { s with spring_center := v * _PI / 180 }

/-- `doSpringDamping`. -/
def doSpringDamping (cmd : Option α) (s : Knob α) : Knob α :=
  { s with spring_damping := scalar s.spring_damping cmd }

/-- `doLowerBound`. -/
def doLowerBound (_PI : α) (cmd : Option α) (s : Knob α) : Knob α :=
  match cmd with
  | none => s
  | some v => { s with bound_min := v * _PI / 180 }

/-- `doUpperBound`. -/
def doUpperBound (_PI : α) (cmd : Option α) (s : Knob α) : Knob α :=
  match cmd with
  | none => s
  | some v => { s with bound_max := v * _PI / 180 }

/-- `doWallStrength`. -/
def doWallStrength (cmd : Option α) (s : Knob α) : Knob α :=
  { s with wall_strength := scalar s.wall_strength cmd }

/-- `doSeekPosition`; `now` is the value of `millis()`, `cmd` is `none` for null or
empty text, else the `atof` value in degrees. -/
def doSeekPosition (_PI : α) (now : Nat) (cmd : Option α) (s : Knob α) : Knob α :=
  match cmd with
  | none => s
  | some target_deg =>
    let target_rad := target_deg * _PI / 180
    { s with
      previousMode := if s.currentMode ≠ .MODE_POSITION then s.currentMode else s.previousMode
      currentMode := .MODE_POSITION
      seek_settle_start := 0
      seek_start_time := now
      motor := { s.motor with controller := .angle, target := target_rad } }

/-- `reportPosition`; `now_us` is the value of `micros()`. -/
def reportPosition (_PI : α) (now_us : Nat) (s : Knob α) : Knob α :=
  let elapsed_ms : α := (usub now_us s.last_report_us : α) / 1000
  if elapsed_ms < s.report_interval_ms then s
  else
    let current_angle := getCurrentAngleDeg _PI s
    let delta := current_angle - s.last_reported_angle
    if |delta| ≥ s.report_threshold_deg then
      { s with last_reported_angle := current_angle, last_report_us := now_us }
    else s

/-! ## button.cpp -/

/-- `checkButtonPress`; `current` is the `digitalRead` value (`true` is `HIGH`) and
`now` the value of `millis()`. -/
def checkButtonPress (current : Bool) (now : Nat) (btn : ButtonState) : Bool × ButtonState :=
  if current = false ∧ btn.lastState = true then
    if usub now btn.lastPressMs > DEBOUNCE_MS then
      (true, { lastState := current, lastPressMs := now })
    else (false, { btn with lastState := current })
  else (false, { btn with lastState := current })

/-- `toggleMode`. -/
def toggleMode (now_us : Nat) (s : Knob α) : Knob α :=
  match s.currentMode with
  | .MODE_HAPTIC => doInertia now_us s
  | .MODE_INERTIA => doSpring s
  | .MODE_SPRING => doBounded s
  | _ => doHaptic s

/-- `handleButtonAction`. -/
def handleButtonAction (now_us : Nat) (s : Knob α) : Knob α :=
  if s.currentMode = .MODE_POSITION then
    { s with
      motor := { s.motor with controller := .torque }
      currentMode := s.previousMode }
  else toggleMode now_us s

/-- Commands registered in `setupCommander`, by handler, with the decoded argument
(`none` is null or empty text).  `doMotor` (PID and library motor settings, which
are outside `Knob`) is not part of the model. -/
inductive Command (α : Type) where
  | doHaptic
  | doInertia
  | doSpring
  | doBounded
  | doDetentCount (cmd : Option Int)
  | doDetentStrength (cmd : Option α)
  | doDamping (cmd : Option α)
  | doFriction (cmd : Option α)
  | doInertiaVal (cmd : Option α)
  | doCoupling (cmd : Option α)
  | doSpringStiffness (cmd : Option α)
  | doSpringCenter (cmd : Option α)
  | doSpringDamping (cmd : Option α)
  | doLowerBound (cmd : Option α)
  | doUpperBound (cmd : Option α)
  | doWallStrength (cmd : Option α)
  | doQueryPosition
  | doQueryState
  | doSeekPosition (cmd : Option α)
  deriving DecidableEq, Repr

/-- Call of the handler of one command at clock values `now` (ms) and `now_us` (µs). -/
def Command.handle (_PI : α) (now now_us : Nat) : Command α → Knob α → Knob α
  | .doHaptic, s => SmartKnob.doHaptic s
  | .doInertia, s => SmartKnob.doInertia now_us s
  | .doSpring, s => SmartKnob.doSpring s
  | .doBounded, s => SmartKnob.doBounded s
  | .doDetentCount cmd, s => SmartKnob.doDetentCount cmd s
  | .doDetentStrength cmd, s => SmartKnob.doDetentStrength cmd s
  | .doDamping cmd, s => SmartKnob.doDamping cmd s
  | .doFriction cmd, s => SmartKnob.doFriction cmd s
  | .doInertiaVal cmd, s => SmartKnob.doInertiaVal cmd s
  | .doCoupling cmd, s => SmartKnob.doCoupling cmd s
  | .doSpringStiffness cmd, s => SmartKnob.doSpringStiffness cmd s
  | .doSpringCenter cmd, s => SmartKnob.doSpringCenter _PI cmd s
  | .doSpringDamping cmd, s => SmartKnob.doSpringDamping cmd s
  | .doLowerBound cmd, s => SmartKnob.doLowerBound _PI cmd s
  | .doUpperBound cmd, s => SmartKnob.doUpperBound _PI cmd s
  | .doWallStrength cmd, s => SmartKnob.doWallStrength cmd s
  | .doQueryPosition, s => s
  | .doQueryState, s => s
  | .doSeekPosition cmd, s => SmartKnob.doSeekPosition _PI now cmd s

/-! ## main.cpp -/

/-- What one pass of `loop()` reads from outside: the sensor values `loopFOC`
stores in `motor`, the button pin level, the clocks, and the command lines
`command.run()` finds on the serial port. -/
structure Cycle (α : Type) where
  shaft_angle : α
  shaft_velocity : α
  pin : Bool
  millis : Nat
  micros : Nat
  commands : List (Command α)
  deriving DecidableEq, Repr

/-- `motor.loopFOC()`: refreshes the shaft angle and velocity. -/
def loopFOC (c : Cycle α) (s : Knob α) : Knob α :=
  { s with motor := { s.motor with shaft_angle := c.shaft_angle, shaft_velocity := c.shaft_velocity } }

/-- Button part of `loop()`: `if (checkButtonPress(userBtn)) handleButtonAction();`. -/
def buttonPhase (c : Cycle α) (s : Knob α) : Knob α :=
  let r := checkButtonPress c.pin c.millis s.userBtn
  let s1 := { s with userBtn := r.2 }
  if r.1 then handleButtonAction c.micros s1 else s1

/-- The `switch (currentMode)` of `loop()` that picks the torque model: the voltage
and the updated globals (only the inertia model writes any). -/
def switchTorque (sin : α → α) (_PI : α) (now_us : Nat) (s : Knob α) : α × Knob α :=
  match s.currentMode with
  | .MODE_HAPTIC => (computeHapticTorque sin s, s)
  | .MODE_INERTIA => computeInertiaTorque now_us s
  | .MODE_SPRING => (computeSpringTorque s, s)
  | .MODE_BOUNDED => (computeBoundedTorque sin _PI s, s)
  | _ => (0, s)

/-- Mode dispatch of `loop()` (the `if (currentMode == MODE_POSITION) ... else ...` block). -/
def modeDispatch (sin : α → α) (_PI : α) (now now_us : Nat) (s : Knob α) : Knob α :=
  if s.currentMode = .MODE_POSITION then
    let s1 := { s with motor := { s.motor with moved := s.motor.target } }
    let pos_error := |s1.motor.shaft_angle - s1.motor.target|
    let timeout : Prop := usub now s1.seek_start_time > SEEK_TIMEOUT_MS
    if pos_error < s1.seek_tolerance_rad ∨ timeout then
      if s1.seek_settle_start = 0 then
        { s1 with seek_settle_start := now }
      else if usub now s1.seek_settle_start > SEEK_SETTLE_MS then
        let s2 :=
          { s1 with
            motor := { s1.motor with controller := .torque }
            currentMode := s1.previousMode
            seek_settle_start := 0 }
        if s2.previousMode = .MODE_INERTIA then resetInertiaState now_us s2 else s2
      else s1
    else
      { s1 with seek_settle_start := 0 }
  else
    let r := switchTorque sin _PI now_us s
    let voltage := constrain r.1 (-r.2.motor.voltage_limit) r.2.motor.voltage_limit
    { r.2 with motor := { r.2.motor with moved := voltage } }

/-- `command.run()`: the handlers of the received command lines, in order. -/
def commandRun (_PI : α) (c : Cycle α) (s : Knob α) : Knob α :=
  c.commands.foldl (fun st cmd => cmd.handle _PI c.millis c.micros st) s

/-- One pass of `loop()`. -/
def loop (sin : α → α) (_PI : α) (c : Cycle α) (s : Knob α) : Knob α :=
  commandRun _PI c
    (reportPosition _PI c.micros
      (modeDispatch sin _PI c.millis c.micros (buttonPhase c (loopFOC c s))))

/-! ## Runs of the firmware -/

/-- A pass of `loop()` in which the button is released and no command line arrives. -/
def Cycle.quiet {β : Type} (c : Cycle β) : Bool := c.pin && c.commands.isEmpty

/-- Things that happen to the firmware state: a command handler call, a button
action, a pass of `loop()`. -/
inductive Event (α : Type) where
  | command (now now_us : Nat) (cmd : Command α)
  | button (now_us : Nat)
  | cycle (c : Cycle α)

/-- Effect of one event. -/
def Event.apply (sin : α → α) (_PI : α) : Event α → Knob α → Knob α
  | .command now now_us cmd, s => cmd.handle _PI now now_us s
  | .button now_us, s => handleButtonAction now_us s
  | .cycle c, s => loop sin _PI c s

/-- State after a sequence of events. -/
def run (sin : α → α) (_PI : α) (evs : List (Event α)) (s : Knob α) : Knob α :=
  evs.foldl (fun st e => e.apply sin _PI st) s

/-- State after a sequence of passes of `loop()`. -/
def runLoop (sin : α → α) (_PI : α) (cs : List (Cycle α)) (s : Knob α) : Knob α :=
  cs.foldl (fun st c => loop sin _PI c st) s

/-- The state with the shaft angle and velocity replaced by new sensor values. -/
def withShaft (s : Knob α) (angle vel : α) : Knob α :=
  { s with motor := { s.motor with shaft_angle := angle, shaft_velocity := vel } }

/-! ## Reference step of the inertia model, in the words of the specification -/

/-- Elapsed microseconds `(now_us - prev_us) mod 2 ^ 32`. -/
def referenceElapsed (now_us prev_us : Nat) : Nat :=
  (((now_us : Int) - (prev_us : Int)) % 4294967296).toNat

/-- Step used: `dt = e * 1e-6` if `0 < dt ≤ 0.1`, else the fallback `0.001`. -/
def referenceStepSize (now_us prev_us : Nat) : α :=
  let dt : α := (referenceElapsed now_us prev_us : α) * (1 / 1000000)
  if 0 < dt ∧ dt ≤ 1 / 10 then dt else 1 / 1000

/-- Acceleration of the virtual flywheel: spring coupling and damping over the
inertia, minus the friction when it is positive and the flywheel turns forward,
plus the friction when it is positive and the flywheel turns backward. -/
def referenceAccel (s : Knob α) : α :=
  let err := s.motor.shaft_angle - s.virt_pos
  let a := (s.coupling_K * err - s.inertia_damping * s.virt_vel) / s.virtual_inertia
  if s.inertia_friction > 0 ∧ s.virt_vel > 0 then a - s.inertia_friction
  else if s.inertia_friction > 0 ∧ s.virt_vel < 0 then a + s.inertia_friction
  else a

/-- One reference step: velocity first, then position with the new velocity; the
torque is `-couplingK * err` with the error before the update. -/
def referenceInertiaStep (now_us : Nat) (s : Knob α) : α × Knob α :=
  let h : α := referenceStepSize now_us s.prev_time_us
  let err := s.motor.shaft_angle - s.virt_pos
  let vel := s.virt_vel + referenceAccel s * h
  let pos := s.virt_pos + vel * h
  (-s.coupling_K * err, { s with prev_time_us := now_us, virt_vel := vel, virt_pos := pos })

/-! ## Concrete inputs used to exercise the theorems -/

/-- Sample value taken for `_PI` in concrete runs over `ℚ`. -/
def piQ : ℚ := 22 / 7

/-- Sample function taken for `sin` in concrete runs over `ℚ` (cubic Taylor polynomial). -/
def sinQ : ℚ → ℚ := fun x => x - x ^ 3 / 6

/-- The state after `setup()` with the shaft at rest at angle 0. -/
def bootQ : Knob ℚ := initial piQ 0 0

/-- The state after the command `Z0` (seek to 0 degrees) received at 1000 ms after boot. -/
def seekingQ : Knob ℚ := doSeekPosition piQ 1000 (some 0) bootQ

/-- A pass of `loop()` with the button released and no command received. -/
def quietCycle (angle : ℚ) (ms : Nat) : Cycle ℚ :=
  { shaft_angle := angle, shaft_velocity := 0, pin := true, millis := ms, micros := 1000 * ms,
    commands := [] }

/-- The seeking state one quiet pass later, at 2000 ms, with the shaft on the target. -/
def settlingQ : Knob ℚ := loop sinQ piQ (quietCycle 0 2000) seekingQ

/-- Inertia mode entered at boot (shaft at 0), then the command `Z90` at 1000 ms, then
a quiet pass at 2000 ms that finds the shaft at 1 rad, on its way to the target. -/
def inertiaSeekQ : Knob ℚ :=
  loop sinQ piQ (quietCycle 1 2000) (doSeekPosition piQ 1000 (some 90) (doInertia 500000 bootQ))

/-- A pass of `loop()` at 2500 ms in which the button is found pressed, shaft at 1 rad. -/
def pressCycle : Cycle ℚ :=
  { shaft_angle := 1, shaft_velocity := 0, pin := false, millis := 2500, micros := 2500000,
    commands := [] }

/-- A state whose mode is none of the four cases of the torque `switch`, shaft at
1/36 rad (one radian of detent phase). -/
def defaultArmQ : Knob ℚ := { withShaft bootQ (1 / 36) 0 with currentMode := .MODE_POSITION }

/-- Inertia mode entered at boot with the shaft at 0, then the shaft turned to 1 rad. -/
def turnedQ : Knob ℚ := withShaft (doInertia 0 bootQ) 1 0

/-- Whether a command line starts a seek (`Z` with a value). -/
def Command.isSeek {β : Type} : Command β → Bool
  | .doSeekPosition (some _) => true
  | _ => false

/-- Whether a command line selects a haptic mode (`H`, `I`, `C`, `O`). -/
def Command.isMode {β : Type} : Command β → Bool
  | .doHaptic => true
  | .doInertia => true
  | .doSpring => true
  | .doBounded => true
  | _ => false

/-- Whether `checkButtonPress` reports no press in any of the passes `cs`, started
with the button record `btn`. -/
def pressFree {β : Type} (btn : ButtonState) : List (Cycle β) → Bool
  | [] => true
  | c :: cs =>
    !(checkButtonPress c.pin c.millis btn).1 &&
      pressFree (checkButtonPress c.pin c.millis btn).2 cs

/-- A pass of `loop()` that finds the button held down (pin low), with the shaft at
1 rad and the command lines `cmds`. -/
def heldCycle (ms : Nat) (cmds : List (Command ℚ)) : Cycle ℚ :=
  { shaft_angle := 1, shaft_velocity := 0, pin := false, millis := ms, micros := 1000 * ms,
    commands := cmds }

/-- The button pressed at 900 ms after boot and held since (the press moves Haptic to
Inertia), then the command `Z0` at 1000 ms. -/
def heldSeekQ : Knob ℚ :=
  doSeekPosition piQ 1000 (some 0) (loop sinQ piQ (heldCycle 900 []) bootQ)

theorem reportPosition_frame (_PI : α) (now_us : Nat) (s : Knob α) :
    (reportPosition _PI now_us s).currentMode = s.currentMode ∧
    (reportPosition _PI now_us s).previousMode = s.previousMode ∧
    (reportPosition _PI now_us s).motor = s.motor ∧
    (reportPosition _PI now_us s).seek_settle_start = s.seek_settle_start ∧
    (reportPosition _PI now_us s).seek_start_time = s.seek_start_time ∧
    (reportPosition _PI now_us s).seek_tolerance_rad = s.seek_tolerance_rad ∧
    (reportPosition _PI now_us s).virt_pos = s.virt_pos ∧
    (reportPosition _PI now_us s).virt_vel = s.virt_vel ∧
    (reportPosition _PI now_us s).prev_time_us = s.prev_time_us := by
  unfold reportPosition
  simp only []
  split_ifs <;> simp

theorem handleButtonAction_previousMode (now_us : Nat) (s : Knob α) :
    (handleButtonAction now_us s).previousMode = s.previousMode := by
  unfold handleButtonAction toggleMode
  split_ifs
  · rfl
  · split <;> rfl

theorem buttonPhase_previousMode (c : Cycle α) (s : Knob α) :
    (buttonPhase c s).previousMode = s.previousMode := by
  unfold buttonPhase
  simp only []
  split_ifs
  · rw [handleButtonAction_previousMode]
  · rfl

theorem modeDispatch_previousMode (sin : α → α) (_PI : α) (now now_us : Nat) (s : Knob α) :
    (modeDispatch sin _PI now now_us s).previousMode = s.previousMode := by
  unfold modeDispatch switchTorque
  simp only []
  split_ifs <;> first | rfl | (split <;> rfl)

theorem handle_previousMode_ne (_PI : α) (now now_us : Nat) (cmd : Command α) (s : Knob α)
    (h : s.previousMode ≠ .MODE_POSITION) :
    (cmd.handle _PI now now_us s).previousMode ≠ .MODE_POSITION := by
  cases cmd with
  | doSeekPosition arg =>
    cases arg with
    | none => exact h
    | some d =>
      simp only [Command.handle, doSeekPosition]
      split_ifs with hc
      · exact hc
      · exact h
  | doDetentCount arg => cases arg <;> exact h
  | doSpringCenter arg => cases arg <;> exact h
  | doLowerBound arg => cases arg <;> exact h
  | doUpperBound arg => cases arg <;> exact h
  | _ => exact h

theorem commandRun_previousMode_ne (_PI : α) (c : Cycle α) (s : Knob α)
    (h : s.previousMode ≠ .MODE_POSITION) :
    (commandRun _PI c s).previousMode ≠ .MODE_POSITION := by
  unfold commandRun
  generalize c.commands = l
  induction l generalizing s with
  | nil => exact h
  | cons cmd rest ih => exact ih _ (handle_previousMode_ne _PI _ _ cmd s h)

theorem loop_previousMode_ne (sin : α → α) (_PI : α) (c : Cycle α) (s : Knob α)
    (h : s.previousMode ≠ .MODE_POSITION) :
    (loop sin _PI c s).previousMode ≠ .MODE_POSITION := by
  unfold loop
  apply commandRun_previousMode_ne
  rw [(reportPosition_frame _PI c.micros _).2.1, modeDispatch_previousMode,
    buttonPhase_previousMode]
  exact h

theorem apply_previousMode_ne (sin : α → α) (_PI : α) (e : Event α) (s : Knob α)
    (h : s.previousMode ≠ .MODE_POSITION) :
    (e.apply sin _PI s).previousMode ≠ .MODE_POSITION := by
  cases e with
  | command now now_us cmd => exact handle_previousMode_ne _PI now now_us cmd s h
  | button now_us =>
    simp only [Event.apply]
    rw [handleButtonAction_previousMode]
    exact h
  | cycle c => exact loop_previousMode_ne sin _PI c s h

theorem run_previousMode_ne (sin : α → α) (_PI : α) (evs : List (Event α)) (s : Knob α)
    (h : s.previousMode ≠ .MODE_POSITION) :
    (run sin _PI evs s).previousMode ≠ .MODE_POSITION := by
  unfold run
  induction evs generalizing s with
  | nil => exact h
  | cons e rest ih => exact ih _ (apply_previousMode_ne sin _PI e s h)

theorem toNat_lt_four_of_ne (m : HapticMode) (h : m ≠ .MODE_POSITION) :
    m.toNat < 4 ∧ (m = .MODE_HAPTIC ∨ m = .MODE_INERTIA ∨ m = .MODE_SPRING ∨ m = .MODE_BOUNDED) := by
  cases m <;> simp [HapticMode.toNat] at h ⊢

/-! ## One quiet pass of `loop()` -/

theorem usub_eq_sub (a b : Nat) (hba : b ≤ a) (ha : a < 4294967296) : usub a b = a - b := by
  unfold usub
  omega

theorem runLoop_append (sin : α → α) (_PI : α) (xs ys : List (Cycle α)) (s : Knob α) :
    runLoop sin _PI (xs ++ ys) s = runLoop sin _PI ys (runLoop sin _PI xs s) := by
  simp [runLoop]

theorem runLoop_cons (sin : α → α) (_PI : α) (x : Cycle α) (ys : List (Cycle α)) (s : Knob α) :
    runLoop sin _PI (x :: ys) s = runLoop sin _PI ys (loop sin _PI x s) := by
  simp [runLoop]

theorem runLoop_nil (sin : α → α) (_PI : α) (s : Knob α) : runLoop sin _PI [] s = s := rfl

theorem loop_quiet (sin : α → α) (_PI : α) (c : Cycle α) (s : Knob α) (hq : c.quiet = true) :
    loop sin _PI c s =
      reportPosition _PI c.micros (modeDispatch sin _PI c.millis c.micros
        { loopFOC c s with userBtn := { s.userBtn with lastState := true } }) := by
  simp only [Cycle.quiet, Bool.and_eq_true, List.isEmpty_iff] at hq
  simp [loop, commandRun, buttonPhase, checkButtonPress, hq.1, hq.2, loopFOC]

/-- Mode dispatch while seeking: the variables it keeps, and its four branches. -/
theorem modeDispatch_seek (sin : α → α) (_PI : α) (now now_us : Nat) (s : Knob α)
    (hm : s.currentMode = .MODE_POSITION) :
    (modeDispatch sin _PI now now_us s).previousMode = s.previousMode ∧
    (modeDispatch sin _PI now now_us s).seek_start_time = s.seek_start_time ∧
    (modeDispatch sin _PI now now_us s).seek_tolerance_rad = s.seek_tolerance_rad ∧
    (modeDispatch sin _PI now now_us s).motor.target = s.motor.target ∧
    (modeDispatch sin _PI now now_us s).motor.shaft_angle = s.motor.shaft_angle ∧
    (modeDispatch sin _PI now now_us s).motor.moved = s.motor.target ∧
    ((|s.motor.shaft_angle - s.motor.target| < s.seek_tolerance_rad ∨
        usub now s.seek_start_time > 10000) →
      (s.seek_settle_start = 0 →
        (modeDispatch sin _PI now now_us s).currentMode = .MODE_POSITION ∧
        (modeDispatch sin _PI now now_us s).seek_settle_start = now ∧
        (modeDispatch sin _PI now now_us s).motor.controller = s.motor.controller) ∧
      (s.seek_settle_start ≠ 0 → usub now s.seek_settle_start > 200 →
        (modeDispatch sin _PI now now_us s).currentMode = s.previousMode ∧
        (modeDispatch sin _PI now now_us s).seek_settle_start = 0 ∧
        (modeDispatch sin _PI now now_us s).motor.controller = .torque ∧
        (s.previousMode = .MODE_INERTIA →
          (modeDispatch sin _PI now now_us s).virt_pos = s.motor.shaft_angle ∧
          (modeDispatch sin _PI now now_us s).virt_vel = 0 ∧
          (modeDispatch sin _PI now now_us s).prev_time_us = now_us)) ∧
      (s.seek_settle_start ≠ 0 → ¬ usub now s.seek_settle_start > 200 →
        (modeDispatch sin _PI now now_us s).currentMode = .MODE_POSITION ∧
        (modeDispatch sin _PI now now_us s).seek_settle_start = s.seek_settle_start ∧
        (modeDispatch sin _PI now now_us s).motor.controller = s.motor.controller)) ∧
    (¬ (|s.motor.shaft_angle - s.motor.target| < s.seek_tolerance_rad ∨
        usub now s.seek_start_time > 10000) →
      (modeDispatch sin _PI now now_us s).currentMode = .MODE_POSITION ∧
      (modeDispatch sin _PI now now_us s).seek_settle_start = 0 ∧
      (modeDispatch sin _PI now now_us s).motor.controller = s.motor.controller) := by
  unfold modeDispatch
  simp only [hm, if_true, SEEK_TIMEOUT_MS, SEEK_SETTLE_MS]
  split_ifs <;> simp_all [resetInertiaState]

/-- A quiet pass of `loop()` while seeking: the variables it keeps, and its four branches. -/
theorem loop_seek (sin : α → α) (_PI : α) (c : Cycle α) (s : Knob α) (hq : c.quiet = true)
    (hm : s.currentMode = .MODE_POSITION) :
    (loop sin _PI c s).previousMode = s.previousMode ∧
    (loop sin _PI c s).seek_start_time = s.seek_start_time ∧
    (loop sin _PI c s).seek_tolerance_rad = s.seek_tolerance_rad ∧
    (loop sin _PI c s).motor.target = s.motor.target ∧
    (loop sin _PI c s).motor.shaft_angle = c.shaft_angle ∧
    (loop sin _PI c s).motor.moved = s.motor.target ∧
    ((|c.shaft_angle - s.motor.target| < s.seek_tolerance_rad ∨
        usub c.millis s.seek_start_time > 10000) →
      (s.seek_settle_start = 0 →
        (loop sin _PI c s).currentMode = .MODE_POSITION ∧
        (loop sin _PI c s).seek_settle_start = c.millis ∧
        (loop sin _PI c s).motor.controller = s.motor.controller) ∧
      (s.seek_settle_start ≠ 0 → usub c.millis s.seek_settle_start > 200 →
        (loop sin _PI c s).currentMode = s.previousMode ∧
        (loop sin _PI c s).seek_settle_start = 0 ∧
        (loop sin _PI c s).motor.controller = .torque ∧
        (s.previousMode = .MODE_INERTIA →
          (loop sin _PI c s).virt_pos = c.shaft_angle ∧
          (loop sin _PI c s).virt_vel = 0 ∧
          (loop sin _PI c s).prev_time_us = c.micros)) ∧
      (s.seek_settle_start ≠ 0 → ¬ usub c.millis s.seek_settle_start > 200 →
        (loop sin _PI c s).currentMode = .MODE_POSITION ∧
        (loop sin _PI c s).seek_settle_start = s.seek_settle_start ∧
        (loop sin _PI c s).motor.controller = s.motor.controller)) ∧
    (¬ (|c.shaft_angle - s.motor.target| < s.seek_tolerance_rad ∨
        usub c.millis s.seek_start_time > 10000) →
      (loop sin _PI c s).currentMode = .MODE_POSITION ∧
      (loop sin _PI c s).seek_settle_start = 0 ∧
      (loop sin _PI c s).motor.controller = s.motor.controller) := by
  have hd := modeDispatch_seek sin _PI c.millis c.micros
    { loopFOC c s with userBtn := { s.userBtn with lastState := true } } hm
  have hr := reportPosition_frame _PI c.micros (modeDispatch sin _PI c.millis c.micros
    { loopFOC c s with userBtn := { s.userBtn with lastState := true } })
  rw [loop_quiet sin _PI c s hq]
  obtain ⟨r1, r2, r3, r4, r5, r6, r7, r8, r9⟩ := hr
  rw [r1, r2, r3, r4, r5, r6, r7, r8, r9]
  simpa [loopFOC] using hd

/-- A quiet pass of `loop()` outside PositionSeek keeps the mode and seek variables. -/
theorem loop_not_seek (sin : α → α) (_PI : α) (c : Cycle α) (s : Knob α) (hq : c.quiet = true)
    (hm : s.currentMode ≠ .MODE_POSITION) :
    (loop sin _PI c s).currentMode = s.currentMode ∧
    (loop sin _PI c s).previousMode = s.previousMode ∧
    (loop sin _PI c s).seek_start_time = s.seek_start_time ∧
    (loop sin _PI c s).seek_settle_start = s.seek_settle_start ∧
    (loop sin _PI c s).seek_tolerance_rad = s.seek_tolerance_rad ∧
    (loop sin _PI c s).motor.target = s.motor.target ∧
    (loop sin _PI c s).motor.controller = s.motor.controller := by
  have hr := reportPosition_frame _PI c.micros (modeDispatch sin _PI c.millis c.micros
    { loopFOC c s with userBtn := { s.userBtn with lastState := true } })
  rw [loop_quiet sin _PI c s hq]
  obtain ⟨r1, r2, r3, r4, r5, r6, -, -, -⟩ := hr
  rw [r1, r2, r3, r4, r5, r6]
  unfold modeDispatch switchTorque
  simp only [loopFOC, hm, if_false]
  rcases hc : s.currentMode with _ | _ | _ | _ | _ <;>
    simp_all [computeInertiaTorque]

/-! ## Runs of quiet passes while seeking -/

/-- Invariant of a run of quiet, not timed out passes of `loop()` that starts with
settle-start 0: while seeking, settle-start is 0 or the time of a pass since which
every pass saw the error below the tolerance. -/
theorem seek_window_inv (sin : α → α) (_PI : α) (s0 : Knob α) (pre : List (Cycle α))
    (hp : s0.previousMode ≠ .MODE_POSITION) (hs0 : s0.seek_settle_start = 0)
    (hq : ∀ x ∈ pre, x.quiet = true ∧ usub x.millis s0.seek_start_time ≤ 10000) :
    (runLoop sin _PI pre s0).previousMode = s0.previousMode ∧
    (runLoop sin _PI pre s0).seek_start_time = s0.seek_start_time ∧
    (runLoop sin _PI pre s0).seek_tolerance_rad = s0.seek_tolerance_rad ∧
    (runLoop sin _PI pre s0).motor.target = s0.motor.target ∧
    ((runLoop sin _PI pre s0).currentMode = .MODE_POSITION →
      (runLoop sin _PI pre s0).seek_settle_start = 0 ∨
      ∃ before w ws, pre = before ++ w :: ws ∧
        (runLoop sin _PI pre s0).seek_settle_start = w.millis ∧
        ∀ x ∈ w :: ws, |x.shaft_angle - s0.motor.target| < s0.seek_tolerance_rad) := by
  induction pre using List.reverseRecOn with
  | nil => simp [runLoop_nil, hs0]
  | append_singleton l a ih =>
    have hql : ∀ x ∈ l, x.quiet = true ∧ usub x.millis s0.seek_start_time ≤ 10000 :=
      fun x hx => hq x (List.mem_append_left _ hx)
    have hqa := hq a (by simp)
    obtain ⟨i1, i2, i3, i4, i5⟩ := ih hql
    rw [runLoop_append, runLoop_cons, runLoop_nil]
    by_cases hm : (runLoop sin _PI l s0).currentMode = .MODE_POSITION
    · obtain ⟨f1, f2, f3, f4, -, -, hA, hD⟩ := loop_seek sin _PI a _ hqa.1 hm
      refine ⟨by rw [f1, i1], by rw [f2, i2], by rw [f3, i3], by rw [f4, i4], ?_⟩
      intro hm'
      by_cases hc : (|a.shaft_angle - (runLoop sin _PI l s0).motor.target| <
          (runLoop sin _PI l s0).seek_tolerance_rad ∨
          usub a.millis (runLoop sin _PI l s0).seek_start_time > 10000)
      · have herr : |a.shaft_angle - s0.motor.target| < s0.seek_tolerance_rad := by
          rcases hc with h | h
          · rwa [i4, i3] at h
          · rw [i2] at h
            omega
        obtain ⟨hA1, hA2, hA3⟩ := hA hc
        by_cases hz : (runLoop sin _PI l s0).seek_settle_start = 0
        · right
          exact ⟨l, a, [], rfl, (hA1 hz).2.1, by simpa using herr⟩
        · by_cases ht : usub a.millis (runLoop sin _PI l s0).seek_settle_start > 200
          · exfalso
            have h := (hA2 hz ht).1
            rw [h, i1] at hm'
            exact hp hm'
          · rcases i5 hm with h0 | ⟨before, w, ws, hpre, hset, hall⟩
            · exact absurd h0 hz
            · right
              refine ⟨before, w, ws ++ [a], by simp [hpre], by rw [(hA3 hz ht).2.1, hset], ?_⟩
              intro x hx
              rw [← List.cons_append, List.mem_append, List.mem_singleton] at hx
              rcases hx with hx | hx
              · exact hall x hx
              · rw [hx]
                exact herr
      · left
        exact (hD hc).2.1
    · obtain ⟨g1, g2, g3, -, g5, g6, -⟩ := loop_not_seek sin _PI a _ hqa.1 hm
      refine ⟨by rw [g2, i1], by rw [g3, i2], by rw [g5, i3], by rw [g6, i4], ?_⟩
      intro hm'
      rw [g1] at hm'
      exact absurd hm' hm

/-- Quiet passes that see neither convergence nor timeout keep the seek unsettled. -/
theorem seek_unsettled_run (sin : α → α) (_PI : α) (pre : List (Cycle α)) :
    ∀ st : Knob α, st.currentMode = .MODE_POSITION → st.seek_settle_start = 0 →
    (∀ x ∈ pre, x.quiet = true ∧
      ¬ (|x.shaft_angle - st.motor.target| < st.seek_tolerance_rad ∨
        usub x.millis st.seek_start_time > 10000)) →
    (runLoop sin _PI pre st).currentMode = .MODE_POSITION ∧
    (runLoop sin _PI pre st).seek_settle_start = 0 ∧
    (runLoop sin _PI pre st).previousMode = st.previousMode ∧
    (runLoop sin _PI pre st).seek_start_time = st.seek_start_time ∧
    (runLoop sin _PI pre st).seek_tolerance_rad = st.seek_tolerance_rad ∧
    (runLoop sin _PI pre st).motor.target = st.motor.target ∧
    (runLoop sin _PI pre st).motor.controller = st.motor.controller := by
  induction pre with
  | nil =>
    intro st hm hz _
    exact ⟨hm, hz, rfl, rfl, rfl, rfl, rfl⟩
  | cons x rest ih =>
    intro st hm hz hall
    obtain ⟨hqx, hcx⟩ := hall x (List.mem_cons_self _ _)
    obtain ⟨f1, f2, f3, f4, -, -, -, hD⟩ := loop_seek sin _PI x st hqx hm
    obtain ⟨d1, d2, d3⟩ := hD hcx
    have hrest : ∀ y ∈ rest, y.quiet = true ∧
        ¬ (|y.shaft_angle - (loop sin _PI x st).motor.target| <
            (loop sin _PI x st).seek_tolerance_rad ∨
          usub y.millis (loop sin _PI x st).seek_start_time > 10000) := by
      intro y hy
      rw [f4, f3, f2]
      exact hall y (List.mem_cons_of_mem _ hy)
    obtain ⟨r1, r2, r3, r4, r5, r6, r7⟩ := ih (loop sin _PI x st) d1 d2 hrest
    rw [runLoop_cons]
    exact ⟨r1, r2, by rw [r3, f1], by rw [r4, f2], by rw [r5, f3], by rw [r6, f4],
      by rw [r7, d3]⟩

/-- Quiet passes inside the settle window (condition met, settle timer running, not
yet more than 200 ms) keep the seek going and the settle timer as it is. -/
theorem seek_holding_run (sin : α → α) (_PI : α) (mid : List (Cycle α)) :
    ∀ st : Knob α, st.currentMode = .MODE_POSITION → st.seek_settle_start ≠ 0 →
    (∀ x ∈ mid, x.quiet = true ∧
      (|x.shaft_angle - st.motor.target| < st.seek_tolerance_rad ∨
        usub x.millis st.seek_start_time > 10000) ∧
      ¬ usub x.millis st.seek_settle_start > 200) →
    (runLoop sin _PI mid st).currentMode = .MODE_POSITION ∧
    (runLoop sin _PI mid st).seek_settle_start = st.seek_settle_start ∧
    (runLoop sin _PI mid st).previousMode = st.previousMode ∧
    (runLoop sin _PI mid st).seek_start_time = st.seek_start_time ∧
    (runLoop sin _PI mid st).seek_tolerance_rad = st.seek_tolerance_rad ∧
    (runLoop sin _PI mid st).motor.target = st.motor.target ∧
    (runLoop sin _PI mid st).motor.controller = st.motor.controller := by
  induction mid with
  | nil =>
    intro st hm _ _
    exact ⟨hm, rfl, rfl, rfl, rfl, rfl, rfl⟩
  | cons x rest ih =>
    intro st hm hz hall
    obtain ⟨hqx, hcx, htx⟩ := hall x (List.mem_cons_self _ _)
    obtain ⟨f1, f2, f3, f4, -, -, hA, -⟩ := loop_seek sin _PI x st hqx hm
    obtain ⟨d1, d2, d3⟩ := (hA hcx).2.2 hz htx
    have hrest : ∀ y ∈ rest, y.quiet = true ∧
        (|y.shaft_angle - (loop sin _PI x st).motor.target| <
            (loop sin _PI x st).seek_tolerance_rad ∨
          usub y.millis (loop sin _PI x st).seek_start_time > 10000) ∧
        ¬ usub y.millis (loop sin _PI x st).seek_settle_start > 200 := by
      intro y hy
      rw [f4, f3, f2, d2]
      exact hall y (List.mem_cons_of_mem _ hy)
    obtain ⟨r1, r2, r3, r4, r5, r6, r7⟩ :=
      ih (loop sin _PI x st) d1 (by rw [d2]; exact hz) hrest
    rw [runLoop_cons]
    exact ⟨r1, by rw [r2, d2], by rw [r3, f1], by rw [r4, f2], by rw [r5, f3], by rw [r6, f4],
      by rw [r7, d3]⟩

/-! ## Facts about the concrete states -/

theorem settlingQ_facts :
    settlingQ.currentMode = .MODE_POSITION ∧ settlingQ.previousMode = .MODE_HAPTIC ∧
    settlingQ.seek_settle_start = 2000 ∧ settlingQ.seek_start_time = 1000 ∧
    settlingQ.motor.target = 0 ∧ settlingQ.seek_tolerance_rad = 6 / 100 ∧
    settlingQ.motor.controller = .angle := by
  norm_num [settlingQ, loop_quiet, Cycle.quiet, quietCycle, seekingQ, bootQ, initial,
    doSeekPosition, modeDispatch, reportPosition, loopFOC, usub, piQ, getCurrentAngleDeg,
    DEFAULT_REPORT_INTERVAL_MS, DEFAULT_REPORT_THRESHOLD_DEG, SEEK_TIMEOUT_MS, SEEK_SETTLE_MS]

theorem seekingQ_facts :
    seekingQ.currentMode = .MODE_POSITION ∧ seekingQ.previousMode = .MODE_HAPTIC ∧
    seekingQ.seek_settle_start = 0 ∧ seekingQ.seek_start_time = 1000 ∧
    seekingQ.motor.target = 0 ∧ seekingQ.seek_tolerance_rad = 6 / 100 ∧
    seekingQ.motor.controller = .angle := by
  norm_num [seekingQ, bootQ, initial, doSeekPosition]

theorem away_from_target (ms : Nat) :
    seekingQ.seek_tolerance_rad ≤ |(quietCycle 1 ms).shaft_angle - seekingQ.motor.target| := by
  rw [seekingQ_facts.2.2.2.2.1, seekingQ_facts.2.2.2.2.2.1]
  norm_num [quietCycle]

theorem constrain_mem {β : Type} [LinearOrder β] (amt low high : β) (h : low ≤ high) :
    low ≤ constrain amt low high ∧ constrain amt low high ≤ high := by
  unfold constrain
  split_ifs with h1 h2
  · exact ⟨le_refl _, h⟩
  · exact ⟨h, le_refl _⟩
  · exact ⟨not_lt.mp h1, not_lt.mp h2⟩

theorem constrain_of_mem {β : Type} [LinearOrder β] (amt low high : β) (h1 : low ≤ amt)
    (h2 : amt ≤ high) : constrain amt low high = amt := by
  unfold constrain
  rw [if_neg (not_lt.mpr h1), if_neg (not_lt.mpr h2)]

theorem handle_motor_frame (_PI : α) (now now_us : Nat) (cmd : Command α) (s : Knob α) :
    (cmd.handle _PI now now_us s).motor.moved = s.motor.moved ∧
    (cmd.handle _PI now now_us s).motor.voltage_limit = s.motor.voltage_limit := by
  cases cmd with
  | doSeekPosition arg => cases arg <;> exact ⟨rfl, rfl⟩
  | doDetentCount arg => cases arg <;> exact ⟨rfl, rfl⟩
  | doSpringCenter arg => cases arg <;> exact ⟨rfl, rfl⟩
  | doLowerBound arg => cases arg <;> exact ⟨rfl, rfl⟩
  | doUpperBound arg => cases arg <;> exact ⟨rfl, rfl⟩
  | _ => exact ⟨rfl, rfl⟩

theorem commandRun_motor_frame (_PI : α) (c : Cycle α) (s : Knob α) :
    (commandRun _PI c s).motor.moved = s.motor.moved ∧
    (commandRun _PI c s).motor.voltage_limit = s.motor.voltage_limit := by
  unfold commandRun
  generalize c.commands = l
  induction l generalizing s with
  | nil => exact ⟨rfl, rfl⟩
  | cons cmd rest ih =>
    obtain ⟨h1, h2⟩ := handle_motor_frame _PI c.millis c.micros cmd s
    obtain ⟨i1, i2⟩ := ih (cmd.handle _PI c.millis c.micros s)
    exact ⟨by rw [List.foldl_cons, i1, h1], by rw [List.foldl_cons, i2, h2]⟩

theorem switchTorque_voltage_limit (sin : α → α) (_PI : α) (now_us : Nat) (s : Knob α) :
    (switchTorque sin _PI now_us s).2.motor.voltage_limit = s.motor.voltage_limit := by
  unfold switchTorque
  split <;> rfl

theorem modeDispatch_moved (sin : α → α) (_PI : α) (now now_us : Nat) (s : Knob α)
    (hm : s.currentMode ≠ .MODE_POSITION) :
    (modeDispatch sin _PI now now_us s).motor.moved =
      constrain (switchTorque sin _PI now_us s).1 (-s.motor.voltage_limit)
        s.motor.voltage_limit := by
  unfold modeDispatch
  rw [if_neg hm]
  simp only [switchTorque_voltage_limit]

theorem inertia_ne_position : (HapticMode.MODE_INERTIA = HapticMode.MODE_POSITION) = False :=
  eq_false (by decide)

theorem inertiaSeekQ_facts :
    inertiaSeekQ.currentMode = .MODE_POSITION ∧ inertiaSeekQ.previousMode = .MODE_INERTIA ∧
    inertiaSeekQ.motor.shaft_angle = 1 ∧ inertiaSeekQ.virt_pos = 0 ∧
    inertiaSeekQ.virt_vel = 0 ∧ inertiaSeekQ.prev_time_us = 500000 := by
  norm_num [inertiaSeekQ, loop_quiet, Cycle.quiet, quietCycle, bootQ, initial, doInertia,
    resetInertiaState, doSeekPosition, modeDispatch, reportPosition, loopFOC, usub, piQ,
    getCurrentAngleDeg, DEFAULT_REPORT_INTERVAL_MS, INERTIA_REPORT_INTERVAL_MS,
    DEFAULT_REPORT_THRESHOLD_DEG, SEEK_TIMEOUT_MS, SEEK_SETTLE_MS, abs_div, inertia_ne_position]

/-! ## The haptic torque over the reals -/

theorem hapticTorque_eq (sin : α → α) (s : Knob α) (θ v : α) :
    computeHapticTorque sin (withShaft s θ v) =
      s.detent_strength * -(sin ((s.detent_count : α) * θ)) := rfl

theorem hapticTorque_hasDerivAt (s : Knob ℝ) (v θ : ℝ) :
    HasDerivAt (fun x => computeHapticTorque Real.sin (withShaft s x v))
      (-(s.detent_strength * ((s.detent_count : ℝ) * Real.cos ((s.detent_count : ℝ) * θ)))) θ := by
  have h1 : HasDerivAt (fun x : ℝ => (s.detent_count : ℝ) * x) (s.detent_count : ℝ) θ := by
    simpa using (hasDerivAt_id θ).const_mul (s.detent_count : ℝ)
  have h2 : HasDerivAt (fun x : ℝ => Real.sin ((s.detent_count : ℝ) * x))
      (Real.cos ((s.detent_count : ℝ) * θ) * (s.detent_count : ℝ)) θ :=
    (Real.hasDerivAt_sin _).comp θ h1
  have h3 := (h2.neg).const_mul s.detent_strength
  have he : (fun x => computeHapticTorque Real.sin (withShaft s x v)) =
      fun x => s.detent_strength * -(Real.sin ((s.detent_count : ℝ) * x)) := by
    funext x
    exact hapticTorque_eq Real.sin s x v
  rw [he]
  convert h3 using 1
  ring

theorem hapticTorque_deriv (s : Knob ℝ) (v θ : ℝ) :
    deriv (fun x => computeHapticTorque Real.sin (withShaft s x v)) θ =
      -(s.detent_strength * ((s.detent_count : ℝ) * Real.cos ((s.detent_count : ℝ) * θ))) :=
  (hapticTorque_hasDerivAt s v θ).deriv

theorem sin_zero_cos_pos_iff (x : ℝ) : (Real.sin x = 0 ∧ 0 < Real.cos x) ↔ Real.cos x = 1 := by
  constructor
  · rintro ⟨hs, hc⟩
    have h := Real.sin_sq_add_cos_sq x
    rw [hs] at h
    have h2 : (Real.cos x - 1) * (Real.cos x + 1) = 0 := by nlinarith
    rcases mul_eq_zero.mp h2 with h3 | h3
    · linarith
    · linarith
  · intro hc
    have h := Real.sin_sq_add_cos_sq x
    rw [hc] at h
    have h2 : Real.sin x ^ 2 = 0 := by linarith
    exact ⟨pow_eq_zero_iff (by norm_num) |>.mp h2, by rw [hc]; norm_num⟩

theorem springTorque_eq (s : Knob α) (a v : α) :
    computeSpringTorque (withShaft s a v) =
      -s.spring_stiffness * (a - s.spring_center) - s.spring_damping * v := rfl

theorem springTorque_abs (s : Knob α) (a : α) (hk : 0 ≤ s.spring_stiffness) :
    |computeSpringTorque (withShaft s a 0)| = s.spring_stiffness * |a - s.spring_center| := by
  rw [springTorque_eq, mul_zero, sub_zero, neg_mul, abs_neg, abs_mul, abs_of_nonneg hk]

/-! ## The three branches of the bounded torque -/

theorem boundedTorque_lower (sin : α → α) (_PI : α) (s : Knob α) (a v : α)
    (h : a < s.bound_min - 2 * _PI / 180) :
    computeBoundedTorque sin _PI (withShaft s a v) =
      s.wall_strength * ((s.bound_min + 2 * _PI / 180 * 5) - a) - s.wall_damping * v := by
  simp only [computeBoundedTorque, withShaft]
  rw [if_pos h]

theorem boundedTorque_upper (sin : α → α) (_PI : α) (s : Knob α) (a v : α)
    (h1 : ¬ a < s.bound_min - 2 * _PI / 180) (h2 : a > s.bound_max + 2 * _PI / 180) :
    computeBoundedTorque sin _PI (withShaft s a v) =
      -s.wall_strength * (a - (s.bound_max - 2 * _PI / 180 * 5)) - s.wall_damping * v := by
  simp only [computeBoundedTorque, withShaft]
  rw [if_neg h1, if_pos h2]

theorem boundedTorque_inside (sin : α → α) (_PI : α) (s : Knob α) (a v : α)
    (h1 : ¬ a < s.bound_min - 2 * _PI / 180) (h2 : ¬ a > s.bound_max + 2 * _PI / 180) :
    computeBoundedTorque sin _PI (withShaft s a v) =
      s.detent_strength *
        -(sin ((a - s.bound_min) / (s.bound_max - s.bound_min) *
          ((s.detent_count - 1 : Int) : α) * 2 * _PI)) := by
  simp only [computeBoundedTorque, withShaft]
  rw [if_neg h1, if_neg h2]

/-! ## The inertia model -/

theorem usub_eq_referenceElapsed (a b : Nat) : usub a b = referenceElapsed a b := by
  unfold usub referenceElapsed
  omega

theorem usub_self (a : Nat) : usub a a = 0 := by
  unfold usub
  omega

theorem referenceStepSize_mem (now_us prev_us : Nat) :
    (0 : α) < referenceStepSize now_us prev_us ∧
    (referenceStepSize now_us prev_us : α) ≤ 1 / 10 := by
  unfold referenceStepSize
  simp only []
  split_ifs with h
  · exact h
  · constructor <;> norm_num

theorem computeInertiaTorque_eq_reference (now_us : Nat) (s : Knob α) :
    computeInertiaTorque now_us s = referenceInertiaStep now_us s := by
  have hstep : (if (usub now_us s.prev_time_us : α) * (1 / 1000000) ≤ 0 ∨
        (usub now_us s.prev_time_us : α) * (1 / 1000000) > 1 / 10 then (1 / 1000 : α)
      else (usub now_us s.prev_time_us : α) * (1 / 1000000)) =
      referenceStepSize now_us s.prev_time_us := by
    unfold referenceStepSize
    simp only [usub_eq_referenceElapsed]
    by_cases h : (0 : α) < (referenceElapsed now_us s.prev_time_us : α) * (1 / 1000000) ∧
        (referenceElapsed now_us s.prev_time_us : α) * (1 / 1000000) ≤ 1 / 10
    · rw [if_pos h, if_neg]
      rintro (h1 | h1)
      · exact absurd h.1 (not_lt.mpr h1)
      · exact absurd h.2 (not_le.mpr h1)
    · rw [if_neg h, if_pos]
      by_contra hc
      rw [not_or, not_le, gt_iff_lt, not_lt] at hc
      exact h hc
  have hacc : (if s.inertia_friction > 0 then
        if s.virt_vel > 0 then
          (s.coupling_K * (s.motor.shaft_angle - s.virt_pos) - s.inertia_damping * s.virt_vel) /
            s.virtual_inertia - s.inertia_friction
        else if s.virt_vel < 0 then
          (s.coupling_K * (s.motor.shaft_angle - s.virt_pos) - s.inertia_damping * s.virt_vel) /
            s.virtual_inertia + s.inertia_friction
        else
          (s.coupling_K * (s.motor.shaft_angle - s.virt_pos) - s.inertia_damping * s.virt_vel) /
            s.virtual_inertia
      else
        (s.coupling_K * (s.motor.shaft_angle - s.virt_pos) - s.inertia_damping * s.virt_vel) /
          s.virtual_inertia) = referenceAccel s := by
    unfold referenceAccel
    simp only []
    by_cases hf : s.inertia_friction > 0
    · by_cases hv : s.virt_vel > 0
      · rw [if_pos hf, if_pos hv, if_pos ⟨hf, hv⟩]
      · by_cases hw : s.virt_vel < 0
        · rw [if_pos hf, if_neg hv, if_pos hw, if_neg (fun h => hv h.2), if_pos ⟨hf, hw⟩]
        · rw [if_pos hf, if_neg hv, if_neg hw, if_neg (fun h => hv h.2),
            if_neg (fun h => hw h.2)]
    · rw [if_neg hf, if_neg (fun h => hf h.1), if_neg (fun h => hf h.1)]
  unfold computeInertiaTorque referenceInertiaStep
  simp only []
  rw [hstep, hacc]

theorem referenceStepSize_self (t : Nat) : (referenceStepSize t t : α) = 1 / 1000 := by
  have h0 : referenceElapsed t t = 0 := by
    rw [← usub_eq_referenceElapsed]
    exact usub_self t
  unfold referenceStepSize
  simp [h0]

theorem inertia_same_timestamp (t : Nat) (s : Knob α) (h : s.prev_time_us = t) :
    (computeInertiaTorque t s).2.virt_vel = s.virt_vel + referenceAccel s * (1 / 1000) ∧
    (computeInertiaTorque t s).2.virt_pos =
      s.virt_pos + (s.virt_vel + referenceAccel s * (1 / 1000)) * (1 / 1000) := by
  rw [computeInertiaTorque_eq_reference]
  constructor <;> simp only [referenceInertiaStep, h, referenceStepSize_self]

theorem computeInertiaTorque_prev_time (t : Nat) (s : Knob α) :
    (computeInertiaTorque t s).2.prev_time_us = t := rfl

/-! ## The detent count -/

theorem constrain_detent (n : Int) : 2 ≤ constrain n 2 360 ∧ constrain n 2 360 ≤ 360 :=
  constrain_mem n 2 360 (by norm_num)

theorem handle_detent_range (_PI : α) (now now_us : Nat) (cmd : Command α) (s : Knob α)
    (h : 2 ≤ s.detent_count ∧ s.detent_count ≤ 360) :
    2 ≤ (cmd.handle _PI now now_us s).detent_count ∧
    (cmd.handle _PI now now_us s).detent_count ≤ 360 := by
  cases cmd with
  | doDetentCount arg =>
    cases arg with
    | none => exact h
    | some n => exact constrain_detent n
  | doSeekPosition arg => cases arg <;> exact h
  | doSpringCenter arg => cases arg <;> exact h
  | doLowerBound arg => cases arg <;> exact h
  | doUpperBound arg => cases arg <;> exact h
  | _ => exact h

theorem commandRun_detent_range (_PI : α) (c : Cycle α) (s : Knob α)
    (h : 2 ≤ s.detent_count ∧ s.detent_count ≤ 360) :
    2 ≤ (commandRun _PI c s).detent_count ∧ (commandRun _PI c s).detent_count ≤ 360 := by
  unfold commandRun
  generalize c.commands = l
  induction l generalizing s with
  | nil => exact h
  | cons cmd rest ih => exact ih _ (handle_detent_range _PI _ _ cmd s h)

theorem handleButtonAction_detent_count (now_us : Nat) (s : Knob α) :
    (handleButtonAction now_us s).detent_count = s.detent_count := by
  unfold handleButtonAction toggleMode
  split_ifs
  · rfl
  · split <;> rfl

theorem buttonPhase_detent_count (c : Cycle α) (s : Knob α) :
    (buttonPhase c (loopFOC c s)).detent_count = s.detent_count := by
  unfold buttonPhase
  simp only []
  split_ifs
  · rw [handleButtonAction_detent_count]
    rfl
  · rfl

theorem modeDispatch_detent_count (sin : α → α) (_PI : α) (now now_us : Nat) (s : Knob α) :
    (modeDispatch sin _PI now now_us s).detent_count = s.detent_count := by
  unfold modeDispatch switchTorque
  simp only []
  split_ifs <;> first | rfl | (split <;> rfl)

theorem reportPosition_detent_count (_PI : α) (now_us : Nat) (s : Knob α) :
    (reportPosition _PI now_us s).detent_count = s.detent_count := by
  unfold reportPosition
  simp only []
  split_ifs <;> rfl

theorem loop_detent_range (sin : α → α) (_PI : α) (c : Cycle α) (s : Knob α)
    (h : 2 ≤ s.detent_count ∧ s.detent_count ≤ 360) :
    2 ≤ (loop sin _PI c s).detent_count ∧ (loop sin _PI c s).detent_count ≤ 360 := by
  unfold loop
  apply commandRun_detent_range
  rw [reportPosition_detent_count, modeDispatch_detent_count, buttonPhase_detent_count]
  exact h

theorem run_detent_range (sin : α → α) (_PI : α) (evs : List (Event α)) (s : Knob α)
    (h : 2 ≤ s.detent_count ∧ s.detent_count ≤ 360) :
    2 ≤ (run sin _PI evs s).detent_count ∧ (run sin _PI evs s).detent_count ≤ 360 := by
  unfold run
  induction evs generalizing s with
  | nil => exact h
  | cons e rest ih =>
    apply ih
    cases e with
    | command now now_us cmd => exact handle_detent_range _PI now now_us cmd s h
    | button now_us =>
      simp only [Event.apply]
      rw [handleButtonAction_detent_count]
      exact h
    | cycle c => exact loop_detent_range sin _PI c s h

/-! ## Jumps of a real function -/

theorem not_continuousAt_of_gap_above (f : ℝ → ℝ) (x0 L : ℝ) (h0 : f x0 < L)
    (hl : ∀ ε > 0, ∃ x, dist x x0 < ε ∧ L ≤ f x) : ¬ ContinuousAt f x0 := by
  intro hc
  have hev : ∀ᶠ x in nhds x0, f x < L := hc.eventually (Iio_mem_nhds h0)
  obtain ⟨ε, hε, hball⟩ := Metric.eventually_nhds_iff.mp hev
  obtain ⟨x, hx, hfx⟩ := hl ε hε
  exact absurd (hball hx) (not_lt.mpr hfx)

theorem not_continuousAt_of_gap_below (f : ℝ → ℝ) (x0 L : ℝ) (h0 : L < f x0)
    (hl : ∀ ε > 0, ∃ x, dist x x0 < ε ∧ f x ≤ L) : ¬ ContinuousAt f x0 := by
  intro hc
  have hev : ∀ᶠ x in nhds x0, L < f x := hc.eventually (Ioi_mem_nhds h0)
  obtain ⟨ε, hε, hball⟩ := Metric.eventually_nhds_iff.mp hev
  obtain ⟨x, hx, hfx⟩ := hl ε hε
  exact absurd (hball hx) (not_lt.mpr hfx)

theorem detent_abs_le (sin : ℝ → ℝ) (hsin : ∀ x, |sin x| ≤ 1) (A x : ℝ) :
    |A * -(sin x)| ≤ |A| := by
  rw [abs_mul, abs_neg]
  calc |A| * |sin x| ≤ |A| * 1 := mul_le_mul_of_nonneg_left (hsin x) (abs_nonneg A)
    _ = |A| := mul_one _

/-! ## Counting the stable detents of the haptic torque -/

theorem ncard_image_Ico (g : ℤ → ℝ) (hg : Function.Injective g) (c n : ℤ) :
    (g '' Set.Ico c (c + n)).ncard = n.toNat := by
  rw [Set.ncard_image_of_injective _ hg, ← Finset.coe_Ico, Set.ncard_coe_Finset, Int.card_Ico]
  congr 1
  ring

theorem ncard_image_Ioo (g : ℤ → ℝ) (hg : Function.Injective g) (c d : ℤ) :
    (g '' Set.Ioo c d).ncard = (d - c - 1).toNat := by
  rw [Set.ncard_image_of_injective _ hg, ← Finset.coe_Ioo, Set.ncard_coe_Finset, Int.card_Ioo]

theorem stable_detent_iff (s : Knob ℝ) (v : ℝ) (hA : 0 < s.detent_strength)
    (hN : 2 ≤ s.detent_count) (θ : ℝ) :
    (computeHapticTorque Real.sin (withShaft s θ v) = 0 ∧
        deriv (fun x => computeHapticTorque Real.sin (withShaft s x v)) θ < 0) ↔
      ∃ k : ℤ, θ = k * (2 * Real.pi / s.detent_count) := by
  have hNr : (0 : ℝ) < (s.detent_count : ℝ) := by
    have : (0 : ℤ) < s.detent_count := by omega
    exact_mod_cast this
  have hN0 : (s.detent_count : ℝ) ≠ 0 := ne_of_gt hNr
  have hzero : computeHapticTorque Real.sin (withShaft s θ v) = 0 ↔
      Real.sin ((s.detent_count : ℝ) * θ) = 0 := by
    rw [hapticTorque_eq]
    constructor
    · intro h
      rcases mul_eq_zero.mp h with h1 | h1
      · exact absurd h1 (ne_of_gt hA)
      · exact neg_eq_zero.mp h1
    · intro h
      rw [h]
      ring
  have hslope : deriv (fun x => computeHapticTorque Real.sin (withShaft s x v)) θ < 0 ↔
      0 < Real.cos ((s.detent_count : ℝ) * θ) := by
    rw [hapticTorque_deriv]
    have hpos : 0 < s.detent_strength * (s.detent_count : ℝ) := mul_pos hA hNr
    constructor
    · intro h
      by_contra hc
      have hc2 : Real.cos ((s.detent_count : ℝ) * θ) ≤ 0 := not_lt.mp hc
      nlinarith
    · intro h
      nlinarith
  rw [hzero, hslope, sin_zero_cos_pos_iff, Real.cos_eq_one_iff]
  constructor
  · rintro ⟨k, hk⟩
    refine ⟨k, ?_⟩
    field_simp
    linarith
  · rintro ⟨k, hk⟩
    refine ⟨k, ?_⟩
    rw [hk]
    field_simp

/-! ## The detent branch of the bounded torque over the reals -/

theorem detent_position_iff (a lo hi n m : ℝ) (hr : hi - lo ≠ 0) (hn : n ≠ 0) :
    m = (a - lo) / (hi - lo) * n * 2 ↔ a = lo + m * ((hi - lo) / (2 * n)) := by
  constructor
  · intro h
    rw [h]
    field_simp
    ring
  · intro h
    rw [h]
    field_simp
    ring

theorem stable_position_iff (a lo hi n k : ℝ) (hr : hi - lo ≠ 0) (hn : n ≠ 0) :
    k = (a - lo) / (hi - lo) * n ↔ a = lo + k * ((hi - lo) / n) := by
  constructor
  · intro h
    rw [h]
    field_simp
  · intro h
    rw [h]
    field_simp
    ring

theorem boundedTorque_mid (s : Knob ℝ) (a v : ℝ)
    (h1 : s.bound_min - 2 * Real.pi / 180 ≤ a) (h2 : a ≤ s.bound_max + 2 * Real.pi / 180) :
    computeBoundedTorque Real.sin Real.pi (withShaft s a v) =
      s.detent_strength *
        -(Real.sin ((a - s.bound_min) / (s.bound_max - s.bound_min) *
          ((s.detent_count - 1 : Int) : ℝ) * 2 * Real.pi)) :=
  boundedTorque_inside Real.sin Real.pi s a v (not_lt.mpr h1) (not_lt.mpr h2)

theorem bounded_zero_iff (s : Knob ℝ) (a v : ℝ) (hb : s.bound_min < s.bound_max)
    (hN : 2 ≤ s.detent_count) (hA : 0 < s.detent_strength)
    (h1 : s.bound_min - 2 * Real.pi / 180 ≤ a) (h2 : a ≤ s.bound_max + 2 * Real.pi / 180) :
    computeBoundedTorque Real.sin Real.pi (withShaft s a v) = 0 ↔
      ∃ m : ℤ, a = s.bound_min +
        m * ((s.bound_max - s.bound_min) / (2 * ((s.detent_count - 1 : Int) : ℝ))) := by
  have hpi := Real.pi_pos
  have hn : (0 : ℝ) < ((s.detent_count - 1 : Int) : ℝ) := by
    have : (0 : ℤ) < s.detent_count - 1 := by omega
    exact_mod_cast this
  have hr : 0 < s.bound_max - s.bound_min := by linarith
  rw [boundedTorque_mid s a v h1 h2]
  have hz : s.detent_strength *
      -(Real.sin ((a - s.bound_min) / (s.bound_max - s.bound_min) *
        ((s.detent_count - 1 : Int) : ℝ) * 2 * Real.pi)) = 0 ↔
      Real.sin ((a - s.bound_min) / (s.bound_max - s.bound_min) *
        ((s.detent_count - 1 : Int) : ℝ) * 2 * Real.pi) = 0 := by
    constructor
    · intro h
      rcases mul_eq_zero.mp h with h3 | h3
      · exact absurd h3 (ne_of_gt hA)
      · exact neg_eq_zero.mp h3
    · intro h
      rw [h]
      ring
  rw [hz, Real.sin_eq_zero_iff]
  constructor
  · rintro ⟨m, hm⟩
    refine ⟨m, ?_⟩
    have hm2 : (m : ℝ) = (a - s.bound_min) / (s.bound_max - s.bound_min) *
        ((s.detent_count - 1 : Int) : ℝ) * 2 := by
      have h3 : (m : ℝ) * Real.pi = ((a - s.bound_min) / (s.bound_max - s.bound_min) *
          ((s.detent_count - 1 : Int) : ℝ) * 2) * Real.pi := by
        rw [hm]
      exact mul_right_cancel₀ (ne_of_gt hpi) h3
    exact (detent_position_iff a s.bound_min s.bound_max _ m (ne_of_gt hr) (ne_of_gt hn)).mp hm2
  · rintro ⟨m, hm⟩
    refine ⟨m, ?_⟩
    have hm2 := (detent_position_iff a s.bound_min s.bound_max _ m (ne_of_gt hr)
      (ne_of_gt hn)).mpr hm
    rw [hm2]

theorem boundedTorque_hasDerivAt (s : Knob ℝ) (a v : ℝ)
    (h1 : s.bound_min - 2 * Real.pi / 180 < a) (h2 : a < s.bound_max + 2 * Real.pi / 180) :
    HasDerivAt (fun x => computeBoundedTorque Real.sin Real.pi (withShaft s x v))
      (-(s.detent_strength *
        (Real.cos ((a - s.bound_min) / (s.bound_max - s.bound_min) *
            ((s.detent_count - 1 : Int) : ℝ) * 2 * Real.pi) *
          (1 / (s.bound_max - s.bound_min) * ((s.detent_count - 1 : Int) : ℝ) * 2 * Real.pi)))) a := by
  have hphase : HasDerivAt (fun x : ℝ => (x - s.bound_min) / (s.bound_max - s.bound_min) *
      ((s.detent_count - 1 : Int) : ℝ) * 2 * Real.pi)
      (1 / (s.bound_max - s.bound_min) * ((s.detent_count - 1 : Int) : ℝ) * 2 * Real.pi) a := by
    have h0 : HasDerivAt (fun x : ℝ => x - s.bound_min) 1 a := (hasDerivAt_id a).sub_const _
    exact (((h0.div_const (s.bound_max - s.bound_min)).mul_const _).mul_const 2).mul_const
      Real.pi
  have hsin := (Real.hasDerivAt_sin _).comp a hphase
  have hmodel := (hsin.neg).const_mul s.detent_strength
  have hev : (fun x => computeBoundedTorque Real.sin Real.pi (withShaft s x v)) =ᶠ[nhds a]
      fun x => s.detent_strength * -(Real.sin ((x - s.bound_min) / (s.bound_max - s.bound_min) *
        ((s.detent_count - 1 : Int) : ℝ) * 2 * Real.pi)) := by
    have hopen : Set.Ioo (s.bound_min - 2 * Real.pi / 180) (s.bound_max + 2 * Real.pi / 180) ∈
        nhds a := Ioo_mem_nhds h1 h2
    filter_upwards [hopen] with x hx
    exact boundedTorque_mid s x v (le_of_lt hx.1) (le_of_lt hx.2)
  refine HasDerivAt.congr_of_eventuallyEq ?_ hev
  convert hmodel using 1
  ring

theorem bounded_stable_iff (s : Knob ℝ) (a v : ℝ) (hb : s.bound_min < s.bound_max)
    (hN : 2 ≤ s.detent_count) (hA : 0 < s.detent_strength)
    (h1 : s.bound_min - 2 * Real.pi / 180 < a) (h2 : a < s.bound_max + 2 * Real.pi / 180) :
    (computeBoundedTorque Real.sin Real.pi (withShaft s a v) = 0 ∧
        deriv (fun x => computeBoundedTorque Real.sin Real.pi (withShaft s x v)) a < 0) ↔
      ∃ k : ℤ, a = s.bound_min +
        k * ((s.bound_max - s.bound_min) / ((s.detent_count - 1 : Int) : ℝ)) := by
  have hpi := Real.pi_pos
  have hn : (0 : ℝ) < ((s.detent_count - 1 : Int) : ℝ) := by
    have : (0 : ℤ) < s.detent_count - 1 := by omega
    exact_mod_cast this
  have hr : 0 < s.bound_max - s.bound_min := by linarith
  have hc : 0 < 1 / (s.bound_max - s.bound_min) * ((s.detent_count - 1 : Int) : ℝ) * 2 *
      Real.pi := by positivity
  rw [(boundedTorque_hasDerivAt s a v h1 h2).deriv, boundedTorque_mid s a v (le_of_lt h1) (le_of_lt h2)]
  have hz : s.detent_strength *
      -(Real.sin ((a - s.bound_min) / (s.bound_max - s.bound_min) *
        ((s.detent_count - 1 : Int) : ℝ) * 2 * Real.pi)) = 0 ↔
      Real.sin ((a - s.bound_min) / (s.bound_max - s.bound_min) *
        ((s.detent_count - 1 : Int) : ℝ) * 2 * Real.pi) = 0 := by
    constructor
    · intro h
      rcases mul_eq_zero.mp h with h3 | h3
      · exact absurd h3 (ne_of_gt hA)
      · exact neg_eq_zero.mp h3
    · intro h
      rw [h]
      ring
  have hs : -(s.detent_strength *
      (Real.cos ((a - s.bound_min) / (s.bound_max - s.bound_min) *
          ((s.detent_count - 1 : Int) : ℝ) * 2 * Real.pi) *
        (1 / (s.bound_max - s.bound_min) * ((s.detent_count - 1 : Int) : ℝ) * 2 * Real.pi))) < 0 ↔
      0 < Real.cos ((a - s.bound_min) / (s.bound_max - s.bound_min) *
          ((s.detent_count - 1 : Int) : ℝ) * 2 * Real.pi) := by
    have hpos : 0 < s.detent_strength *
        (1 / (s.bound_max - s.bound_min) * ((s.detent_count - 1 : Int) : ℝ) * 2 * Real.pi) :=
      mul_pos hA hc
    constructor
    · intro h
      by_contra hcon
      have hc2 := not_lt.mp hcon
      nlinarith
    · intro h
      nlinarith
  rw [hz, hs, sin_zero_cos_pos_iff, Real.cos_eq_one_iff]
  constructor
  · rintro ⟨k, hk⟩
    refine ⟨k, ?_⟩
    have hk2 : (k : ℝ) = (a - s.bound_min) / (s.bound_max - s.bound_min) *
        ((s.detent_count - 1 : Int) : ℝ) := by
      have h3 : (k : ℝ) * (2 * Real.pi) = ((a - s.bound_min) / (s.bound_max - s.bound_min) *
          ((s.detent_count - 1 : Int) : ℝ)) * (2 * Real.pi) := by
        rw [hk]
        ring
      exact mul_right_cancel₀ (by positivity) h3
    exact (stable_position_iff a s.bound_min s.bound_max _ k (ne_of_gt hr) (ne_of_gt hn)).mp hk2
  · rintro ⟨k, hk⟩
    refine ⟨k, ?_⟩
    have hk2 := (stable_position_iff a s.bound_min s.bound_max _ k (ne_of_gt hr)
      (ne_of_gt hn)).mpr hk
    rw [hk2]
    ring

theorem bounded_zero_count (s : Knob ℝ) (v : ℝ) (hb : s.bound_min < s.bound_max)
    (hN : 2 ≤ s.detent_count) (hA : 0 < s.detent_strength) :
    Set.ncard {a : ℝ | s.bound_min < a ∧ a < s.bound_max ∧
      computeBoundedTorque Real.sin Real.pi (withShaft s a v) = 0} =
      (2 * s.detent_count - 3).toNat := by
  have hpi := Real.pi_pos
  have hn : (0 : ℝ) < ((s.detent_count - 1 : Int) : ℝ) := by
    have : (0 : ℤ) < s.detent_count - 1 := by omega
    exact_mod_cast this
  have hr : 0 < s.bound_max - s.bound_min := by linarith
  have hq : 0 < (s.bound_max - s.bound_min) / (2 * ((s.detent_count - 1 : Int) : ℝ)) := by
    positivity
  have hspan : ((2 * (s.detent_count - 1) : Int) : ℝ) *
      ((s.bound_max - s.bound_min) / (2 * ((s.detent_count - 1 : Int) : ℝ))) =
      s.bound_max - s.bound_min := by
    push_cast
    have hn' : (s.detent_count : ℝ) - 1 ≠ 0 := by
      have := ne_of_gt hn
      push_cast at this
      exact this
    field_simp
  have hinj : Function.Injective (fun m : ℤ => s.bound_min +
      (m : ℝ) * ((s.bound_max - s.bound_min) / (2 * ((s.detent_count - 1 : Int) : ℝ)))) := by
    intro m1 m2 h
    have h2 : (m1 : ℝ) = m2 := mul_right_cancel₀ (ne_of_gt hq) (add_left_cancel h)
    exact_mod_cast h2
  have hset : {a : ℝ | s.bound_min < a ∧ a < s.bound_max ∧
      computeBoundedTorque Real.sin Real.pi (withShaft s a v) = 0} =
      (fun m : ℤ => s.bound_min +
        (m : ℝ) * ((s.bound_max - s.bound_min) / (2 * ((s.detent_count - 1 : Int) : ℝ)))) ''
        Set.Ioo 0 (2 * (s.detent_count - 1)) := by
    ext a
    simp only [Set.mem_setOf_eq, Set.mem_image, Set.mem_Ioo]
    constructor
    · rintro ⟨h1, h2, h3⟩
      obtain ⟨m, hm⟩ := (bounded_zero_iff s a v hb hN hA (by linarith) (by linarith)).mp h3
      refine ⟨m, ⟨?_, ?_⟩, hm.symm⟩
      · have h4 : (0 : ℝ) < (m : ℝ) *
            ((s.bound_max - s.bound_min) / (2 * ((s.detent_count - 1 : Int) : ℝ))) := by
          linarith
        have h5 : (0 : ℝ) < (m : ℝ) := (mul_pos_iff_of_pos_right hq).mp h4
        exact_mod_cast h5
      · have h4 : (m : ℝ) * ((s.bound_max - s.bound_min) /
            (2 * ((s.detent_count - 1 : Int) : ℝ))) <
            ((2 * (s.detent_count - 1) : Int) : ℝ) *
              ((s.bound_max - s.bound_min) / (2 * ((s.detent_count - 1 : Int) : ℝ))) := by
          rw [hspan]
          linarith
        have h5 : (m : ℝ) < ((2 * (s.detent_count - 1) : Int) : ℝ) :=
          lt_of_mul_lt_mul_right h4 (le_of_lt hq)
        exact_mod_cast h5
    · rintro ⟨m, ⟨h1, h2⟩, hm⟩
      have h1r : (0 : ℝ) < (m : ℝ) := by exact_mod_cast h1
      have h2r : (m : ℝ) < ((2 * (s.detent_count - 1) : Int) : ℝ) := by exact_mod_cast h2
      have h3 : (0 : ℝ) < (m : ℝ) *
          ((s.bound_max - s.bound_min) / (2 * ((s.detent_count - 1 : Int) : ℝ))) :=
        mul_pos h1r hq
      have h4 : (m : ℝ) * ((s.bound_max - s.bound_min) /
          (2 * ((s.detent_count - 1 : Int) : ℝ))) < s.bound_max - s.bound_min := by
        have h5 := mul_lt_mul_of_pos_right h2r hq
        rw [hspan] at h5
        exact h5
      have ha1 : s.bound_min < a := by linarith
      have ha2 : a < s.bound_max := by linarith
      exact ⟨ha1, ha2, (bounded_zero_iff s a v hb hN hA (by linarith) (by linarith)).mpr
        ⟨m, hm.symm⟩⟩
  rw [hset, ncard_image_Ioo _ hinj]
  congr 1
  ring

theorem bounded_stable_count (s : Knob ℝ) (v : ℝ) (hb : s.bound_min < s.bound_max)
    (hN : 2 ≤ s.detent_count) (hA : 0 < s.detent_strength) :
    Set.ncard {a : ℝ | s.bound_min < a ∧ a < s.bound_max ∧
      computeBoundedTorque Real.sin Real.pi (withShaft s a v) = 0 ∧
      deriv (fun x => computeBoundedTorque Real.sin Real.pi (withShaft s x v)) a < 0} =
      (s.detent_count - 2).toNat := by
  have hpi := Real.pi_pos
  have hn : (0 : ℝ) < ((s.detent_count - 1 : Int) : ℝ) := by
    have : (0 : ℤ) < s.detent_count - 1 := by omega
    exact_mod_cast this
  have hr : 0 < s.bound_max - s.bound_min := by linarith
  have hq : 0 < (s.bound_max - s.bound_min) / ((s.detent_count - 1 : Int) : ℝ) := by
    positivity
  have hspan : ((s.detent_count - 1 : Int) : ℝ) *
      ((s.bound_max - s.bound_min) / ((s.detent_count - 1 : Int) : ℝ)) =
      s.bound_max - s.bound_min := by
    rw [mul_comm, div_mul_cancel₀ _ (ne_of_gt hn)]
  have hinj : Function.Injective (fun k : ℤ => s.bound_min +
      (k : ℝ) * ((s.bound_max - s.bound_min) / ((s.detent_count - 1 : Int) : ℝ))) := by
    intro k1 k2 h
    have h2 : (k1 : ℝ) = k2 := mul_right_cancel₀ (ne_of_gt hq) (add_left_cancel h)
    exact_mod_cast h2
  have hset : {a : ℝ | s.bound_min < a ∧ a < s.bound_max ∧
      computeBoundedTorque Real.sin Real.pi (withShaft s a v) = 0 ∧
      deriv (fun x => computeBoundedTorque Real.sin Real.pi (withShaft s x v)) a < 0} =
      (fun k : ℤ => s.bound_min +
        (k : ℝ) * ((s.bound_max - s.bound_min) / ((s.detent_count - 1 : Int) : ℝ))) ''
        Set.Ioo 0 (s.detent_count - 1) := by
    ext a
    simp only [Set.mem_setOf_eq, Set.mem_image, Set.mem_Ioo]
    constructor
    · rintro ⟨h1, h2, h3⟩
      obtain ⟨k, hk⟩ := (bounded_stable_iff s a v hb hN hA (by linarith) (by linarith)).mp h3
      refine ⟨k, ⟨?_, ?_⟩, hk.symm⟩
      · have h4 : (0 : ℝ) < (k : ℝ) *
            ((s.bound_max - s.bound_min) / ((s.detent_count - 1 : Int) : ℝ)) := by
          linarith
        have h5 : (0 : ℝ) < (k : ℝ) := (mul_pos_iff_of_pos_right hq).mp h4
        exact_mod_cast h5
      · have h4 : (k : ℝ) * ((s.bound_max - s.bound_min) /
            ((s.detent_count - 1 : Int) : ℝ)) <
            ((s.detent_count - 1 : Int) : ℝ) *
              ((s.bound_max - s.bound_min) / ((s.detent_count - 1 : Int) : ℝ)) := by
          rw [hspan]
          linarith
        have h5 : (k : ℝ) < ((s.detent_count - 1 : Int) : ℝ) :=
          lt_of_mul_lt_mul_right h4 (le_of_lt hq)
        exact_mod_cast h5
    · rintro ⟨k, ⟨h1, h2⟩, hk⟩
      have h1r : (0 : ℝ) < (k : ℝ) := by exact_mod_cast h1
      have h2r : (k : ℝ) < ((s.detent_count - 1 : Int) : ℝ) := by exact_mod_cast h2
      have h3 : (0 : ℝ) < (k : ℝ) *
          ((s.bound_max - s.bound_min) / ((s.detent_count - 1 : Int) : ℝ)) :=
        mul_pos h1r hq
      have h4 : (k : ℝ) * ((s.bound_max - s.bound_min) /
          ((s.detent_count - 1 : Int) : ℝ)) < s.bound_max - s.bound_min := by
        have h5 := mul_lt_mul_of_pos_right h2r hq
        rw [hspan] at h5
        exact h5
      have ha1 : s.bound_min < a := by linarith
      have ha2 : a < s.bound_max := by linarith
      exact ⟨ha1, ha2, (bounded_stable_iff s a v hb hN hA (by linarith) (by linarith)).mpr
        ⟨k, hk.symm⟩⟩
  rw [hset, ncard_image_Ioo _ hinj]
  congr 1
  ring

/-! ## The controller type follows the mode -/

theorem handle_controller_inv (_PI : α) (now now_us : Nat) (cmd : Command α) (s : Knob α)
    (h : s.previousMode ≠ .MODE_POSITION ∧
      (s.motor.controller = .angle ↔ s.currentMode = .MODE_POSITION)) :
    (cmd.handle _PI now now_us s).previousMode ≠ .MODE_POSITION ∧
    ((cmd.handle _PI now now_us s).motor.controller = .angle ↔
      (cmd.handle _PI now now_us s).currentMode = .MODE_POSITION) := by
  refine ⟨handle_previousMode_ne _PI now now_us cmd s h.1, ?_⟩
  cases cmd with
  | doSeekPosition arg =>
    cases arg with
    | none => exact h.2
    | some d => simp [Command.handle, doSeekPosition]
  | doDetentCount arg => cases arg <;> exact h.2
  | doSpringCenter arg => cases arg <;> exact h.2
  | doLowerBound arg => cases arg <;> exact h.2
  | doUpperBound arg => cases arg <;> exact h.2
  | doHaptic => simp [Command.handle, doHaptic]
  | doInertia => simp [Command.handle, doInertia, resetInertiaState]
  | doSpring => simp [Command.handle, doSpring]
  | doBounded => simp [Command.handle, doBounded]
  | _ => exact h.2

theorem commandRun_controller_inv (_PI : α) (c : Cycle α) (s : Knob α)
    (h : s.previousMode ≠ .MODE_POSITION ∧
      (s.motor.controller = .angle ↔ s.currentMode = .MODE_POSITION)) :
    (commandRun _PI c s).previousMode ≠ .MODE_POSITION ∧
    ((commandRun _PI c s).motor.controller = .angle ↔
      (commandRun _PI c s).currentMode = .MODE_POSITION) := by
  unfold commandRun
  generalize c.commands = l
  induction l generalizing s with
  | nil => exact h
  | cons cmd rest ih => exact ih _ (handle_controller_inv _PI _ _ cmd s h)

theorem handleButtonAction_controller_inv (now_us : Nat) (s : Knob α)
    (h : s.previousMode ≠ .MODE_POSITION ∧
      (s.motor.controller = .angle ↔ s.currentMode = .MODE_POSITION)) :
    (handleButtonAction now_us s).previousMode ≠ .MODE_POSITION ∧
    ((handleButtonAction now_us s).motor.controller = .angle ↔
      (handleButtonAction now_us s).currentMode = .MODE_POSITION) := by
  refine ⟨by rw [handleButtonAction_previousMode]; exact h.1, ?_⟩
  unfold handleButtonAction toggleMode
  split_ifs with hm
  · simp [h.1]
  · split <;> simp [doInertia, doSpring, doBounded, doHaptic, resetInertiaState]

theorem buttonPhase_controller_inv (c : Cycle α) (s : Knob α)
    (h : s.previousMode ≠ .MODE_POSITION ∧
      (s.motor.controller = .angle ↔ s.currentMode = .MODE_POSITION)) :
    (buttonPhase c (loopFOC c s)).previousMode ≠ .MODE_POSITION ∧
    ((buttonPhase c (loopFOC c s)).motor.controller = .angle ↔
      (buttonPhase c (loopFOC c s)).currentMode = .MODE_POSITION) := by
  unfold buttonPhase
  simp only []
  split_ifs
  · exact handleButtonAction_controller_inv _ _ h
  · exact h

theorem modeDispatch_controller_inv (sin : α → α) (_PI : α) (now now_us : Nat) (s : Knob α)
    (h : s.previousMode ≠ .MODE_POSITION ∧
      (s.motor.controller = .angle ↔ s.currentMode = .MODE_POSITION)) :
    (modeDispatch sin _PI now now_us s).previousMode ≠ .MODE_POSITION ∧
    ((modeDispatch sin _PI now now_us s).motor.controller = .angle ↔
      (modeDispatch sin _PI now now_us s).currentMode = .MODE_POSITION) := by
  refine ⟨by rw [modeDispatch_previousMode]; exact h.1, ?_⟩
  obtain ⟨h1, h2⟩ := h
  unfold modeDispatch switchTorque
  simp only []
  split_ifs with hm <;> first
    | (simp_all [resetInertiaState]; done)
    | (split <;> simp_all [computeInertiaTorque])

theorem loop_controller_inv (sin : α → α) (_PI : α) (c : Cycle α) (s : Knob α)
    (h : s.previousMode ≠ .MODE_POSITION ∧
      (s.motor.controller = .angle ↔ s.currentMode = .MODE_POSITION)) :
    (loop sin _PI c s).previousMode ≠ .MODE_POSITION ∧
    ((loop sin _PI c s).motor.controller = .angle ↔
      (loop sin _PI c s).currentMode = .MODE_POSITION) := by
  unfold loop
  apply commandRun_controller_inv
  obtain ⟨r1, r2, r3, -⟩ := reportPosition_frame _PI c.micros
    (modeDispatch sin _PI c.millis c.micros (buttonPhase c (loopFOC c s)))
  rw [r1, r2, r3]
  exact modeDispatch_controller_inv sin _PI _ _ _ (buttonPhase_controller_inv c s h)

theorem run_controller_inv (sin : α → α) (_PI : α) (evs : List (Event α)) (s : Knob α)
    (h : s.previousMode ≠ .MODE_POSITION ∧
      (s.motor.controller = .angle ↔ s.currentMode = .MODE_POSITION)) :
    (run sin _PI evs s).previousMode ≠ .MODE_POSITION ∧
    ((run sin _PI evs s).motor.controller = .angle ↔
      (run sin _PI evs s).currentMode = .MODE_POSITION) := by
  unfold run
  induction evs generalizing s with
  | nil => exact h
  | cons e rest ih =>
    apply ih
    cases e with
    | command now now_us cmd => exact handle_controller_inv _PI now now_us cmd s h
    | button now_us => exact handleButtonAction_controller_inv now_us s h
    | cycle c => exact loop_controller_inv sin _PI c s h

theorem loop_moved_eq (sin : α → α) (_PI : α) (c : Cycle α) (s : Knob α) :
    (loop sin _PI c s).motor.moved =
      (modeDispatch sin _PI c.millis c.micros (buttonPhase c (loopFOC c s))).motor.moved := by
  unfold loop
  rw [(commandRun_motor_frame _PI c _).1, (reportPosition_frame _PI c.micros _).2.2.1]

theorem inertia_rest_step (now_us : Nat) (s : Knob α) (hp : s.virt_pos = s.motor.shaft_angle)
    (hv : s.virt_vel = 0) :
    (computeInertiaTorque now_us s).1 = 0 ∧
    (computeInertiaTorque now_us s).2.virt_pos = s.virt_pos ∧
    (computeInertiaTorque now_us s).2.virt_vel = s.virt_vel ∧
    (computeInertiaTorque now_us s).2.motor = s.motor := by
  have ha : referenceAccel s = 0 := by
    unfold referenceAccel
    simp [hp, hv]
  rw [computeInertiaTorque_eq_reference]
  unfold referenceInertiaStep
  simp only [ha, hp, hv]
  refine ⟨by ring, by ring, by ring, trivial⟩

theorem inertia_rest_run (ts : List Nat) :
    ∀ s : Knob α, s.virt_pos = s.motor.shaft_angle → s.virt_vel = 0 →
    (ts.foldl (fun st t => (computeInertiaTorque t st).2) s).virt_pos = s.virt_pos ∧
    (ts.foldl (fun st t => (computeInertiaTorque t st).2) s).virt_vel = s.virt_vel := by
  induction ts with
  | nil =>
    intro s _ _
    exact ⟨rfl, rfl⟩
  | cons t rest ih =>
    intro s hp hv
    obtain ⟨-, h2, h3, h4⟩ := inertia_rest_step t s hp hv
    obtain ⟨i1, i2⟩ := ih (computeInertiaTorque t s).2 (by rw [h2, h4, hp]) (by rw [h3, hv])
    rw [List.foldl_cons]
    exact ⟨by rw [i1, h2], by rw [i2, h3]⟩

/-! ## Passes of `loop()` with commands and button activity while a seek has timed out -/

theorem handle_seek_frame (_PI : α) (now now_us : Nat) (cmd : Command α) (s : Knob α)
    (h : cmd.isSeek = false) :
    (cmd.handle _PI now now_us s).previousMode = s.previousMode ∧
    (cmd.handle _PI now now_us s).seek_start_time = s.seek_start_time ∧
    (cmd.handle _PI now now_us s).seek_settle_start = s.seek_settle_start ∧
    ((cmd.handle _PI now now_us s).currentMode = s.currentMode ∨
      (cmd.handle _PI now now_us s).currentMode ≠ .MODE_POSITION) ∧
    (cmd.isMode = false → (cmd.handle _PI now now_us s).currentMode = s.currentMode) := by
  cases cmd with
  | doSeekPosition arg =>
    cases arg with
    | none => exact ⟨rfl, rfl, rfl, Or.inl rfl, fun _ => rfl⟩
    | some d => simp [Command.isSeek] at h
  | doDetentCount arg => cases arg <;> exact ⟨rfl, rfl, rfl, Or.inl rfl, fun _ => rfl⟩
  | doSpringCenter arg => cases arg <;> exact ⟨rfl, rfl, rfl, Or.inl rfl, fun _ => rfl⟩
  | doLowerBound arg => cases arg <;> exact ⟨rfl, rfl, rfl, Or.inl rfl, fun _ => rfl⟩
  | doUpperBound arg => cases arg <;> exact ⟨rfl, rfl, rfl, Or.inl rfl, fun _ => rfl⟩
  | doHaptic =>
    exact ⟨rfl, rfl, rfl, Or.inr (by simp [Command.handle, doHaptic]),
      fun h => by simp [Command.isMode] at h⟩
  | doInertia =>
    exact ⟨rfl, rfl, rfl, Or.inr (by simp [Command.handle, doInertia, resetInertiaState]),
      fun h => by simp [Command.isMode] at h⟩
  | doSpring =>
    exact ⟨rfl, rfl, rfl, Or.inr (by simp [Command.handle, doSpring]),
      fun h => by simp [Command.isMode] at h⟩
  | doBounded =>
    exact ⟨rfl, rfl, rfl, Or.inr (by simp [Command.handle, doBounded]),
      fun h => by simp [Command.isMode] at h⟩
  | _ => exact ⟨rfl, rfl, rfl, Or.inl rfl, fun _ => rfl⟩

theorem handle_userBtn (_PI : α) (now now_us : Nat) (cmd : Command α) (s : Knob α) :
    (cmd.handle _PI now now_us s).userBtn = s.userBtn := by
  cases cmd with
  | doSeekPosition arg => cases arg <;> rfl
  | doDetentCount arg => cases arg <;> rfl
  | doSpringCenter arg => cases arg <;> rfl
  | doLowerBound arg => cases arg <;> rfl
  | doUpperBound arg => cases arg <;> rfl
  | _ => rfl

theorem commandRun_userBtn (_PI : α) (c : Cycle α) (s : Knob α) :
    (commandRun _PI c s).userBtn = s.userBtn := by
  unfold commandRun
  generalize c.commands = l
  induction l generalizing s with
  | nil => rfl
  | cons cmd rest ih => rw [List.foldl_cons, ih, handle_userBtn]

/-- Command lines none of which starts a seek leave `previousMode` and the two seek
timers as they are; the mode stays as it is or becomes a haptic mode, and it stays as
it is when none of them selects a mode. -/
theorem commandRun_seek_frame (_PI : α) (c : Cycle α) (s : Knob α)
    (h : ∀ cmd ∈ c.commands, cmd.isSeek = false) :
    (commandRun _PI c s).previousMode = s.previousMode ∧
    (commandRun _PI c s).seek_start_time = s.seek_start_time ∧
    (commandRun _PI c s).seek_settle_start = s.seek_settle_start ∧
    ((commandRun _PI c s).currentMode = s.currentMode ∨
      (commandRun _PI c s).currentMode ≠ .MODE_POSITION) ∧
    ((∀ cmd ∈ c.commands, cmd.isMode = false) →
      (commandRun _PI c s).currentMode = s.currentMode) := by
  unfold commandRun
  generalize c.commands = l at h
  induction l generalizing s with
  | nil => exact ⟨rfl, rfl, rfl, Or.inl rfl, fun _ => rfl⟩
  | cons cmd rest ih =>
    obtain ⟨a1, a2, a3, a4, a5⟩ :=
      handle_seek_frame _PI c.millis c.micros cmd s (h cmd (List.mem_cons_self _ _))
    obtain ⟨b1, b2, b3, b4, b5⟩ :=
      ih (cmd.handle _PI c.millis c.micros s) (fun x hx => h x (List.mem_cons_of_mem _ hx))
    rw [List.foldl_cons]
    refine ⟨by rw [b1, a1], by rw [b2, a2], by rw [b3, a3], ?_, ?_⟩
    · rcases b4 with b4 | b4
      · rcases a4 with a4 | a4
        · left
          rw [b4, a4]
        · right
          rw [b4]
          exact a4
      · exact Or.inr b4
    · intro hm
      rw [b5 (fun x hx => hm x (List.mem_cons_of_mem _ hx)), a5 (hm cmd (List.mem_cons_self _ _))]

/-- The button part of a pass leaves `previousMode` and the two seek timers as they
are; a detected press ends a seek or moves to the next haptic mode, and without a
detected press the mode stays as it is. -/
theorem buttonPhase_seek_frame (c : Cycle α) (s : Knob α)
    (hp : s.previousMode ≠ .MODE_POSITION) :
    (buttonPhase c (loopFOC c s)).previousMode = s.previousMode ∧
    (buttonPhase c (loopFOC c s)).seek_start_time = s.seek_start_time ∧
    (buttonPhase c (loopFOC c s)).seek_settle_start = s.seek_settle_start ∧
    (buttonPhase c (loopFOC c s)).userBtn = (checkButtonPress c.pin c.millis s.userBtn).2 ∧
    ((buttonPhase c (loopFOC c s)).currentMode = s.currentMode ∨
      (buttonPhase c (loopFOC c s)).currentMode ≠ .MODE_POSITION) ∧
    ((checkButtonPress c.pin c.millis s.userBtn).1 = false →
      (buttonPhase c (loopFOC c s)).currentMode = s.currentMode) := by
  unfold buttonPhase handleButtonAction toggleMode
  simp only [loopFOC]
  split_ifs with h1 h2
  · exact ⟨rfl, rfl, rfl, rfl, Or.inr hp, fun h => by rw [h] at h1; cases h1⟩
  · refine ⟨?_, ?_, ?_, ?_, Or.inr ?_, fun h => by rw [h] at h1; cases h1⟩ <;>
      (split <;> simp [doInertia, doSpring, doBounded, doHaptic, resetInertiaState])
  · exact ⟨rfl, rfl, rfl, rfl, Or.inl rfl, fun _ => rfl⟩

/-- The button part of a pass that starts in PositionSeek leaves the seek alone or
ends it with `currentMode = previousMode`. -/
theorem buttonPhase_abort (c : Cycle α) (s : Knob α) (hm : s.currentMode = .MODE_POSITION) :
    (buttonPhase c (loopFOC c s)).currentMode = .MODE_POSITION ∨
    (buttonPhase c (loopFOC c s)).currentMode = s.previousMode := by
  unfold buttonPhase handleButtonAction
  simp only [loopFOC, hm, if_true]
  split_ifs
  · exact Or.inr rfl
  · exact Or.inl rfl

theorem modeDispatch_not_seek (sin : α → α) (_PI : α) (now now_us : Nat) (s : Knob α)
    (hm : s.currentMode ≠ .MODE_POSITION) :
    (modeDispatch sin _PI now now_us s).currentMode = s.currentMode ∧
    (modeDispatch sin _PI now now_us s).previousMode = s.previousMode ∧
    (modeDispatch sin _PI now now_us s).seek_start_time = s.seek_start_time ∧
    (modeDispatch sin _PI now now_us s).seek_settle_start = s.seek_settle_start := by
  unfold modeDispatch switchTorque
  simp only [hm, if_false]
  rcases hc : s.currentMode with _ | _ | _ | _ | _ <;>
    simp_all [computeInertiaTorque]

theorem modeDispatch_userBtn (sin : α → α) (_PI : α) (now now_us : Nat) (s : Knob α) :
    (modeDispatch sin _PI now now_us s).userBtn = s.userBtn := by
  unfold modeDispatch switchTorque
  simp only []
  split_ifs <;> first | rfl | (split <;> rfl)

theorem reportPosition_userBtn (_PI : α) (now_us : Nat) (s : Knob α) :
    (reportPosition _PI now_us s).userBtn = s.userBtn := by
  unfold reportPosition
  simp only []
  split_ifs <;> rfl

theorem loop_userBtn (sin : α → α) (_PI : α) (c : Cycle α) (s : Knob α)
    (hp : s.previousMode ≠ .MODE_POSITION) :
    (loop sin _PI c s).userBtn = (checkButtonPress c.pin c.millis s.userBtn).2 := by
  unfold loop
  rw [commandRun_userBtn, reportPosition_userBtn, modeDispatch_userBtn,
    (buttonPhase_seek_frame c s hp).2.2.2.1]

/-- The mode dispatch of a seek that has timed out by time `T ≤ now`, with the settle
timer not after `T` and either running or `now = T`: afterwards the seek has ended,
or the settle timer runs from a time not after `T`; when `now - T > 200` the seek has
ended, with `currentMode = previousMode`. -/
theorem timed_out_dispatch (sin : α → α) (_PI : α) (T now now_us : Nat) (s : Knob α)
    (hm : s.currentMode = .MODE_POSITION) (hTn : T ≤ now)
    (hn : now < 4294967296) (hst : s.seek_start_time ≤ T)
    (hto : T - s.seek_start_time > 10000) (hse : s.seek_settle_start ≤ T)
    (hz : s.seek_settle_start ≠ 0 ∨ now = T) :
    ((modeDispatch sin _PI now now_us s).currentMode = s.previousMode ∨
      ((modeDispatch sin _PI now now_us s).currentMode = .MODE_POSITION ∧
        (modeDispatch sin _PI now now_us s).seek_settle_start ≠ 0 ∧
        (modeDispatch sin _PI now now_us s).seek_settle_start ≤ T)) ∧
    (s.seek_settle_start ≠ 0 → now - T > 200 →
      (modeDispatch sin _PI now now_us s).currentMode = s.previousMode) := by
  obtain ⟨-, -, -, -, -, -, hA, -⟩ := modeDispatch_seek sin _PI now now_us s hm
  have hc : |s.motor.shaft_angle - s.motor.target| < s.seek_tolerance_rad ∨
      usub now s.seek_start_time > 10000 := by
    right
    rw [usub_eq_sub _ _ (by omega) hn]
    omega
  obtain ⟨hA1, hA2, hA3⟩ := hA hc
  constructor
  · by_cases h0 : s.seek_settle_start = 0
    · obtain ⟨a1, a2, -⟩ := hA1 h0
      right
      rw [a2]
      rcases hz with hz | hz
      · exact absurd h0 hz
      · exact ⟨a1, by omega, by omega⟩
    · by_cases ht : usub now s.seek_settle_start > 200
      · left
        exact (hA2 h0 ht).1
      · obtain ⟨a1, a2, -⟩ := hA3 h0 ht
        right
        rw [a2]
        exact ⟨a1, h0, hse⟩
  · intro h0 h200
    have ht : usub now s.seek_settle_start > 200 := by
      rw [usub_eq_sub _ _ (by omega) hn]
      omega
    exact (hA2 h0 ht).1

/-- One pass of `loop()` at or after `T`, with any button activity and any command
lines other than a new seek, over the situation "timed out by `T`; the seek has
ended or its settle timer runs from a time not after `T`" (at `T` itself the timer
may still be 0): the situation is kept, and a pass later than `T + 200` ends the
seek; if it starts in PositionSeek, `currentMode = previousMode` after its dispatch. -/
theorem timed_out_step (sin : α → α) (_PI : α) (T : Nat) (p : HapticMode)
    (hp : p ≠ .MODE_POSITION) (x : Cycle α) (st : Knob α)
    (hx : x.millis < 4294967296) (hT : T ≤ x.millis)
    (hcmd : ∀ cmd ∈ x.commands, cmd.isSeek = false)
    (h : st.previousMode = p ∧ st.seek_start_time ≤ T ∧ T - st.seek_start_time > 10000 ∧
      (st.currentMode ≠ .MODE_POSITION ∨
        (st.currentMode = .MODE_POSITION ∧ st.seek_settle_start ≤ T ∧
          (st.seek_settle_start ≠ 0 ∨ x.millis = T)))) :
    ((loop sin _PI x st).previousMode = p ∧ (loop sin _PI x st).seek_start_time ≤ T ∧
      T - (loop sin _PI x st).seek_start_time > 10000 ∧
      ((loop sin _PI x st).currentMode ≠ .MODE_POSITION ∨
        ((loop sin _PI x st).currentMode = .MODE_POSITION ∧
          (loop sin _PI x st).seek_settle_start ≤ T ∧
          (loop sin _PI x st).seek_settle_start ≠ 0))) ∧
    (x.millis - T > 200 →
      (loop sin _PI x st).currentMode ≠ .MODE_POSITION ∧
      (st.currentMode = .MODE_POSITION →
        (modeDispatch sin _PI x.millis x.micros (buttonPhase x (loopFOC x st))).currentMode
          = p)) := by
  obtain ⟨h1, h2, h3, h4⟩ := h
  have hpst : st.previousMode ≠ .MODE_POSITION := by rw [h1]; exact hp
  obtain ⟨b1, b2, b3, -, b5, -⟩ := buttonPhase_seek_frame x st hpst
  obtain ⟨r1, r2, -, r4, r5, -⟩ := reportPosition_frame _PI x.micros
    (modeDispatch sin _PI x.millis x.micros (buttonPhase x (loopFOC x st)))
  obtain ⟨k1, k2, k3, k4, -⟩ := commandRun_seek_frame _PI x
    (reportPosition _PI x.micros
      (modeDispatch sin _PI x.millis x.micros (buttonPhase x (loopFOC x st)))) hcmd
  -- the state after the dispatch
  have hd : (modeDispatch sin _PI x.millis x.micros (buttonPhase x (loopFOC x st))).previousMode
        = p ∧
      (modeDispatch sin _PI x.millis x.micros (buttonPhase x (loopFOC x st))).seek_start_time
        = st.seek_start_time ∧
      ((modeDispatch sin _PI x.millis x.micros (buttonPhase x (loopFOC x st))).currentMode
          ≠ .MODE_POSITION ∨
        ((modeDispatch sin _PI x.millis x.micros (buttonPhase x (loopFOC x st))).currentMode
            = .MODE_POSITION ∧
          (modeDispatch sin _PI x.millis x.micros
            (buttonPhase x (loopFOC x st))).seek_settle_start ≤ T ∧
          (modeDispatch sin _PI x.millis x.micros
            (buttonPhase x (loopFOC x st))).seek_settle_start ≠ 0)) ∧
      (x.millis - T > 200 →
        (modeDispatch sin _PI x.millis x.micros (buttonPhase x (loopFOC x st))).currentMode
          ≠ .MODE_POSITION ∧
        (st.currentMode = .MODE_POSITION →
          (modeDispatch sin _PI x.millis x.micros (buttonPhase x (loopFOC x st))).currentMode
            = p)) := by
    by_cases hbm : (buttonPhase x (loopFOC x st)).currentMode = .MODE_POSITION
    · -- the button left the seek alone, so it was a seek before
      have hsm : st.currentMode = .MODE_POSITION := by
        rcases b5 with b5 | b5
        · rw [← b5]
          exact hbm
        · exact absurd hbm b5
      have h4b : st.seek_settle_start ≤ T ∧ (st.seek_settle_start ≠ 0 ∨ x.millis = T) := by
        rcases h4 with h4 | h4
        · exact absurd hsm h4
        · exact h4.2
      obtain ⟨m1, m2, -⟩ := modeDispatch_seek sin _PI x.millis x.micros _ hbm
      obtain ⟨t1, t2⟩ := timed_out_dispatch sin _PI T x.millis x.micros
        (buttonPhase x (loopFOC x st)) hbm hT hx (by rw [b2]; exact h2)
        (by rw [b2]; exact h3) (by rw [b3]; exact h4b.1) (by rw [b3]; exact h4b.2)
      rw [b1, h1] at t1 t2
      refine ⟨by rw [m1, b1, h1], by rw [m2, b2], ?_, ?_⟩
      · rcases t1 with t1 | ⟨t1, t3, t4⟩
        · left
          rw [t1]
          exact hp
        · exact Or.inr ⟨t1, t4, t3⟩
      · intro h200
        have hnz : (buttonPhase x (loopFOC x st)).seek_settle_start ≠ 0 := by
          rw [b3]
          rcases h4b.2 with h | h
          · exact h
          · omega
        have := t2 hnz h200
        exact ⟨by rw [this]; exact hp, fun _ => this⟩
    · obtain ⟨n1, n2, n3, -⟩ := modeDispatch_not_seek sin _PI x.millis x.micros _ hbm
      refine ⟨by rw [n2, b1, h1], by rw [n3, b2], Or.inl (by rw [n1]; exact hbm), ?_⟩
      intro _
      refine ⟨by rw [n1]; exact hbm, fun h => ?_⟩
      rw [n1]
      rcases buttonPhase_abort x st h with hb | hb
      · exact absurd hb hbm
      · rw [hb, h1]
  obtain ⟨d1, d2, d3, d4⟩ := hd
  have hloop : loop sin _PI x st = commandRun _PI x (reportPosition _PI x.micros
      (modeDispatch sin _PI x.millis x.micros (buttonPhase x (loopFOC x st)))) := rfl
  rw [hloop, k1, k2, k3, r1, r2, r4, r5] at *
  rw [d1, d2]
  refine ⟨⟨rfl, h2, h3, ?_⟩, ?_⟩
  · rcases k4 with k4 | k4
    · rw [k4, r1]
      exact d3
    · exact Or.inl k4
  · intro h200
    obtain ⟨e1, e2⟩ := d4 h200
    refine ⟨?_, e2⟩
    rcases k4 with k4 | k4
    · rw [k4, r1]
      exact e1
    · exact k4

/-- Runs of passes at or after `T` keep the situation of `timed_out_step`. -/
theorem timed_out_run (sin : α → α) (_PI : α) (T : Nat) (p : HapticMode)
    (hp : p ≠ .MODE_POSITION) (mid : List (Cycle α)) :
    ∀ st : Knob α,
    (∀ x ∈ mid, x.millis < 4294967296 ∧ T ≤ x.millis ∧
      ∀ cmd ∈ x.commands, cmd.isSeek = false) →
    (st.previousMode = p ∧ st.seek_start_time ≤ T ∧ T - st.seek_start_time > 10000 ∧
      (st.currentMode ≠ .MODE_POSITION ∨
        (st.currentMode = .MODE_POSITION ∧ st.seek_settle_start ≤ T ∧
          st.seek_settle_start ≠ 0))) →
    ((runLoop sin _PI mid st).previousMode = p ∧
      (runLoop sin _PI mid st).seek_start_time ≤ T ∧
      T - (runLoop sin _PI mid st).seek_start_time > 10000 ∧
      ((runLoop sin _PI mid st).currentMode ≠ .MODE_POSITION ∨
        ((runLoop sin _PI mid st).currentMode = .MODE_POSITION ∧
          (runLoop sin _PI mid st).seek_settle_start ≤ T ∧
          (runLoop sin _PI mid st).seek_settle_start ≠ 0))) := by
  induction mid with
  | nil =>
    intro st _ h
    exact h
  | cons x rest ih =>
    intro st hall h
    obtain ⟨q1, q2, q3⟩ := hall x (List.mem_cons_self _ _)
    obtain ⟨h1, h2, h3, h4⟩ := h
    have h4b : st.currentMode ≠ .MODE_POSITION ∨
        (st.currentMode = .MODE_POSITION ∧ st.seek_settle_start ≤ T ∧
          (st.seek_settle_start ≠ 0 ∨ x.millis = T)) := by
      rcases h4 with h4 | ⟨a, b, c⟩
      · exact Or.inl h4
      · exact Or.inr ⟨a, b, Or.inl c⟩
    obtain ⟨e, -⟩ := timed_out_step sin _PI T p hp x st q1 q2 q3 ⟨h1, h2, h3, h4b⟩
    rw [runLoop_cons]
    exact ih _ (fun y hy => hall y (List.mem_cons_of_mem _ hy)) e

/-- Without a detected press and without mode or seek commands, a run of passes that
starts in PositionSeek is, after each pass, still in PositionSeek or in `previousMode`. -/
theorem seek_or_previous_run (sin : α → α) (_PI : α) (p : HapticMode)
    (hp : p ≠ .MODE_POSITION) (cs : List (Cycle α)) :
    ∀ st : Knob α, pressFree st.userBtn cs = true →
    (∀ x ∈ cs, ∀ cmd ∈ x.commands, cmd.isSeek = false ∧ cmd.isMode = false) →
    st.previousMode = p → (st.currentMode = .MODE_POSITION ∨ st.currentMode = p) →
    ((runLoop sin _PI cs st).currentMode = .MODE_POSITION ∨
      (runLoop sin _PI cs st).currentMode = p) := by
  induction cs with
  | nil =>
    intro st _ _ _ h
    exact h
  | cons x rest ih =>
    intro st hfree hcmd h1 h2
    simp only [pressFree, Bool.and_eq_true, Bool.not_eq_true'] at hfree
    have hpst : st.previousMode ≠ .MODE_POSITION := by rw [h1]; exact hp
    obtain ⟨b1, -, -, -, -, b6⟩ := buttonPhase_seek_frame x st hpst
    obtain ⟨r1, r2, -⟩ := reportPosition_frame _PI x.micros
      (modeDispatch sin _PI x.millis x.micros (buttonPhase x (loopFOC x st)))
    obtain ⟨k1, -, -, -, k5⟩ := commandRun_seek_frame _PI x
      (reportPosition _PI x.micros
        (modeDispatch sin _PI x.millis x.micros (buttonPhase x (loopFOC x st))))
      (fun cmd hc => (hcmd x (List.mem_cons_self _ _) cmd hc).1)
    have k5b := k5 (fun cmd hc => (hcmd x (List.mem_cons_self _ _) cmd hc).2)
    have hloop : loop sin _PI x st = commandRun _PI x (reportPosition _PI x.micros
        (modeDispatch sin _PI x.millis x.micros (buttonPhase x (loopFOC x st)))) := rfl
    have hprev : (loop sin _PI x st).previousMode = p := by
      rw [hloop, k1, r2, modeDispatch_previousMode, b1, h1]
    have hmode : (loop sin _PI x st).currentMode = .MODE_POSITION ∨
        (loop sin _PI x st).currentMode = p := by
      rw [hloop, k5b, r1]
      have hb := b6 hfree.1
      by_cases hbm : (buttonPhase x (loopFOC x st)).currentMode = .MODE_POSITION
      · have hmd : (modeDispatch sin _PI x.millis x.micros
              (buttonPhase x (loopFOC x st))).currentMode = .MODE_POSITION ∨
            (modeDispatch sin _PI x.millis x.micros
              (buttonPhase x (loopFOC x st))).currentMode =
              (buttonPhase x (loopFOC x st)).previousMode := by
          unfold modeDispatch
          simp only [hbm, if_true]
          split_ifs <;> simp_all [resetInertiaState]
        rw [b1, h1] at hmd
        exact hmd
      · rw [(modeDispatch_not_seek sin _PI x.millis x.micros _ hbm).1, hb]
        exact h2
    rw [runLoop_cons]
    refine ih _ ?_ (fun y hy => hcmd y (List.mem_cons_of_mem _ hy)) hprev hmode
    rw [loop_userBtn sin _PI x st hpst]
    exact hfree.2

theorem heldSeekQ_facts :
    heldSeekQ.currentMode = .MODE_POSITION ∧ heldSeekQ.previousMode = .MODE_INERTIA ∧
    heldSeekQ.seek_settle_start = 0 ∧ heldSeekQ.seek_start_time = 1000 ∧
    heldSeekQ.userBtn = { lastState := false, lastPressMs := 900 } := by
  have hb : bootQ.previousMode ≠ .MODE_POSITION := by decide
  have h1 : (buttonPhase (heldCycle 900 []) (loopFOC (heldCycle 900 []) bootQ)).currentMode =
      .MODE_INERTIA := by decide
  have hn : (buttonPhase (heldCycle 900 []) (loopFOC (heldCycle 900 []) bootQ)).currentMode ≠
      .MODE_POSITION := by rw [h1]; decide
  have hloop : loop sinQ piQ (heldCycle 900 []) bootQ = reportPosition piQ (heldCycle 900 []).micros
      (modeDispatch sinQ piQ (heldCycle 900 []).millis (heldCycle 900 []).micros
        (buttonPhase (heldCycle 900 []) (loopFOC (heldCycle 900 []) bootQ))) := rfl
  have hm : (loop sinQ piQ (heldCycle 900 []) bootQ).currentMode = .MODE_INERTIA := by
    rw [hloop, (reportPosition_frame _ _ _).1, (modeDispatch_not_seek _ _ _ _ _ hn).1, h1]
  have hu : (loop sinQ piQ (heldCycle 900 []) bootQ).userBtn =
      { lastState := false, lastPressMs := 900 } := by
    rw [loop_userBtn _ _ _ _ hb]
    decide
  refine ⟨rfl, ?_, rfl, rfl, hu⟩
  simp only [heldSeekQ, doSeekPosition, hm]
  decide

/-! ## Float divisions by zero in the torque models -/


/-- C1: in every state reached from the initial state by command handler calls
(mode, parameter and seek commands), button actions and passes of `loop()`,
`previousMode` is one of Haptic, Inertia, Spring, Bounded and never PositionSeek,
so its enumerator value indexes the 4-entry mode-name table in range. -/
theorem C1_previousMode_never_position (sin : α → α) (_PI angle0 vel0 : α)
    (evs : List (Event α)) :
    (run sin _PI evs (initial _PI angle0 vel0)).previousMode ≠ .MODE_POSITION ∧
    ((run sin _PI evs (initial _PI angle0 vel0)).previousMode = .MODE_HAPTIC ∨
      (run sin _PI evs (initial _PI angle0 vel0)).previousMode = .MODE_INERTIA ∨
      (run sin _PI evs (initial _PI angle0 vel0)).previousMode = .MODE_SPRING ∨
      (run sin _PI evs (initial _PI angle0 vel0)).previousMode = .MODE_BOUNDED) ∧
    (run sin _PI evs (initial _PI angle0 vel0)).previousMode.toNat < 4 := by
  have h : (run sin _PI evs (initial _PI angle0 vel0)).previousMode ≠ .MODE_POSITION :=
    run_previousMode_ne sin _PI evs _ (by simp [initial])
  exact ⟨h, (toNat_lt_four_of_ne _ h).2, (toNat_lt_four_of_ne _ h).1⟩

/-- C2: when `currentMode` is not PositionSeek the button action moves Haptic to
Inertia, Inertia to Spring, Spring to Bounded and Bounded to Haptic; so four
consecutive button actions bring `currentMode` back to where it started, and one,
two or three do not. -/
theorem C2_toggle_cycle (us1 us2 us3 us4 : Nat) (s : Knob α)
    (h : s.currentMode ≠ .MODE_POSITION) :
    (s.currentMode = .MODE_HAPTIC → (handleButtonAction us1 s).currentMode = .MODE_INERTIA) ∧
    (s.currentMode = .MODE_INERTIA → (handleButtonAction us1 s).currentMode = .MODE_SPRING) ∧
    (s.currentMode = .MODE_SPRING → (handleButtonAction us1 s).currentMode = .MODE_BOUNDED) ∧
    (s.currentMode = .MODE_BOUNDED → (handleButtonAction us1 s).currentMode = .MODE_HAPTIC) ∧
    (handleButtonAction us4 (handleButtonAction us3 (handleButtonAction us2
      (handleButtonAction us1 s)))).currentMode = s.currentMode ∧
    (handleButtonAction us1 s).currentMode ≠ s.currentMode ∧
    (handleButtonAction us2 (handleButtonAction us1 s)).currentMode ≠ s.currentMode ∧
    (handleButtonAction us3 (handleButtonAction us2
      (handleButtonAction us1 s))).currentMode ≠ s.currentMode := by
  rcases hm : s.currentMode with _ | _ | _ | _ | _ <;>
    simp [handleButtonAction, toggleMode, doHaptic, doInertia, doSpring, doBounded,
      resetInertiaState, hm] at h ⊢

/-- Witness of C2 on the state after `setup()`. -/
theorem C2_toggle_cycle_witness :
    bootQ.currentMode ≠ .MODE_POSITION ∧
    (handleButtonAction 40 (handleButtonAction 30 (handleButtonAction 20
      (handleButtonAction 10 bootQ)))).currentMode = bootQ.currentMode :=
  ⟨by decide, (C2_toggle_cycle 10 20 30 40 bootQ (by decide)).2.2.2.2.1⟩

/-- C3: when `currentMode` is PositionSeek the button action sets `currentMode` to
the stored `previousMode` and the motor controller to direct torque, and leaves
`previousMode` and every haptic parameter (detent, inertia, spring, bounded) as it
was; the resulting mode is `previousMode` itself, not the mode the toggle cycle
would go to from `previousMode`. -/
theorem C3_button_aborts_seek (now_us : Nat) (s : Knob α)
    (h : s.currentMode = .MODE_POSITION) :
    (handleButtonAction now_us s).currentMode = s.previousMode ∧
    (handleButtonAction now_us s).motor.controller = .torque ∧
    (handleButtonAction now_us s).previousMode = s.previousMode ∧
    ((handleButtonAction now_us s).detent_count = s.detent_count ∧
      (handleButtonAction now_us s).detent_strength = s.detent_strength ∧
      (handleButtonAction now_us s).virtual_inertia = s.virtual_inertia ∧
      (handleButtonAction now_us s).inertia_damping = s.inertia_damping ∧
      (handleButtonAction now_us s).inertia_friction = s.inertia_friction ∧
      (handleButtonAction now_us s).coupling_K = s.coupling_K ∧
      (handleButtonAction now_us s).spring_center = s.spring_center ∧
      (handleButtonAction now_us s).spring_stiffness = s.spring_stiffness ∧
      (handleButtonAction now_us s).spring_damping = s.spring_damping ∧
      (handleButtonAction now_us s).bound_min = s.bound_min ∧
      (handleButtonAction now_us s).bound_max = s.bound_max ∧
      (handleButtonAction now_us s).wall_strength = s.wall_strength ∧
      (handleButtonAction now_us s).wall_damping = s.wall_damping) ∧
    (handleButtonAction now_us s).currentMode ≠
      (toggleMode now_us { s with currentMode := s.previousMode }).currentMode := by
  refine ⟨by simp [handleButtonAction, h], by simp [handleButtonAction, h],
    by simp [handleButtonAction, h], by simp [handleButtonAction, h], ?_⟩
  rcases hp : s.previousMode with _ | _ | _ | _ | _ <;>
    simp [handleButtonAction, toggleMode, doHaptic, doInertia, doSpring, doBounded,
      resetInertiaState, h, hp]

/-- Witness of C3 on a state that is seeking. -/
theorem C3_button_aborts_seek_witness :
    seekingQ.currentMode = .MODE_POSITION ∧
    (handleButtonAction 7 seekingQ).currentMode = seekingQ.previousMode :=
  ⟨by decide, (C3_button_aborts_seek 7 seekingQ (by decide)).1⟩

/-- C4: a seek request with a target of `d` degrees handled at time `now` leaves
`currentMode = PositionSeek`, settle-start 0, seek-start `now`, the motor in
angle-tracking mode with target `d * _PI / 180`; `previousMode` becomes the old
`currentMode` unless that was PositionSeek, in which case it is unchanged; nothing
else changes. -/
theorem C4_seek_entry (_PI : α) (now : Nat) (d : α) (s : Knob α) :
    (doSeekPosition _PI now (some d) s).currentMode = .MODE_POSITION ∧
    (doSeekPosition _PI now (some d) s).seek_settle_start = 0 ∧
    (doSeekPosition _PI now (some d) s).seek_start_time = now ∧
    (doSeekPosition _PI now (some d) s).motor.controller = .angle ∧
    (doSeekPosition _PI now (some d) s).motor.target = d * _PI / 180 ∧
    (doSeekPosition _PI now (some d) s).previousMode =
      (if s.currentMode = .MODE_POSITION then s.previousMode else s.currentMode) ∧
    doSeekPosition _PI now (some d) s =
      { s with
        previousMode := if s.currentMode = .MODE_POSITION then s.previousMode else s.currentMode
        currentMode := .MODE_POSITION
        seek_settle_start := 0
        seek_start_time := now
        motor := { s.motor with controller := .angle, target := d * _PI / 180 } } := by
  by_cases hc : s.currentMode = .MODE_POSITION <;> simp [doSeekPosition, hc]

/-- C5: take a run of passes of `loop()` with the button released and no command,
starting with settle-start 0, at non-decreasing non-zero millisecond times below
`2 ^ 32`, none timed out (`now - seekStart ≤ 10000`), and let the last pass `c`
start in PositionSeek.  If `c` completes the seek (the mode leaves PositionSeek; it
becomes `previousMode`), then the run ends with a window of passes `w, ..., c` with
`c.millis - w.millis > 200` in each of which the error was below the tolerance.
If `c` sees an error at or above the tolerance, it sets settle-start to 0 and the
mode stays PositionSeek. -/
theorem C5_settle_window (sin : α → α) (_PI : α) (s0 : Knob α) (pre : List (Cycle α))
    (c : Cycle α)
    (hp : s0.previousMode ≠ .MODE_POSITION) (hs0 : s0.seek_settle_start = 0)
    (hq : ∀ x ∈ pre ++ [c], x.quiet = true ∧ x.millis ≠ 0 ∧ x.millis < 4294967296 ∧
      usub x.millis s0.seek_start_time ≤ 10000)
    (hmono : List.Pairwise (fun x y => x.millis ≤ y.millis) (pre ++ [c]))
    (hm : (runLoop sin _PI pre s0).currentMode = .MODE_POSITION) :
    ((loop sin _PI c (runLoop sin _PI pre s0)).currentMode ≠ .MODE_POSITION →
      (loop sin _PI c (runLoop sin _PI pre s0)).currentMode = s0.previousMode ∧
      ∃ before w ws, pre = before ++ w :: ws ∧ c.millis - w.millis > 200 ∧
        ∀ x ∈ w :: ws ++ [c], |x.shaft_angle - s0.motor.target| < s0.seek_tolerance_rad) ∧
    (s0.seek_tolerance_rad ≤ |c.shaft_angle - s0.motor.target| →
      (loop sin _PI c (runLoop sin _PI pre s0)).seek_settle_start = 0 ∧
      (loop sin _PI c (runLoop sin _PI pre s0)).currentMode = .MODE_POSITION) := by
  have hqc := hq c (by simp)
  have hqpre : ∀ x ∈ pre, x.quiet = true ∧ usub x.millis s0.seek_start_time ≤ 10000 :=
    fun x hx => ⟨(hq x (List.mem_append_left _ hx)).1, (hq x (List.mem_append_left _ hx)).2.2.2⟩
  obtain ⟨i1, i2, i3, i4, i5⟩ := seek_window_inv sin _PI s0 pre hp hs0 hqpre
  obtain ⟨-, -, -, -, -, -, hA, hD⟩ := loop_seek sin _PI c _ hqc.1 hm
  rw [i2, i3, i4] at hA hD
  constructor
  · intro hdone
    by_cases hc : (|c.shaft_angle - s0.motor.target| < s0.seek_tolerance_rad ∨
        usub c.millis s0.seek_start_time > 10000)
    · have herr : |c.shaft_angle - s0.motor.target| < s0.seek_tolerance_rad := by
        rcases hc with h | h
        · exact h
        · omega
      obtain ⟨hA1, hA2, hA3⟩ := hA hc
      by_cases hz : (runLoop sin _PI pre s0).seek_settle_start = 0
      · exact absurd (hA1 hz).1 hdone
      · by_cases ht : usub c.millis (runLoop sin _PI pre s0).seek_settle_start > 200
        · rcases i5 hm with h0 | ⟨before, w, ws, hpre, hset, hall⟩
          · exact absurd h0 hz
          · refine ⟨by rw [(hA2 hz ht).1, i1], before, w, ws, hpre, ?_, ?_⟩
            · have hw : w.millis ≤ c.millis :=
                (List.pairwise_append.mp hmono).2.2 w (by simp [hpre]) c (by simp)
              rw [hset, usub_eq_sub _ _ hw hqc.2.2.1] at ht
              exact ht
            · intro x hx
              rw [List.mem_append, List.mem_singleton] at hx
              rcases hx with hx | hx
              · exact hall x hx
              · rw [hx]
                exact herr
        · exact absurd (hA3 hz ht).1 hdone
    · exact absurd (hD hc).1 hdone
  · intro hge
    have hc : ¬ (|c.shaft_angle - s0.motor.target| < s0.seek_tolerance_rad ∨
        usub c.millis s0.seek_start_time > 10000) := by
      intro h
      rcases h with h | h
      · exact absurd h (not_lt.mpr hge)
      · omega
    exact ⟨(hD hc).2.1, (hD hc).1⟩

/-- Witness of C5: seek at 1000 ms, on target at 2000 ms, completed at 2201 ms. -/
theorem C5_settle_window_witness :
    (loop sinQ piQ (quietCycle 0 2201) (runLoop sinQ piQ [quietCycle 0 2000] seekingQ)).currentMode
      = seekingQ.previousMode ∧
    ∃ before w ws, [quietCycle 0 2000] = before ++ w :: ws ∧ (quietCycle 0 2201).millis - w.millis > 200 ∧
      ∀ x ∈ w :: ws ++ [quietCycle 0 2201],
        |x.shaft_angle - seekingQ.motor.target| < seekingQ.seek_tolerance_rad :=
  (C5_settle_window sinQ piQ seekingQ [quietCycle 0 2000] (quietCycle 0 2201)
    (by decide) (by decide)
    (by
      intro x hx
      simp only [List.cons_append, List.nil_append, List.mem_cons, List.mem_singleton,
        List.not_mem_nil, or_false] at hx
      rcases hx with rfl | rfl <;> decide)
    (by simp [quietCycle])
    settlingQ_facts.1).1
    (by
      have h := settlingQ_facts
      have hl := loop_seek sinQ piQ (quietCycle 0 2201) settlingQ rfl h.1
      show (loop sinQ piQ (quietCycle 0 2201) settlingQ).currentMode ≠ .MODE_POSITION
      rw [((hl.2.2.2.2.2.2.1 (Or.inl (by rw [h.2.2.2.2.1, h.2.2.2.2.2.1]; norm_num [quietCycle]))).2.1
        (by rw [h.2.2.1]; decide) (by rw [h.2.2.1]; decide)).1, h.2.1]
      decide)

/-- C6 as the code has it: in a seek whose error is never below the tolerance
(passes with the button released and no command, times below `2 ^ 32` and not
before seek-start), the first pass `c1` with `now - seekStart > 10000` does not
restore `previousMode`: it sets settle-start to its time and the mode stays
PositionSeek, as it does through every later pass at most 200 ms after `c1`;
the first pass `c2` more than 200 ms after `c1` sets `currentMode = previousMode`
and the motor to direct torque. -/
theorem C6_timeout_then_settle (sin : α → α) (_PI : α) (s0 : Knob α)
    (pre : List (Cycle α)) (c1 : Cycle α) (mid : List (Cycle α)) (c2 : Cycle α)
    (hm : s0.currentMode = .MODE_POSITION) (hs0 : s0.seek_settle_start = 0)
    (hq : ∀ x ∈ pre ++ c1 :: (mid ++ [c2]), x.quiet = true ∧ x.millis < 4294967296 ∧
      s0.seek_start_time ≤ x.millis ∧
      s0.seek_tolerance_rad ≤ |x.shaft_angle - s0.motor.target|)
    (hpre : ∀ x ∈ pre, x.millis - s0.seek_start_time ≤ 10000)
    (h1 : c1.millis - s0.seek_start_time > 10000)
    (hmid : ∀ x ∈ mid, c1.millis ≤ x.millis ∧ x.millis - c1.millis ≤ 200)
    (h2 : c2.millis - c1.millis > 200) :
    (runLoop sin _PI pre s0).currentMode = .MODE_POSITION ∧
    (runLoop sin _PI (pre ++ [c1]) s0).currentMode = .MODE_POSITION ∧
    (runLoop sin _PI (pre ++ [c1]) s0).seek_settle_start = c1.millis ∧
    (runLoop sin _PI (pre ++ c1 :: mid) s0).currentMode = .MODE_POSITION ∧
    (runLoop sin _PI (pre ++ c1 :: (mid ++ [c2])) s0).currentMode = s0.previousMode ∧
    (runLoop sin _PI (pre ++ c1 :: (mid ++ [c2])) s0).motor.controller = .torque := by
  have hq1 := hq c1 (by simp)
  have hq2 := hq c2 (by simp)
  -- the passes before the timeout
  have hA : ∀ x ∈ pre, x.quiet = true ∧
      ¬ (|x.shaft_angle - s0.motor.target| < s0.seek_tolerance_rad ∨
        usub x.millis s0.seek_start_time > 10000) := by
    intro x hx
    obtain ⟨q1, q2, q3, q4⟩ := hq x (List.mem_append_left _ hx)
    refine ⟨q1, fun h => ?_⟩
    rcases h with h | h
    · exact absurd h (not_lt.mpr q4)
    · rw [usub_eq_sub _ _ q3 q2] at h
      have := hpre x hx
      omega
  obtain ⟨a1, a2, a3, a4, a5, a6, -⟩ := seek_unsettled_run sin _PI pre s0 hm hs0 hA
  -- the first timed-out pass
  obtain ⟨b1, b2, b3, b4, -, -, hB, -⟩ := loop_seek sin _PI c1 (runLoop sin _PI pre s0) hq1.1 a1
  have hc1 : |c1.shaft_angle - (runLoop sin _PI pre s0).motor.target| <
        (runLoop sin _PI pre s0).seek_tolerance_rad ∨
      usub c1.millis (runLoop sin _PI pre s0).seek_start_time > 10000 := by
    right
    rw [a4, usub_eq_sub _ _ hq1.2.2.1 hq1.2.1]
    exact h1
  obtain ⟨e1, e2, -⟩ := (hB hc1).1 a2
  have hne : c1.millis ≠ 0 := by omega
  -- the passes inside the settle window
  have hC : ∀ x ∈ mid, x.quiet = true ∧
      (|x.shaft_angle - (loop sin _PI c1 (runLoop sin _PI pre s0)).motor.target| <
          (loop sin _PI c1 (runLoop sin _PI pre s0)).seek_tolerance_rad ∨
        usub x.millis (loop sin _PI c1 (runLoop sin _PI pre s0)).seek_start_time > 10000) ∧
      ¬ usub x.millis (loop sin _PI c1 (runLoop sin _PI pre s0)).seek_settle_start > 200 := by
    intro x hx
    obtain ⟨q1, q2, q3, -⟩ := hq x (by simp [hx])
    obtain ⟨m1, m2⟩ := hmid x hx
    refine ⟨q1, Or.inr ?_, ?_⟩
    · rw [b2, a4, usub_eq_sub _ _ q3 q2]
      omega
    · rw [e2, usub_eq_sub _ _ m1 q2]
      omega
  obtain ⟨g1, g2, g3, g4, -, -, -⟩ := seek_holding_run sin _PI mid
    (loop sin _PI c1 (runLoop sin _PI pre s0)) e1 (by rw [e2]; exact hne) hC
  -- the completing pass
  obtain ⟨-, -, -, -, -, -, hD, -⟩ := loop_seek sin _PI c2
    (runLoop sin _PI mid (loop sin _PI c1 (runLoop sin _PI pre s0))) hq2.1 g1
  have hc2 : |c2.shaft_angle -
        (runLoop sin _PI mid (loop sin _PI c1 (runLoop sin _PI pre s0))).motor.target| <
        (runLoop sin _PI mid (loop sin _PI c1 (runLoop sin _PI pre s0))).seek_tolerance_rad ∨
      usub c2.millis
        (runLoop sin _PI mid (loop sin _PI c1 (runLoop sin _PI pre s0))).seek_start_time >
        10000 := by
    right
    rw [g4, b2, a4, usub_eq_sub _ _ hq2.2.2.1 hq2.2.1]
    omega
  obtain ⟨k1, -, k3, -⟩ := (hD hc2).2.1 (by rw [g2, e2]; exact hne)
    (by rw [g2, e2, usub_eq_sub _ _ (by omega) hq2.2.1]; exact h2)
  refine ⟨a1, ?_, ?_, ?_, ?_, ?_⟩
  · rw [runLoop_append, runLoop_cons, runLoop_nil]
    exact e1
  · rw [runLoop_append, runLoop_cons, runLoop_nil]
    exact e2
  · rw [runLoop_append, runLoop_cons]
    exact g1
  · rw [runLoop_append, runLoop_cons, runLoop_append, runLoop_cons, runLoop_nil, k1, g3, b1, a3]
  · rw [runLoop_append, runLoop_cons, runLoop_append, runLoop_cons, runLoop_nil]
    exact k3

/-- Counterexample to C6 as stated: seek to 0 degrees at 1000 ms with the shaft held at
1 rad (error never below the tolerance); the pass at 11001 ms is the first with
`now - seekStart > 10000`, and after it `currentMode` is still PositionSeek, not
`previousMode`. -/
theorem C6_counterexample :
    (∀ x ∈ [quietCycle 1 5000, quietCycle 1 11001],
      ¬ |x.shaft_angle - seekingQ.motor.target| < seekingQ.seek_tolerance_rad) ∧
    ¬ usub (quietCycle 1 5000).millis seekingQ.seek_start_time > 10000 ∧
    usub (quietCycle 1 11001).millis seekingQ.seek_start_time > 10000 ∧
    (runLoop sinQ piQ [quietCycle 1 5000, quietCycle 1 11001] seekingQ).currentMode
      = .MODE_POSITION ∧
    (runLoop sinQ piQ [quietCycle 1 5000, quietCycle 1 11001] seekingQ).currentMode
      ≠ seekingQ.previousMode := by
  have hrun : (runLoop sinQ piQ [quietCycle 1 5000, quietCycle 1 11001] seekingQ).currentMode
      = .MODE_POSITION := by
    have hA := seek_unsettled_run sinQ piQ [quietCycle 1 5000] seekingQ (by decide) (by decide)
      (by
        intro x hx
        rw [List.mem_singleton] at hx
        subst hx
        refine ⟨rfl, fun h => ?_⟩
        rcases h with h | h
        · exact absurd h (not_lt.mpr (away_from_target 5000))
        · revert h
          decide)
    have hB := loop_seek sinQ piQ (quietCycle 1 11001)
      (runLoop sinQ piQ [quietCycle 1 5000] seekingQ) rfl hA.1
    have hto : usub (quietCycle 1 11001).millis
        (runLoop sinQ piQ [quietCycle 1 5000] seekingQ).seek_start_time > 10000 := by
      rw [hA.2.2.2.1]
      decide
    exact ((hB.2.2.2.2.2.2.1 (Or.inr hto)).1 hA.2.1).1
  refine ⟨?_, by decide, by decide, hrun, ?_⟩
  · intro x hx
    simp only [List.mem_cons, List.mem_singleton, List.not_mem_nil, or_false] at hx
    rcases hx with rfl | rfl
    · exact not_lt.mpr (away_from_target 5000)
    · exact not_lt.mpr (away_from_target 11001)
  · rw [hrun, seekingQ_facts.2.1]
    decide

/-- Witness of C6 (amended): seek at 1000 ms, shaft held away from the target, passes
at 5000, 11001, 11100 and 11202 ms; the last one restores the previous mode. -/
theorem C6_timeout_then_settle_witness :
    (runLoop sinQ piQ ([quietCycle 1 5000] ++ [quietCycle 1 11001]) seekingQ).currentMode
      = .MODE_POSITION ∧
    (runLoop sinQ piQ ([quietCycle 1 5000] ++ quietCycle 1 11001 :: [quietCycle 1 11100])
      seekingQ).currentMode = .MODE_POSITION ∧
    (runLoop sinQ piQ
      ([quietCycle 1 5000] ++ quietCycle 1 11001 :: ([quietCycle 1 11100] ++ [quietCycle 1 11202]))
      seekingQ).currentMode = seekingQ.previousMode :=
  have h := C6_timeout_then_settle sinQ piQ seekingQ [quietCycle 1 5000] (quietCycle 1 11001)
    [quietCycle 1 11100] (quietCycle 1 11202) (by decide) (by decide)
    (by
      intro x hx
      simp only [List.cons_append, List.nil_append, List.mem_cons, List.mem_singleton,
        List.not_mem_nil, or_false] at hx
      rcases hx with rfl | rfl | rfl | rfl
      · exact ⟨rfl, by decide, by decide, away_from_target 5000⟩
      · exact ⟨rfl, by decide, by decide, away_from_target 11001⟩
      · exact ⟨rfl, by decide, by decide, away_from_target 11100⟩
      · exact ⟨rfl, by decide, by decide, away_from_target 11202⟩)
    (by
      intro x hx
      rw [List.mem_singleton] at hx
      subst hx
      decide)
    (by decide)
    (by
      intro x hx
      rw [List.mem_singleton] at hx
      subst hx
      decide)
    (by decide)
  ⟨h.2.1, h.2.2.2.1, h.2.2.2.2.1⟩

/-- C7: take a pass of `loop()` (button released, no command) that starts in
PositionSeek at time `c.millis`.  If (error < tolerance or timed out), settle-start
is not 0 and `c.millis - settleStart > 200`, then after the pass the motor is in
direct-torque mode, `currentMode = previousMode`, settle-start is 0, `previousMode`
is unchanged, and if `previousMode` is Inertia then `virt_pos` is the current shaft
angle and `virt_vel` is 0.  In every other such pass `currentMode` stays
PositionSeek and the motor controller keeps its type (angle tracking). -/
theorem C7_seek_completion (sin : α → α) (_PI : α) (c : Cycle α) (s : Knob α)
    (hq : c.quiet = true) (hm : s.currentMode = .MODE_POSITION) :
    (((|c.shaft_angle - s.motor.target| < s.seek_tolerance_rad ∨
          usub c.millis s.seek_start_time > 10000) ∧
        s.seek_settle_start ≠ 0 ∧ usub c.millis s.seek_settle_start > 200) →
      (loop sin _PI c s).motor.controller = .torque ∧
      (loop sin _PI c s).currentMode = s.previousMode ∧
      (loop sin _PI c s).seek_settle_start = 0 ∧
      (loop sin _PI c s).previousMode = s.previousMode ∧
      (s.previousMode = .MODE_INERTIA →
        (loop sin _PI c s).virt_pos = (loop sin _PI c s).motor.shaft_angle ∧
        (loop sin _PI c s).virt_pos = c.shaft_angle ∧
        (loop sin _PI c s).virt_vel = 0)) ∧
    (¬ ((|c.shaft_angle - s.motor.target| < s.seek_tolerance_rad ∨
          usub c.millis s.seek_start_time > 10000) ∧
        s.seek_settle_start ≠ 0 ∧ usub c.millis s.seek_settle_start > 200) →
      (loop sin _PI c s).currentMode = .MODE_POSITION ∧
      (loop sin _PI c s).motor.controller = s.motor.controller ∧
      (s.motor.controller = .angle → (loop sin _PI c s).motor.controller = .angle)) := by
  obtain ⟨f1, -, -, -, f5, -, hA, hD⟩ := loop_seek sin _PI c s hq hm
  constructor
  · rintro ⟨hc, hz, ht⟩
    obtain ⟨b1, b2, b3, b4⟩ := (hA hc).2.1 hz ht
    refine ⟨b3, b1, b2, f1, fun hi => ?_⟩
    obtain ⟨v1, v2, -⟩ := b4 hi
    exact ⟨by rw [v1, f5], v1, v2⟩
  · intro hn
    by_cases hc : (|c.shaft_angle - s.motor.target| < s.seek_tolerance_rad ∨
        usub c.millis s.seek_start_time > 10000)
    · by_cases hz : s.seek_settle_start = 0
      · obtain ⟨a1, -, a3⟩ := (hA hc).1 hz
        exact ⟨a1, a3, fun h => by rw [a3, h]⟩
      · have ht : ¬ usub c.millis s.seek_settle_start > 200 := fun ht => hn ⟨hc, hz, ht⟩
        obtain ⟨a1, -, a3⟩ := (hA hc).2.2 hz ht
        exact ⟨a1, a3, fun h => by rw [a3, h]⟩
    · obtain ⟨a1, -, a3⟩ := hD hc
      exact ⟨a1, a3, fun h => by rw [a3, h]⟩

/-- Witness of C7: the seek started at 1000 ms and on target since 2000 ms is
completed by the pass at 2201 ms. -/
theorem C7_seek_completion_witness :
    (quietCycle 0 2201).quiet = true ∧ settlingQ.currentMode = .MODE_POSITION ∧
    (loop sinQ piQ (quietCycle 0 2201) settlingQ).motor.controller = .torque ∧
    (loop sinQ piQ (quietCycle 0 2201) settlingQ).currentMode = settlingQ.previousMode :=
  ⟨rfl, settlingQ_facts.1,
    ((C7_seek_completion sinQ piQ (quietCycle 0 2201) settlingQ rfl settlingQ_facts.1).1
      ⟨Or.inl (by
          rw [settlingQ_facts.2.2.2.2.1, settlingQ_facts.2.2.2.2.2.1]
          norm_num [quietCycle]),
        by rw [settlingQ_facts.2.2.1]; decide, by rw [settlingQ_facts.2.2.1]; decide⟩).1,
    ((C7_seek_completion sinQ piQ (quietCycle 0 2201) settlingQ rfl settlingQ_facts.1).1
      ⟨Or.inl (by
          rw [settlingQ_facts.2.2.2.2.1, settlingQ_facts.2.2.2.2.2.1]
          norm_num [quietCycle]),
        by rw [settlingQ_facts.2.2.1]; decide, by rw [settlingQ_facts.2.2.1]; decide⟩).2.1⟩

/-- C8: a timed-out seek ends whatever the position error.  Take passes of `loop()`
at non-decreasing times below `2 ^ 32`: `c1`, any passes `mid`, then `c2`, with any
shaft readings, any button levels and any command lines except a new seek (`Z` with
a value), starting in PositionSeek with seek-start and settle-start not after `c1`
(no wrap-around), `c1.millis - seekStart > 10000` (so `c1.millis ≠ 0`) and
`c2.millis - c1.millis > 200`.  After `c2` the mode is not PositionSeek but one of
the four haptic modes, and `previousMode` is still the mode saved at seek entry.
If `c2` is a cycle of the same seek (the mode is still PositionSeek when it starts),
then `currentMode = previousMode` at the end of its control cycle (button check,
seek evaluation, telemetry), and also after its command lines if none of them
selects a mode.  If no press is detected and no mode command is received in any of
these passes (nothing but the timeout ends the seek), then
`currentMode = previousMode` after `c2`. -/
theorem C8_timed_out_seek_ends (sin : α → α) (_PI : α) (s : Knob α)
    (c1 : Cycle α) (mid : List (Cycle α)) (c2 : Cycle α)
    (hm : s.currentMode = .MODE_POSITION) (hp : s.previousMode ≠ .MODE_POSITION)
    (hq : ∀ x ∈ c1 :: (mid ++ [c2]), x.millis < 4294967296 ∧
      ∀ cmd ∈ x.commands, cmd.isSeek = false)
    (hmono : List.Pairwise (fun x y => x.millis ≤ y.millis) (c1 :: (mid ++ [c2])))
    (hst : s.seek_start_time ≤ c1.millis) (hse : s.seek_settle_start ≤ c1.millis)
    (hto : c1.millis - s.seek_start_time > 10000)
    (h2 : c2.millis - c1.millis > 200) :
    (runLoop sin _PI (c1 :: (mid ++ [c2])) s).currentMode ≠ .MODE_POSITION ∧
    ((runLoop sin _PI (c1 :: (mid ++ [c2])) s).currentMode = .MODE_HAPTIC ∨
      (runLoop sin _PI (c1 :: (mid ++ [c2])) s).currentMode = .MODE_INERTIA ∨
      (runLoop sin _PI (c1 :: (mid ++ [c2])) s).currentMode = .MODE_SPRING ∨
      (runLoop sin _PI (c1 :: (mid ++ [c2])) s).currentMode = .MODE_BOUNDED) ∧
    (runLoop sin _PI (c1 :: (mid ++ [c2])) s).previousMode = s.previousMode ∧
    ((runLoop sin _PI (c1 :: mid) s).currentMode = .MODE_POSITION →
      (reportPosition _PI c2.micros (modeDispatch sin _PI c2.millis c2.micros
        (buttonPhase c2 (loopFOC c2 (runLoop sin _PI (c1 :: mid) s))))).currentMode =
        s.previousMode ∧
      ((∀ cmd ∈ c2.commands, cmd.isMode = false) →
        (runLoop sin _PI (c1 :: (mid ++ [c2])) s).currentMode = s.previousMode)) ∧
    (pressFree s.userBtn (c1 :: (mid ++ [c2])) = true →
      (∀ x ∈ c1 :: (mid ++ [c2]), ∀ cmd ∈ x.commands, cmd.isMode = false) →
      (runLoop sin _PI (c1 :: (mid ++ [c2])) s).currentMode =
        (runLoop sin _PI (c1 :: (mid ++ [c2])) s).previousMode ∧
      (runLoop sin _PI (c1 :: (mid ++ [c2])) s).currentMode = s.previousMode) := by
  have hq1 := hq c1 (List.mem_cons_self _ _)
  have hq2 := hq c2 (by simp)
  have hge : ∀ x ∈ mid ++ [c2], c1.millis ≤ x.millis := (List.pairwise_cons.mp hmono).1
  -- the pass at `c1`
  obtain ⟨hinv1, -⟩ := timed_out_step sin _PI c1.millis s.previousMode hp c1 s hq1.1
    (le_refl _) hq1.2 ⟨rfl, hst, hto, Or.inr ⟨hm, hse, Or.inr rfl⟩⟩
  -- the passes in between
  have hinv2 := timed_out_run sin _PI c1.millis s.previousMode hp mid (loop sin _PI c1 s)
    (fun x hx => ⟨(hq x (by simp [hx])).1, hge x (List.mem_append_left _ hx),
      (hq x (by simp [hx])).2⟩) hinv1
  -- the pass at `c2`
  obtain ⟨i1, i2, i3, i4⟩ := hinv2
  have i4b : (runLoop sin _PI mid (loop sin _PI c1 s)).currentMode ≠ .MODE_POSITION ∨
      ((runLoop sin _PI mid (loop sin _PI c1 s)).currentMode = .MODE_POSITION ∧
        (runLoop sin _PI mid (loop sin _PI c1 s)).seek_settle_start ≤ c1.millis ∧
        ((runLoop sin _PI mid (loop sin _PI c1 s)).seek_settle_start ≠ 0 ∨
          c2.millis = c1.millis)) := by
    rcases i4 with i4 | ⟨a, b, c⟩
    · exact Or.inl i4
    · exact Or.inr ⟨a, b, Or.inl c⟩
  obtain ⟨⟨e1, -, -, -⟩, e5⟩ := timed_out_step sin _PI c1.millis s.previousMode hp c2
    (runLoop sin _PI mid (loop sin _PI c1 s)) hq2.1 (hge c2 (by simp)) hq2.2 ⟨i1, i2, i3, i4b⟩
  obtain ⟨e6, e7⟩ := e5 h2
  have hrun : runLoop sin _PI (c1 :: (mid ++ [c2])) s =
      loop sin _PI c2 (runLoop sin _PI mid (loop sin _PI c1 s)) := by
    rw [runLoop_cons, runLoop_append, runLoop_cons, runLoop_nil]
  rw [hrun, runLoop_cons]
  refine ⟨e6, (toNat_lt_four_of_ne _ e6).2, e1, ?_, ?_⟩
  · intro hpos
    have hrep : (reportPosition _PI c2.micros (modeDispatch sin _PI c2.millis c2.micros
        (buttonPhase c2 (loopFOC c2 (runLoop sin _PI mid (loop sin _PI c1 s)))))).currentMode =
        s.previousMode := by
      rw [(reportPosition_frame _PI c2.micros _).1]
      exact e7 hpos
    refine ⟨hrep, fun hnm => ?_⟩
    have hloop : loop sin _PI c2 (runLoop sin _PI mid (loop sin _PI c1 s)) =
        commandRun _PI c2 (reportPosition _PI c2.micros (modeDispatch sin _PI c2.millis c2.micros
          (buttonPhase c2 (loopFOC c2 (runLoop sin _PI mid (loop sin _PI c1 s)))))) := rfl
    rw [hloop, (commandRun_seek_frame _PI c2 _ hq2.2).2.2.2.2 hnm]
    exact hrep
  intro hfree hmodes
  have hsp := seek_or_previous_run sin _PI s.previousMode hp (c1 :: (mid ++ [c2])) s hfree
    (fun x hx cmd hc => ⟨(hq x hx).2 cmd hc, hmodes x hx cmd hc⟩) rfl (Or.inl hm)
  rw [hrun] at hsp
  rcases hsp with hsp | hsp
  · exact absurd hsp e6
  · exact ⟨by rw [hsp, e1], hsp⟩

/-- Witness of C8: the button is pressed at 900 ms and held down from then on, a seek
starts at 1000 ms and the shaft is held away from the target; the passes at 11001,
11100 and 11202 ms find the button still down and receive a position query, a detent
count, a state query, a wall strength and a `Z` without value; the mode is back to
`previousMode` after the last. -/
theorem C8_timed_out_seek_ends_witness :
    (runLoop sinQ piQ
      (heldCycle 11001 [.doQueryPosition, .doDetentCount (some 24)] ::
        ([heldCycle 11100 [.doQueryState, .doWallStrength (some 3)]] ++
          [heldCycle 11202 [.doSeekPosition none]]))
      heldSeekQ).currentMode = heldSeekQ.previousMode :=
  ((C8_timed_out_seek_ends sinQ piQ heldSeekQ
    (heldCycle 11001 [.doQueryPosition, .doDetentCount (some 24)])
    [heldCycle 11100 [.doQueryState, .doWallStrength (some 3)]]
    (heldCycle 11202 [.doSeekPosition none])
    heldSeekQ_facts.1 (by rw [heldSeekQ_facts.2.1]; decide)
    (by
      intro x hx
      simp only [List.cons_append, List.nil_append, List.mem_cons, List.mem_singleton,
        List.not_mem_nil, or_false] at hx
      rcases hx with rfl | rfl | rfl <;>
        exact ⟨by decide, by simp [heldCycle, Command.isSeek]⟩)
    (by simp [heldCycle])
    (by rw [heldSeekQ_facts.2.2.2.1]; decide) (by rw [heldSeekQ_facts.2.2.1]; decide)
    (by rw [heldSeekQ_facts.2.2.2.1]; decide) (by decide)).2.2.2.2
    (by rw [heldSeekQ_facts.2.2.2.2]; decide)
    (by
      intro x hx
      simp only [List.cons_append, List.nil_append, List.mem_cons, List.mem_singleton,
        List.not_mem_nil, or_false] at hx
      rcases hx with rfl | rfl | rfl <;> simp [heldCycle, Command.isMode])).2

/-- C10, the code at the failing input: Inertia is entered with the shaft at 0, a seek
is started and the shaft has reached 1 rad when the button is pressed.  The button
action makes Inertia the active mode again and leaves the inertia state as it was
at the first entry (`virt_pos = 0`, timestamp of that entry), not at the shaft
angle 1; the pass of `loop()` that sees the press hands the full voltage limit to
the motor from that stale state. -/
theorem C10_button_abort_keeps_stale_inertia_state :
    inertiaSeekQ.currentMode = .MODE_POSITION ∧
    (handleButtonAction 2500000 inertiaSeekQ).currentMode = .MODE_INERTIA ∧
    (handleButtonAction 2500000 inertiaSeekQ).motor.shaft_angle = 1 ∧
    (handleButtonAction 2500000 inertiaSeekQ).virt_pos = 0 ∧
    (handleButtonAction 2500000 inertiaSeekQ).virt_pos ≠
      (handleButtonAction 2500000 inertiaSeekQ).motor.shaft_angle ∧
    (handleButtonAction 2500000 inertiaSeekQ).prev_time_us = 500000 ∧
    (loop sinQ piQ pressCycle inertiaSeekQ).currentMode = .MODE_INERTIA ∧
    (loop sinQ piQ pressCycle inertiaSeekQ).motor.moved = -8 := by
  obtain ⟨h1, h2, h3, h4, h5, h6⟩ := inertiaSeekQ_facts
  have hb : handleButtonAction 2500000 inertiaSeekQ =
      { inertiaSeekQ with
        motor := { inertiaSeekQ.motor with controller := .torque }
        currentMode := inertiaSeekQ.previousMode } := by
    simp [handleButtonAction, h1]
  refine ⟨h1, ?_, ?_, ?_, ?_, ?_, ?_, ?_⟩
  · rw [hb]; exact h2
  · rw [hb]; exact h3
  · rw [hb]; exact h4
  · rw [hb]
    show inertiaSeekQ.virt_pos ≠ inertiaSeekQ.motor.shaft_angle
    rw [h4, h3]
    norm_num
  · rw [hb]; exact h6
  · norm_num [loop, commandRun, pressCycle, buttonPhase, checkButtonPress, handleButtonAction,
      inertiaSeekQ, loop_quiet, Cycle.quiet, quietCycle, bootQ, initial, doInertia,
      resetInertiaState, doSeekPosition, modeDispatch, switchTorque, computeInertiaTorque,
      constrain, reportPosition, loopFOC, usub, piQ, getCurrentAngleDeg, DEBOUNCE_MS,
      DEFAULT_REPORT_INTERVAL_MS, INERTIA_REPORT_INTERVAL_MS, VOLTAGE_LIMIT,
      DEFAULT_REPORT_THRESHOLD_DEG, SEEK_TIMEOUT_MS, SEEK_SETTLE_MS, abs_div, inertia_ne_position]
  · norm_num [loop, commandRun, pressCycle, buttonPhase, checkButtonPress, handleButtonAction,
      inertiaSeekQ, loop_quiet, Cycle.quiet, quietCycle, bootQ, initial, doInertia,
      resetInertiaState, doSeekPosition, modeDispatch, switchTorque, computeInertiaTorque,
      constrain, reportPosition, loopFOC, usub, piQ, getCurrentAngleDeg, DEBOUNCE_MS,
      DEFAULT_REPORT_INTERVAL_MS, INERTIA_REPORT_INTERVAL_MS, VOLTAGE_LIMIT,
      DEFAULT_REPORT_THRESHOLD_DEG, SEEK_TIMEOUT_MS, SEEK_SETTLE_MS, abs_div, inertia_ne_position]

/-- C11 as the code has it: when `currentMode` is none of Haptic, Inertia, Spring,
Bounded, the `switch` of the torque dispatch takes its default branch, which yields
the voltage 0 and changes no global; it does not evaluate the Haptic model. -/
theorem C11_default_branch_zero (sin : α → α) (_PI : α) (now_us : Nat) (s : Knob α)
    (h : s.currentMode ≠ .MODE_HAPTIC ∧ s.currentMode ≠ .MODE_INERTIA ∧
      s.currentMode ≠ .MODE_SPRING ∧ s.currentMode ≠ .MODE_BOUNDED) :
    switchTorque sin _PI now_us s = (0, s) ∧ (switchTorque sin _PI now_us s).1 = 0 := by
  obtain ⟨h1, h2, h3, h4⟩ := h
  unfold switchTorque
  rcases hm : s.currentMode with _ | _ | _ | _ | _
  · exact absurd hm h1
  · exact absurd hm h2
  · exact absurd hm h3
  · exact absurd hm h4
  · exact ⟨rfl, rfl⟩

/-- Counterexample to C11 as stated: with the default detent parameters and one radian
of detent phase the Haptic model gives a non-zero torque, while the default branch
of the `switch` gives 0. -/
theorem C11_counterexample :
    defaultArmQ.currentMode ≠ .MODE_HAPTIC ∧ defaultArmQ.currentMode ≠ .MODE_INERTIA ∧
    defaultArmQ.currentMode ≠ .MODE_SPRING ∧ defaultArmQ.currentMode ≠ .MODE_BOUNDED ∧
    (switchTorque sinQ piQ 0 defaultArmQ).1 = 0 ∧
    computeHapticTorque sinQ defaultArmQ = -(5 / 4) ∧
    (switchTorque sinQ piQ 0 defaultArmQ).1 ≠ computeHapticTorque sinQ defaultArmQ := by
  have h0 : (switchTorque sinQ piQ 0 defaultArmQ).1 = 0 := rfl
  have h1 : computeHapticTorque sinQ defaultArmQ = -(5 / 4) := by
    norm_num [computeHapticTorque, defaultArmQ, withShaft, bootQ, initial, sinQ]
  refine ⟨by decide, by decide, by decide, by decide, h0, h1, ?_⟩
  rw [h0, h1]
  norm_num

/-- Witness of C11 (amended) on a state in PositionSeek, the one enumerator outside the
four cases. -/
theorem C11_default_branch_zero_witness :
    (defaultArmQ.currentMode ≠ .MODE_HAPTIC ∧ defaultArmQ.currentMode ≠ .MODE_INERTIA ∧
      defaultArmQ.currentMode ≠ .MODE_SPRING ∧ defaultArmQ.currentMode ≠ .MODE_BOUNDED) ∧
    (switchTorque sinQ piQ 0 defaultArmQ).1 = 0 :=
  ⟨by decide, (C11_default_branch_zero sinQ piQ 0 defaultArmQ (by decide)).2⟩

/-- C12 as the code has it: for the haptic torque
`T(θ) = detent_strength * -sin(detent_count * θ)` over the reals with
`detent_strength > 0` and `detent_count = N ≥ 2`: `T(0) = 0`; the zeros of `T` are
exactly the angles `k * π / N`; the zeros with negative slope (stable detents) are
exactly the even multiples `2 * k * π / N`; at the odd multiples
`(2 * k + 1) * π / N` the slope is positive. -/
theorem C12_stable_detents (s : Knob ℝ) (v : ℝ) (hA : 0 < s.detent_strength)
    (hN : 2 ≤ s.detent_count) :
    computeHapticTorque Real.sin (withShaft s 0 v) = 0 ∧
    (∀ θ : ℝ, computeHapticTorque Real.sin (withShaft s θ v) = 0 ↔
      ∃ k : ℤ, θ = k * Real.pi / s.detent_count) ∧
    (∀ θ : ℝ, (computeHapticTorque Real.sin (withShaft s θ v) = 0 ∧
        deriv (fun x => computeHapticTorque Real.sin (withShaft s x v)) θ < 0) ↔
      ∃ k : ℤ, θ = 2 * k * Real.pi / s.detent_count) ∧
    (∀ k : ℤ, computeHapticTorque Real.sin
        (withShaft s ((2 * k + 1) * Real.pi / s.detent_count) v) = 0 ∧
      0 < deriv (fun x => computeHapticTorque Real.sin (withShaft s x v))
        ((2 * k + 1) * Real.pi / s.detent_count)) := by
  have hNr : (0 : ℝ) < (s.detent_count : ℝ) := by
    have : (0 : ℤ) < s.detent_count := by omega
    exact_mod_cast this
  have hN0 : (s.detent_count : ℝ) ≠ 0 := ne_of_gt hNr
  have hzero : ∀ θ : ℝ, computeHapticTorque Real.sin (withShaft s θ v) = 0 ↔
      Real.sin ((s.detent_count : ℝ) * θ) = 0 := by
    intro θ
    rw [hapticTorque_eq]
    constructor
    · intro h
      rcases mul_eq_zero.mp h with h1 | h1
      · exact absurd h1 (ne_of_gt hA)
      · exact neg_eq_zero.mp h1
    · intro h
      rw [h]
      ring
  have hslope : ∀ θ : ℝ,
      deriv (fun x => computeHapticTorque Real.sin (withShaft s x v)) θ < 0 ↔
      0 < Real.cos ((s.detent_count : ℝ) * θ) := by
    intro θ
    rw [hapticTorque_deriv]
    have hpos : 0 < s.detent_strength * (s.detent_count : ℝ) := mul_pos hA hNr
    constructor
    · intro h
      by_contra hc
      have hc2 : Real.cos ((s.detent_count : ℝ) * θ) ≤ 0 := not_lt.mp hc
      nlinarith
    · intro h
      nlinarith
  refine ⟨?_, ?_, ?_, ?_⟩
  · rw [hapticTorque_eq]
    simp
  · intro θ
    rw [hzero, Real.sin_eq_zero_iff]
    constructor
    · rintro ⟨k, hk⟩
      refine ⟨k, ?_⟩
      field_simp
      linarith
    · rintro ⟨k, hk⟩
      refine ⟨k, ?_⟩
      rw [hk]
      field_simp
  · intro θ
    rw [hzero, hslope, sin_zero_cos_pos_iff, Real.cos_eq_one_iff]
    constructor
    · rintro ⟨k, hk⟩
      refine ⟨k, ?_⟩
      field_simp
      linarith
    · rintro ⟨k, hk⟩
      refine ⟨k, ?_⟩
      rw [hk]
      field_simp
      ring
  · intro k
    have hx : (s.detent_count : ℝ) * ((2 * k + 1) * Real.pi / s.detent_count) =
        Real.pi + k * (2 * Real.pi) := by
      field_simp
      ring
    constructor
    · rw [hzero, hx, Real.sin_add_int_mul_two_pi, Real.sin_pi]
    · rw [hapticTorque_deriv, hx, Real.cos_add_int_mul_two_pi, Real.cos_pi]
      have hpos : 0 < s.detent_strength * (s.detent_count : ℝ) := mul_pos hA hNr
      nlinarith

/-- Counterexample to C12 as stated: with the default parameters (36 detents, strength
1.5) the angle `1 * π / 36` is a zero of the haptic torque, but the slope there is
54, not negative. -/
theorem C12_counterexample :
    computeHapticTorque Real.sin (withShaft (initial Real.pi 0 0) (1 * Real.pi / 36) 0) = 0 ∧
    deriv (fun x => computeHapticTorque Real.sin (withShaft (initial Real.pi 0 0) x 0))
      (1 * Real.pi / 36) = 54 ∧
    ¬ deriv (fun x => computeHapticTorque Real.sin (withShaft (initial Real.pi 0 0) x 0))
      (1 * Real.pi / 36) < 0 := by
  have hx : (((initial Real.pi (0 : ℝ) 0).detent_count : ℤ) : ℝ) * (1 * Real.pi / 36) =
      Real.pi := by
    simp only [initial]
    push_cast
    ring
  have hd : deriv (fun x => computeHapticTorque Real.sin (withShaft (initial Real.pi 0 0) x 0))
      (1 * Real.pi / 36) = 54 := by
    rw [hapticTorque_deriv, hx, Real.cos_pi]
    simp only [initial]
    push_cast
    norm_num
  refine ⟨?_, hd, ?_⟩
  · rw [hapticTorque_eq, hx, Real.sin_pi]
    simp
  · rw [hd]
    norm_num

/-- Witness of C12 (amended) on the default parameters. -/
theorem C12_stable_detents_witness :
    (0 : ℝ) < (initial Real.pi (0 : ℝ) 0).detent_strength ∧
    2 ≤ (initial Real.pi (0 : ℝ) 0).detent_count ∧
    computeHapticTorque Real.sin (withShaft (initial Real.pi 0 0) 0 0) = 0 :=
  ⟨by simp only [initial]; norm_num, by simp only [initial]; norm_num,
    (C12_stable_detents (initial Real.pi 0 0) 0 (by simp only [initial]; norm_num)
      (by simp only [initial]; norm_num)).1⟩

/-- C13: the spring torque is `-stiffness * (angle - center) - damping * velocity`.
With `stiffness ≥ 0`: it is 0 at `angle = center`, `velocity = 0`; at velocity 0 its
magnitude is `stiffness * |angle - center|`, so a displacement that is no larger in
magnitude gives a torque that is no larger in magnitude (strictly smaller when
`stiffness > 0` and the displacement is strictly smaller), and the torque has the
sign opposite to the displacement. -/
theorem C13_spring_torque (s : Knob α) (a1 a2 v : α) (hk : 0 ≤ s.spring_stiffness) :
    computeSpringTorque (withShaft s a1 v) =
      -s.spring_stiffness * (a1 - s.spring_center) - s.spring_damping * v ∧
    computeSpringTorque (withShaft s s.spring_center 0) = 0 ∧
    |computeSpringTorque (withShaft s a1 0)| = s.spring_stiffness * |a1 - s.spring_center| ∧
    (|a1 - s.spring_center| ≤ |a2 - s.spring_center| →
      |computeSpringTorque (withShaft s a1 0)| ≤ |computeSpringTorque (withShaft s a2 0)|) ∧
    (0 < s.spring_stiffness → |a1 - s.spring_center| < |a2 - s.spring_center| →
      |computeSpringTorque (withShaft s a1 0)| < |computeSpringTorque (withShaft s a2 0)|) ∧
    (s.spring_center < a1 → computeSpringTorque (withShaft s a1 0) ≤ 0) ∧
    (a1 < s.spring_center → 0 ≤ computeSpringTorque (withShaft s a1 0)) ∧
    (0 < s.spring_stiffness → s.spring_center < a1 →
      computeSpringTorque (withShaft s a1 0) < 0) ∧
    (0 < s.spring_stiffness → a1 < s.spring_center →
      0 < computeSpringTorque (withShaft s a1 0)) := by
  refine ⟨rfl, ?_, springTorque_abs s a1 hk, ?_, ?_, ?_, ?_, ?_, ?_⟩
  · rw [springTorque_eq]
    ring
  · intro h
    rw [springTorque_abs s a1 hk, springTorque_abs s a2 hk]
    exact mul_le_mul_of_nonneg_left h hk
  · intro hpos h
    rw [springTorque_abs s a1 hk, springTorque_abs s a2 hk]
    exact mul_lt_mul_of_pos_left h hpos
  · intro h
    rw [springTorque_eq]
    have : 0 ≤ s.spring_stiffness * (a1 - s.spring_center) :=
      mul_nonneg hk (le_of_lt (sub_pos.mpr h))
    linarith
  · intro h
    rw [springTorque_eq]
    have : 0 ≤ s.spring_stiffness * (s.spring_center - a1) :=
      mul_nonneg hk (le_of_lt (sub_pos.mpr h))
    linarith
  · intro hpos h
    rw [springTorque_eq]
    have : 0 < s.spring_stiffness * (a1 - s.spring_center) := mul_pos hpos (sub_pos.mpr h)
    linarith
  · intro hpos h
    rw [springTorque_eq]
    have : 0 < s.spring_stiffness * (s.spring_center - a1) := mul_pos hpos (sub_pos.mpr h)
    linarith

/-- Witness of C13 on the default spring parameters (stiffness 10, centre 0): at 1/2 rad
and rest the torque has magnitude 5. -/
theorem C13_spring_torque_witness :
    (0 : ℚ) ≤ bootQ.spring_stiffness ∧
    |computeSpringTorque (withShaft bootQ (1 / 2) 0)| =
      bootQ.spring_stiffness * |1 / 2 - bootQ.spring_center| :=
  ⟨by norm_num [bootQ, initial],
    (C13_spring_torque bootQ (1 / 2) 1 0 (by norm_num [bootQ, initial])).2.2.1⟩

/-- C14 as the code has it: with `_PI > 0`, buffer `b = 2 * _PI / 180`,
`bound_min < bound_max`, `wall_strength > 0` and `wall_damping ≥ 0`: for an angle
below `bound_min - b` the bounded torque is strictly positive exactly when
`wall_damping * velocity < wall_strength * ((bound_min + 5 * b) - angle)`, in
particular whenever the velocity is not positive or the damping is 0; for an angle
above `bound_max + b` it is strictly negative exactly when
`-(wall_damping * velocity) < wall_strength * (angle - (bound_max - 5 * b))`, in
particular whenever the velocity is not negative or the damping is 0. -/
theorem C14_wall_torque_inward (sin : α → α) (_PI : α) (s : Knob α) (a v : α)
    (hpi : 0 < _PI) (hb : s.bound_min < s.bound_max) (hws : 0 < s.wall_strength)
    (hwd : 0 ≤ s.wall_damping) :
    (a < s.bound_min - 2 * _PI / 180 →
      (0 < computeBoundedTorque sin _PI (withShaft s a v) ↔
        s.wall_damping * v < s.wall_strength * ((s.bound_min + 2 * _PI / 180 * 5) - a)) ∧
      (v ≤ 0 → 0 < computeBoundedTorque sin _PI (withShaft s a v)) ∧
      (s.wall_damping = 0 → 0 < computeBoundedTorque sin _PI (withShaft s a v))) ∧
    (a > s.bound_max + 2 * _PI / 180 →
      (computeBoundedTorque sin _PI (withShaft s a v) < 0 ↔
        -(s.wall_damping * v) < s.wall_strength * (a - (s.bound_max - 2 * _PI / 180 * 5))) ∧
      (0 ≤ v → computeBoundedTorque sin _PI (withShaft s a v) < 0) ∧
      (s.wall_damping = 0 → computeBoundedTorque sin _PI (withShaft s a v) < 0)) := by
  have hbuf : 0 < 2 * _PI / 180 := by positivity
  constructor
  · intro h
    rw [boundedTorque_lower sin _PI s a v h]
    have hov : 0 < s.wall_strength * ((s.bound_min + 2 * _PI / 180 * 5) - a) :=
      mul_pos hws (by linarith)
    refine ⟨⟨fun h0 => by linarith, fun h0 => by linarith⟩, fun hv => ?_, fun hd => ?_⟩
    · have : s.wall_damping * v ≤ 0 := mul_nonpos_of_nonneg_of_nonpos hwd hv
      linarith
    · rw [hd, zero_mul]
      linarith
  · intro h
    have h1 : ¬ a < s.bound_min - 2 * _PI / 180 := by
      intro hc
      linarith
    rw [boundedTorque_upper sin _PI s a v h1 h]
    have hov : 0 < s.wall_strength * (a - (s.bound_max - 2 * _PI / 180 * 5)) :=
      mul_pos hws (by linarith)
    refine ⟨⟨fun h0 => by linarith, fun h0 => by linarith⟩, fun hv => ?_, fun hd => ?_⟩
    · have : 0 ≤ s.wall_damping * v := mul_nonneg hwd hv
      linarith
    · rw [hd, zero_mul]
      linarith

/-- Counterexample to C14 as stated, on the default parameters (bounds -60 and +60
degrees, wall strength 20, wall damping 2, 36 detents of strength 1.5).  At 64
degrees below zero with velocity `π` rad/s (moving inward) the wall damping
outweighs the wall spring and the torque is negative; at 61.8 degrees below zero
and at rest the shaft is outside the bounds but inside the 2 degree buffer, where
the detent model applies, and the torque is `-(3/2) * sin(π/20)`, negative. -/
theorem C14_counterexample :
    (-(64 * Real.pi / 180) < (initial Real.pi (0 : ℝ) 0).bound_min ∧
      computeBoundedTorque Real.sin Real.pi
        (withShaft (initial Real.pi 0 0) (-(64 * Real.pi / 180)) Real.pi) < 0) ∧
    (-(618 * Real.pi / 1800) < (initial Real.pi (0 : ℝ) 0).bound_min ∧
      computeBoundedTorque Real.sin Real.pi
        (withShaft (initial Real.pi 0 0) (-(618 * Real.pi / 1800)) 0) < 0) := by
  have hpi := Real.pi_pos
  refine ⟨⟨?_, ?_⟩, ?_, ?_⟩
  · simp only [initial]
    linarith
  · rw [boundedTorque_lower _ _ _ _ _ (by simp only [initial]; linarith)]
    simp only [initial]
    linarith
  · simp only [initial]
    linarith
  · rw [boundedTorque_inside _ _ _ _ _ (by simp only [initial]; linarith)
      (by simp only [initial]; linarith)]
    have hphase : (-(618 * Real.pi / 1800) - (initial Real.pi (0 : ℝ) 0).bound_min) /
        ((initial Real.pi (0 : ℝ) 0).bound_max - (initial Real.pi (0 : ℝ) 0).bound_min) *
        (((initial Real.pi (0 : ℝ) 0).detent_count - 1 : Int) : ℝ) * 2 * Real.pi =
        -(Real.pi / 20 + Real.pi) := by
      simp only [initial]
      push_cast
      field_simp
      ring
    have hsin : 0 < Real.sin (Real.pi / 20) :=
      Real.sin_pos_of_pos_of_lt_pi (by positivity) (by linarith)
    rw [hphase, Real.sin_neg, Real.sin_add_pi]
    simp only [initial]
    linarith

/-- Witness of C14 (amended) on the default parameters: 64 degrees below zero, at rest. -/
theorem C14_wall_torque_inward_witness :
    (0 : ℚ) < piQ ∧ bootQ.bound_min < bootQ.bound_max ∧ (0 : ℚ) < bootQ.wall_strength ∧
    (0 : ℚ) ≤ bootQ.wall_damping ∧
    -(64 * piQ / 180) < bootQ.bound_min - 2 * piQ / 180 ∧
    0 < computeBoundedTorque sinQ piQ (withShaft bootQ (-(64 * piQ / 180)) 0) :=
  ⟨by norm_num [piQ], by norm_num [bootQ, initial, piQ], by norm_num [bootQ, initial],
    by norm_num [bootQ, initial], by norm_num [bootQ, initial, piQ],
    ((C14_wall_torque_inward sinQ piQ bootQ (-(64 * piQ / 180)) 0 (by norm_num [piQ])
      (by norm_num [bootQ, initial, piQ]) (by norm_num [bootQ, initial])
      (by norm_num [bootQ, initial])).1 (by norm_num [bootQ, initial, piQ])).2.1 (le_refl 0)⟩

/-- C15 as the code has it: a second call of `computeInertiaTorque` with the same
microsecond timestamp is not a no-op.  The elapsed time 0 is replaced by the
fallback step 0.001 s, so the second call adds `a * 0.001` to `virt_vel` and then
`virt_vel' * 0.001` to `virt_pos`, where `a` is the acceleration of the model at
the state left by the first call; it leaves both unchanged exactly when that
acceleration and `virt_vel` are 0. -/
theorem C15_same_timestamp_fallback_step (t : Nat) (s : Knob α) :
    (computeInertiaTorque t (computeInertiaTorque t s).2).2.virt_vel =
      (computeInertiaTorque t s).2.virt_vel +
        referenceAccel (computeInertiaTorque t s).2 * (1 / 1000) ∧
    (computeInertiaTorque t (computeInertiaTorque t s).2).2.virt_pos =
      (computeInertiaTorque t s).2.virt_pos +
        ((computeInertiaTorque t s).2.virt_vel +
          referenceAccel (computeInertiaTorque t s).2 * (1 / 1000)) * (1 / 1000) ∧
    (((computeInertiaTorque t (computeInertiaTorque t s).2).2.virt_vel =
        (computeInertiaTorque t s).2.virt_vel ∧
      (computeInertiaTorque t (computeInertiaTorque t s).2).2.virt_pos =
        (computeInertiaTorque t s).2.virt_pos) ↔
      (referenceAccel (computeInertiaTorque t s).2 = 0 ∧
        (computeInertiaTorque t s).2.virt_vel = 0)) := by
  obtain ⟨h1, h2⟩ := inertia_same_timestamp t (computeInertiaTorque t s).2
    (computeInertiaTorque_prev_time t s)
  refine ⟨h1, h2, ?_⟩
  rw [h1, h2]
  constructor
  · rintro ⟨e1, e2⟩
    have ha : referenceAccel (computeInertiaTorque t s).2 = 0 := by
      have : referenceAccel (computeInertiaTorque t s).2 * (1 / 1000) = 0 := by linarith
      rcases mul_eq_zero.mp this with h | h
      · exact h
      · norm_num at h
    refine ⟨ha, ?_⟩
    rw [ha] at e2
    have : (computeInertiaTorque t s).2.virt_vel * (1 / 1000) = 0 := by linarith
    rcases mul_eq_zero.mp this with h | h
    · exact h
    · norm_num at h
  · rintro ⟨ha, hv⟩
    rw [ha, hv]
    constructor <;> ring

/-- Counterexample to C15 as stated: default inertia parameters, virtual flywheel at
rest at 0, shaft at 1 rad; two calls with the timestamp 1000 µs.  The first call
leaves `virt_vel = 1/125`; the second call, with zero elapsed time, changes both
`virt_vel` and `virt_pos` again. -/
theorem C15_counterexample :
    (computeInertiaTorque 1000 turnedQ).2.virt_vel = 1 / 125 ∧
    (computeInertiaTorque 1000 turnedQ).2.motor.shaft_angle = turnedQ.motor.shaft_angle ∧
    (computeInertiaTorque 1000 (computeInertiaTorque 1000 turnedQ).2).2.virt_vel ≠
      (computeInertiaTorque 1000 turnedQ).2.virt_vel ∧
    (computeInertiaTorque 1000 (computeInertiaTorque 1000 turnedQ).2).2.virt_pos ≠
      (computeInertiaTorque 1000 turnedQ).2.virt_pos := by
  refine ⟨?_, rfl, ?_, ?_⟩ <;>
    norm_num [computeInertiaTorque, turnedQ, withShaft, doInertia, resetInertiaState, bootQ,
      initial, usub]

/-- C16: the detent-count setter called with the integer `n` stores
`constrain(n, 2, 360)`: 2 for 1, 360 for 400, `n` itself when `2 ≤ n ≤ 360`.  The
default is 36, so in every state reached from the initial state by command
handler calls, button actions and passes of `loop()` the detent count is in
`[2, 360]`, also in the state that a pass of `loop()` hands to the torque models. -/
theorem C16_detent_count_range (sin : α → α) (_PI angle0 vel0 : α) (n : Int) (s : Knob α)
    (evs : List (Event α)) (c : Cycle α) :
    (doDetentCount (some n) s).detent_count = constrain n 2 360 ∧
    (doDetentCount (some 1) s).detent_count = 2 ∧
    (doDetentCount (some 400) s).detent_count = 360 ∧
    (2 ≤ n ∧ n ≤ 360 → (doDetentCount (some n) s).detent_count = n) ∧
    (2 ≤ (doDetentCount (some n) s).detent_count ∧
      (doDetentCount (some n) s).detent_count ≤ 360) ∧
    (initial _PI angle0 vel0).detent_count = 36 ∧
    (2 ≤ (run sin _PI evs (initial _PI angle0 vel0)).detent_count ∧
      (run sin _PI evs (initial _PI angle0 vel0)).detent_count ≤ 360) ∧
    (2 ≤ (buttonPhase c (loopFOC c (run sin _PI evs (initial _PI angle0 vel0)))).detent_count ∧
      (buttonPhase c (loopFOC c (run sin _PI evs (initial _PI angle0 vel0)))).detent_count
        ≤ 360) := by
  have hinit : 2 ≤ (initial _PI angle0 vel0).detent_count ∧
      (initial _PI angle0 vel0).detent_count ≤ 360 := by
    simp only [initial]
    constructor <;> norm_num
  have hrun := run_detent_range sin _PI evs (initial _PI angle0 vel0) hinit
  refine ⟨rfl, rfl, rfl, ?_, constrain_detent n, rfl, hrun, ?_⟩
  · rintro ⟨h1, h2⟩
    exact constrain_of_mem n 2 360 h1 h2
  · rw [buttonPhase_detent_count]
    exact hrun

/-- C17 as the code has it: the explicit spring mode command re-centres.  The
handler `doSpring` does not read its argument; called by the command layer or by
the toggle (from Inertia) it sets `currentMode` to Spring and `spring_center` to
the current shaft angle, whatever the prior centre was. -/
theorem C17_spring_command_recentres (_PI : α) (now now_us : Nat) (s : Knob α) :
    (Command.doSpring.handle _PI now now_us s).spring_center = s.motor.shaft_angle ∧
    (Command.doSpring.handle _PI now now_us s).currentMode = .MODE_SPRING ∧
    (s.currentMode = .MODE_INERTIA →
      (handleButtonAction now_us s).spring_center = s.motor.shaft_angle ∧
      (handleButtonAction now_us s).currentMode = .MODE_SPRING ∧
      (handleButtonAction now_us s).spring_center =
        (Command.doSpring.handle _PI now now_us s).spring_center) := by
  refine ⟨rfl, rfl, fun h => ?_⟩
  simp [handleButtonAction, toggleMode, h, Command.handle, doSpring]

/-- Counterexample to C17 as stated: spring centre 0 (the default), shaft at 1 rad; the
explicit spring mode command, which carries no value, moves the centre to 1. -/
theorem C17_counterexample :
    (withShaft bootQ 1 0).spring_center = 0 ∧
    (Command.doSpring.handle piQ 3000 3000000 (withShaft bootQ 1 0)).spring_center = 1 ∧
    (Command.doSpring.handle piQ 3000 3000000 (withShaft bootQ 1 0)).spring_center ≠
      (withShaft bootQ 1 0).spring_center := by
  have h0 : (withShaft bootQ 1 0).spring_center = 0 := rfl
  have h1 : (Command.doSpring.handle piQ 3000 3000000 (withShaft bootQ 1 0)).spring_center = 1 :=
    rfl
  refine ⟨h0, h1, ?_⟩
  rw [h0, h1]
  norm_num

/-- C18 as the code has it: the bound setters store the supplied value (degrees
converted to radians) without comparing it with the other bound.  With `_PI > 0`
the defaults satisfy `bound_min < bound_max`; after a lower-bound call with value
`v` the order holds exactly when `v * _PI / 180 < bound_max`, after an upper-bound
call exactly when `bound_min < v * _PI / 180`; a call without a value changes
nothing. -/
theorem C18_bound_setters_unchecked (_PI angle0 vel0 v : α) (s : Knob α) (hpi : 0 < _PI) :
    (initial _PI angle0 vel0).bound_min < (initial _PI angle0 vel0).bound_max ∧
    (doLowerBound _PI (some v) s).bound_min = v * _PI / 180 ∧
    (doLowerBound _PI (some v) s).bound_max = s.bound_max ∧
    (doUpperBound _PI (some v) s).bound_max = v * _PI / 180 ∧
    (doUpperBound _PI (some v) s).bound_min = s.bound_min ∧
    ((doLowerBound _PI (some v) s).bound_min < (doLowerBound _PI (some v) s).bound_max ↔
      v * _PI / 180 < s.bound_max) ∧
    ((doUpperBound _PI (some v) s).bound_min < (doUpperBound _PI (some v) s).bound_max ↔
      s.bound_min < v * _PI / 180) ∧
    doLowerBound _PI none s = s ∧ doUpperBound _PI none s = s := by
  refine ⟨?_, rfl, rfl, rfl, rfl, Iff.rfl, Iff.rfl, rfl, rfl⟩
  simp only [initial]
  have h1 : -60 * _PI / 180 < 0 := by
    have : -60 * _PI < 0 := by linarith
    exact div_neg_of_neg_of_pos this (by norm_num)
  have h2 : 0 < 60 * _PI / 180 := by positivity
  linarith

/-- Counterexample to C18 as stated: from the defaults, the lower-bound command with 90
degrees leaves `bound_min` above `bound_max` (divisor of the bounded model
negative), and with 60 degrees leaves them equal (divisor 0). -/
theorem C18_counterexample :
    ¬ (run sinQ piQ [Event.command 3000 3000000 (.doLowerBound (some 90))] bootQ).bound_min <
      (run sinQ piQ [Event.command 3000 3000000 (.doLowerBound (some 90))] bootQ).bound_max ∧
    (run sinQ piQ [Event.command 3000 3000000 (.doLowerBound (some 90))] bootQ).bound_max -
      (run sinQ piQ [Event.command 3000 3000000 (.doLowerBound (some 90))] bootQ).bound_min
      < 0 ∧
    (run sinQ piQ [Event.command 3000 3000000 (.doLowerBound (some 60))] bootQ).bound_max -
      (run sinQ piQ [Event.command 3000 3000000 (.doLowerBound (some 60))] bootQ).bound_min
      = 0 := by
  refine ⟨?_, ?_, ?_⟩ <;>
    norm_num [run, Event.apply, Command.handle, doLowerBound, bootQ, initial, piQ]

/-- Witness of C18 (amended) with `_PI = 22/7`. -/
theorem C18_bound_setters_unchecked_witness :
    (0 : ℚ) < piQ ∧ bootQ.bound_min < bootQ.bound_max ∧
    (doLowerBound piQ (some 90) bootQ).bound_min = 90 * piQ / 180 :=
  ⟨by norm_num [piQ], (C18_bound_setters_unchecked piQ 0 0 90 bootQ (by norm_num [piQ])).1,
    (C18_bound_setters_unchecked piQ 0 0 90 bootQ (by norm_num [piQ])).2.1⟩

/-- C19 as the code has it: called without a value, the detent-count, lower-bound
and upper-bound setters change nothing; the spring-centre setter called without a
value sets `spring_center` to the current shaft angle and changes nothing else,
so it is a pure query only when the centre already equals the shaft angle. -/
theorem C19_absent_value (_PI : α) (s : Knob α) :
    doDetentCount none s = s ∧ doLowerBound _PI none s = s ∧ doUpperBound _PI none s = s ∧
    doSpringCenter _PI none s = { s with spring_center := s.motor.shaft_angle } ∧
    (doSpringCenter _PI none s).spring_center = s.motor.shaft_angle ∧
    (doSpringCenter _PI none s = s ↔ s.spring_center = s.motor.shaft_angle) := by
  refine ⟨rfl, rfl, rfl, rfl, rfl, ?_⟩
  constructor
  · intro h
    have h2 := congrArg Knob.spring_center h
    exact h2.symm
  · intro h
    cases s
    simp only [doSpringCenter]
    simp only at h
    rw [h]

/-- Counterexample to C19 as stated: spring centre 0, shaft at 1 rad; the spring-centre
command without a value changes the centre to 1. -/
theorem C19_counterexample :
    (withShaft bootQ 1 0).spring_center = 0 ∧
    (doSpringCenter piQ none (withShaft bootQ 1 0)).spring_center = 1 ∧
    doSpringCenter piQ none (withShaft bootQ 1 0) ≠ withShaft bootQ 1 0 := by
  have h0 : (withShaft bootQ 1 0).spring_center = 0 := rfl
  have h1 : (doSpringCenter piQ none (withShaft bootQ 1 0)).spring_center = 1 := rfl
  refine ⟨h0, h1, fun h => ?_⟩
  have h2 := congrArg Knob.spring_center h
  rw [h0, h1] at h2
  norm_num at h2

/-- C20: one call of `computeInertiaTorque` equals the reference step.  With
`e = (now_us - prev_us) mod 2 ^ 32`, `dt = e * 1e-6`, the step is `h = dt` if
`0 < dt ≤ 0.1` and `0.001` otherwise, so `0 < h ≤ 0.1`; the acceleration `a` is
the coupling and damping term over the inertia, with the friction subtracted or
added against the sign of `virt_vel` when the friction is positive; then
`virt_vel' = virt_vel + a * h`, `virt_pos' = virt_pos + virt_vel' * h`,
`prev_time_us' = now_us`, and the torque is `-coupling_K * (angle - virt_pos)` with
the old `virt_pos`. -/
theorem C20_inertia_reference_step (now_us : Nat) (s : Knob α) :
    computeInertiaTorque now_us s = referenceInertiaStep now_us s ∧
    (0 : α) < referenceStepSize now_us s.prev_time_us ∧
    (referenceStepSize now_us s.prev_time_us : α) ≤ 1 / 10 ∧
    (computeInertiaTorque now_us s).1 = -s.coupling_K * (s.motor.shaft_angle - s.virt_pos) ∧
    (computeInertiaTorque now_us s).2.virt_vel =
      s.virt_vel + referenceAccel s * referenceStepSize now_us s.prev_time_us ∧
    (computeInertiaTorque now_us s).2.virt_pos =
      s.virt_pos + (s.virt_vel + referenceAccel s * referenceStepSize now_us s.prev_time_us) *
        referenceStepSize now_us s.prev_time_us ∧
    (computeInertiaTorque now_us s).2.prev_time_us = now_us ∧
    (s.virt_vel = 0 → referenceAccel s =
      (s.coupling_K * (s.motor.shaft_angle - s.virt_pos) - s.inertia_damping * s.virt_vel) /
        s.virtual_inertia) := by
  have h := computeInertiaTorque_eq_reference now_us s
  refine ⟨h, (referenceStepSize_mem now_us s.prev_time_us).1,
    (referenceStepSize_mem now_us s.prev_time_us).2, ?_, ?_, ?_, ?_, ?_⟩
  · rw [h]
    rfl
  · rw [h]
    rfl
  · rw [h]
    rfl
  · rw [h]
    rfl
  · intro hv
    unfold referenceAccel
    simp [hv]

/-- C21: with `_PI > 0`, buffer `b = 2 * _PI / 180`, `bound_min < bound_max`,
`wall_strength > 0` and a sine bounded by 1 in magnitude.  Below `bound_min - b`
the bounded torque is `wall_strength * ((bound_min + 5 b) - angle) -
wall_damping * velocity`, above `bound_max + b` it is
`-wall_strength * (angle - (bound_max - 5 b)) - wall_damping * velocity`.  At zero
velocity the wall torque points inward, is larger in magnitude than
`6 * b * wall_strength` and grows strictly with the distance past the wall; and
when `6 * b * wall_strength > |detent_strength|` the torque as a function of the
angle is discontinuous at both buffer edges. -/
theorem C21_wall_force (sin : ℝ → ℝ) (_PI : ℝ) (s : Knob ℝ) (a a2 v : ℝ)
    (hsin : ∀ x, |sin x| ≤ 1) (hpi : 0 < _PI) (hb : s.bound_min < s.bound_max)
    (hws : 0 < s.wall_strength) :
    (a < s.bound_min - 2 * _PI / 180 →
      computeBoundedTorque sin _PI (withShaft s a v) =
        s.wall_strength * ((s.bound_min + 2 * _PI / 180 * 5) - a) - s.wall_damping * v) ∧
    (a > s.bound_max + 2 * _PI / 180 →
      computeBoundedTorque sin _PI (withShaft s a v) =
        -s.wall_strength * (a - (s.bound_max - 2 * _PI / 180 * 5)) - s.wall_damping * v) ∧
    (a < s.bound_min - 2 * _PI / 180 →
      6 * (2 * _PI / 180) * s.wall_strength < computeBoundedTorque sin _PI (withShaft s a 0) ∧
      (a2 < a → computeBoundedTorque sin _PI (withShaft s a 0) <
        computeBoundedTorque sin _PI (withShaft s a2 0))) ∧
    (a > s.bound_max + 2 * _PI / 180 →
      computeBoundedTorque sin _PI (withShaft s a 0) < -(6 * (2 * _PI / 180) * s.wall_strength) ∧
      (a < a2 → computeBoundedTorque sin _PI (withShaft s a2 0) <
        computeBoundedTorque sin _PI (withShaft s a 0))) ∧
    (|s.detent_strength| < 6 * (2 * _PI / 180) * s.wall_strength →
      ¬ ContinuousAt (fun x => computeBoundedTorque sin _PI (withShaft s x 0))
        (s.bound_min - 2 * _PI / 180) ∧
      ¬ ContinuousAt (fun x => computeBoundedTorque sin _PI (withShaft s x 0))
        (s.bound_max + 2 * _PI / 180)) := by
  have hbuf : 0 < 2 * _PI / 180 := by positivity
  have hup : ∀ x : ℝ, x > s.bound_max + 2 * _PI / 180 → ¬ x < s.bound_min - 2 * _PI / 180 := by
    intro x hx hc
    linarith
  have hlow0 : ∀ x : ℝ, x < s.bound_min - 2 * _PI / 180 →
      computeBoundedTorque sin _PI (withShaft s x 0) =
        s.wall_strength * ((s.bound_min + 2 * _PI / 180 * 5) - x) := by
    intro x hx
    rw [boundedTorque_lower sin _PI s x 0 hx]
    ring
  have hup0 : ∀ x : ℝ, x > s.bound_max + 2 * _PI / 180 →
      computeBoundedTorque sin _PI (withShaft s x 0) =
        -s.wall_strength * (x - (s.bound_max - 2 * _PI / 180 * 5)) := by
    intro x hx
    rw [boundedTorque_upper sin _PI s x 0 (hup x hx) hx]
    ring
  refine ⟨boundedTorque_lower sin _PI s a v, fun h => boundedTorque_upper sin _PI s a v (hup a h) h,
    ?_, ?_, ?_⟩
  · intro h
    constructor
    · rw [hlow0 a h]
      nlinarith
    · intro h2
      rw [hlow0 a h, hlow0 a2 (by linarith)]
      nlinarith
  · intro h
    constructor
    · rw [hup0 a h]
      nlinarith
    · intro h2
      rw [hup0 a h, hup0 a2 (by linarith)]
      nlinarith
  · intro hA
    constructor
    · apply not_continuousAt_of_gap_above _ _ (6 * (2 * _PI / 180) * s.wall_strength)
      · show computeBoundedTorque sin _PI (withShaft s (s.bound_min - 2 * _PI / 180) 0) < _
        rw [boundedTorque_inside sin _PI s _ 0 (lt_irrefl _) (by intro hc; linarith)]
        exact lt_of_le_of_lt (le_trans (le_abs_self _) (detent_abs_le sin hsin _ _)) hA
      · intro ε hε
        refine ⟨s.bound_min - 2 * _PI / 180 - ε / 2, ?_, ?_⟩
        · rw [Real.dist_eq]
          rw [abs_lt]
          constructor <;> linarith
        · show _ ≤ computeBoundedTorque sin _PI
            (withShaft s (s.bound_min - 2 * _PI / 180 - ε / 2) 0)
          rw [hlow0 _ (by linarith)]
          nlinarith
    · apply not_continuousAt_of_gap_below _ _ (-(6 * (2 * _PI / 180) * s.wall_strength))
      · show _ < computeBoundedTorque sin _PI (withShaft s (s.bound_max + 2 * _PI / 180) 0)
        rw [boundedTorque_inside sin _PI s _ 0 (by intro hc; linarith) (lt_irrefl _)]
        have h1 := detent_abs_le sin hsin s.detent_strength
          ((s.bound_max + 2 * _PI / 180 - s.bound_min) / (s.bound_max - s.bound_min) *
            ((s.detent_count - 1 : Int) : ℝ) * 2 * _PI)
        have h2 := neg_abs_le (s.detent_strength *
          -(sin ((s.bound_max + 2 * _PI / 180 - s.bound_min) / (s.bound_max - s.bound_min) *
            ((s.detent_count - 1 : Int) : ℝ) * 2 * _PI)))
        linarith
      · intro ε hε
        refine ⟨s.bound_max + 2 * _PI / 180 + ε / 2, ?_, ?_⟩
        · rw [Real.dist_eq]
          rw [abs_lt]
          constructor <;> linarith
        · show computeBoundedTorque sin _PI
            (withShaft s (s.bound_max + 2 * _PI / 180 + ε / 2) 0) ≤ _
          rw [hup0 _ (by linarith)]
          nlinarith

/-- Witness of C21 on the default parameters with the real sine: `6 b * 20 = 4π/3`
exceeds the detent strength 1.5, so the torque jumps at the lower buffer edge. -/
theorem C21_wall_force_witness :
    (∀ x : ℝ, |Real.sin x| ≤ 1) ∧ (0 : ℝ) < Real.pi ∧
    (initial Real.pi (0 : ℝ) 0).bound_min < (initial Real.pi (0 : ℝ) 0).bound_max ∧
    (0 : ℝ) < (initial Real.pi (0 : ℝ) 0).wall_strength ∧
    ¬ ContinuousAt
      (fun x => computeBoundedTorque Real.sin Real.pi (withShaft (initial Real.pi 0 0) x 0))
      ((initial Real.pi (0 : ℝ) 0).bound_min - 2 * Real.pi / 180) :=
  have hpi := Real.pi_pos
  have hb : (initial Real.pi (0 : ℝ) 0).bound_min < (initial Real.pi (0 : ℝ) 0).bound_max := by
    simp only [initial]
    linarith
  have hws : (0 : ℝ) < (initial Real.pi (0 : ℝ) 0).wall_strength := by
    simp only [initial]
    norm_num
  ⟨Real.abs_sin_le_one, hpi, hb, hws,
    ((C21_wall_force Real.sin Real.pi (initial Real.pi 0 0) 0 0 0 Real.abs_sin_le_one hpi hb
      hws).2.2.2.2 (by
        simp only [initial]
        have h3 := Real.pi_gt_three
        rw [abs_of_pos (by norm_num : (0 : ℝ) < 3 / 2)]
        linarith)).1⟩

/-- C22 as the code has it: over the reals, for `bound_min < bound_max`,
`detent_count = N ≥ 2` and `detent_strength > 0`.  Inside the buffered range the
bounded torque is `detent_strength * -sin(((angle - bound_min) / (bound_max -
bound_min)) * (N - 1) * 2π)`; it is zero at both bounds; its zeros in the buffered
range are the angles `bound_min + m * (bound_max - bound_min) / (2 (N - 1))`, so
exactly `2 N - 3` of them lie strictly between the bounds; the zeros with negative
slope (stable detents) are the angles `bound_min + k * (bound_max - bound_min) /
(N - 1)`, of which exactly `N - 2` lie strictly between the bounds (`N` counting
the two bounds). -/
theorem C22_bounded_detents (s : Knob ℝ) (v : ℝ) (hb : s.bound_min < s.bound_max)
    (hN : 2 ≤ s.detent_count) (hA : 0 < s.detent_strength) :
    (∀ a : ℝ, s.bound_min - 2 * Real.pi / 180 ≤ a → a ≤ s.bound_max + 2 * Real.pi / 180 →
      computeBoundedTorque Real.sin Real.pi (withShaft s a v) =
        s.detent_strength *
          -(Real.sin ((a - s.bound_min) / (s.bound_max - s.bound_min) *
            ((s.detent_count - 1 : Int) : ℝ) * 2 * Real.pi))) ∧
    computeBoundedTorque Real.sin Real.pi (withShaft s s.bound_min v) = 0 ∧
    computeBoundedTorque Real.sin Real.pi (withShaft s s.bound_max v) = 0 ∧
    (∀ a : ℝ, s.bound_min - 2 * Real.pi / 180 ≤ a → a ≤ s.bound_max + 2 * Real.pi / 180 →
      (computeBoundedTorque Real.sin Real.pi (withShaft s a v) = 0 ↔
        ∃ m : ℤ, a = s.bound_min +
          m * ((s.bound_max - s.bound_min) / (2 * ((s.detent_count - 1 : Int) : ℝ))))) ∧
    Set.ncard {a : ℝ | s.bound_min < a ∧ a < s.bound_max ∧
      computeBoundedTorque Real.sin Real.pi (withShaft s a v) = 0} =
      (2 * s.detent_count - 3).toNat ∧
    (∀ a : ℝ, s.bound_min - 2 * Real.pi / 180 < a → a < s.bound_max + 2 * Real.pi / 180 →
      ((computeBoundedTorque Real.sin Real.pi (withShaft s a v) = 0 ∧
          deriv (fun x => computeBoundedTorque Real.sin Real.pi (withShaft s x v)) a < 0) ↔
        ∃ k : ℤ, a = s.bound_min +
          k * ((s.bound_max - s.bound_min) / ((s.detent_count - 1 : Int) : ℝ)))) ∧
    Set.ncard {a : ℝ | s.bound_min < a ∧ a < s.bound_max ∧
      computeBoundedTorque Real.sin Real.pi (withShaft s a v) = 0 ∧
      deriv (fun x => computeBoundedTorque Real.sin Real.pi (withShaft s x v)) a < 0} =
      (s.detent_count - 2).toNat := by
  have hpi := Real.pi_pos
  have hbuf : 0 < 2 * Real.pi / 180 := by positivity
  have hn : (0 : ℝ) < ((s.detent_count - 1 : Int) : ℝ) := by
    have : (0 : ℤ) < s.detent_count - 1 := by omega
    exact_mod_cast this
  refine ⟨fun a h1 h2 => boundedTorque_mid s a v h1 h2, ?_, ?_,
    fun a h1 h2 => bounded_zero_iff s a v hb hN hA h1 h2, bounded_zero_count s v hb hN hA,
    fun a h1 h2 => bounded_stable_iff s a v hb hN hA h1 h2, bounded_stable_count s v hb hN hA⟩
  · refine (bounded_zero_iff s s.bound_min v hb hN hA (by linarith) (by linarith)).mpr ⟨0, ?_⟩
    simp
  · refine (bounded_zero_iff s s.bound_max v hb hN hA (by linarith) (by linarith)).mpr
      ⟨2 * (s.detent_count - 1), ?_⟩
    have hn0 := ne_of_gt hn
    push_cast at hn0 ⊢
    field_simp

/-- Counterexample to C22 as stated: with the default parameters (36 detents, bounds
-60 and +60 degrees) the bounded torque has 69 zeros strictly between the bounds,
34 of them with negative slope; neither number is `36 - 1 = 35`. -/
theorem C22_counterexample :
    Set.ncard {a : ℝ | (initial Real.pi (0 : ℝ) 0).bound_min < a ∧
      a < (initial Real.pi (0 : ℝ) 0).bound_max ∧
      computeBoundedTorque Real.sin Real.pi (withShaft (initial Real.pi 0 0) a 0) = 0} = 69 ∧
    Set.ncard {a : ℝ | (initial Real.pi (0 : ℝ) 0).bound_min < a ∧
      a < (initial Real.pi (0 : ℝ) 0).bound_max ∧
      computeBoundedTorque Real.sin Real.pi (withShaft (initial Real.pi 0 0) a 0) = 0 ∧
      deriv (fun x => computeBoundedTorque Real.sin Real.pi
        (withShaft (initial Real.pi 0 0) x 0)) a < 0} = 34 ∧
    (initial Real.pi (0 : ℝ) 0).detent_count - 1 = 35 := by
  have hpi := Real.pi_pos
  have hb : (initial Real.pi (0 : ℝ) 0).bound_min < (initial Real.pi (0 : ℝ) 0).bound_max := by
    simp only [initial]
    linarith
  have hN : 2 ≤ (initial Real.pi (0 : ℝ) 0).detent_count := by
    simp only [initial]
    norm_num
  have hA : (0 : ℝ) < (initial Real.pi (0 : ℝ) 0).detent_strength := by
    simp only [initial]
    norm_num
  refine ⟨?_, ?_, rfl⟩
  · rw [bounded_zero_count (initial Real.pi 0 0) 0 hb hN hA]
    rfl
  · rw [bounded_stable_count (initial Real.pi 0 0) 0 hb hN hA]
    rfl

/-- Witness of C22 (amended) on the default parameters. -/
theorem C22_bounded_detents_witness :
    (initial Real.pi (0 : ℝ) 0).bound_min < (initial Real.pi (0 : ℝ) 0).bound_max ∧
    2 ≤ (initial Real.pi (0 : ℝ) 0).detent_count ∧
    (0 : ℝ) < (initial Real.pi (0 : ℝ) 0).detent_strength ∧
    computeBoundedTorque Real.sin Real.pi
      (withShaft (initial Real.pi 0 0) (initial Real.pi (0 : ℝ) 0).bound_max 0) = 0 :=
  have hb : (initial Real.pi (0 : ℝ) 0).bound_min < (initial Real.pi (0 : ℝ) 0).bound_max := by
    have hpi := Real.pi_pos
    simp only [initial]
    linarith
  have hN : 2 ≤ (initial Real.pi (0 : ℝ) 0).detent_count := by
    simp only [initial]
    norm_num
  have hA : (0 : ℝ) < (initial Real.pi (0 : ℝ) 0).detent_strength := by
    simp only [initial]
    norm_num
  ⟨hb, hN, hA, (C22_bounded_detents (initial Real.pi 0 0) 0 hb hN hA).2.2.1⟩

/-- C23: for `detent_count = N ≥ 2` and `detent_strength > 0` the haptic torque over
the reals has period `2π / N` in the unwrapped angle, its magnitude never exceeds
the strength, and every half-open interval `[x, x + 2π)` contains exactly `N`
stable equilibria (zeros with negative slope). -/
theorem C23_haptic_periodic (s : Knob ℝ) (v x : ℝ) (hA : 0 < s.detent_strength)
    (hN : 2 ≤ s.detent_count) :
    (∀ θ : ℝ, computeHapticTorque Real.sin (withShaft s (θ + 2 * Real.pi / s.detent_count) v) =
      computeHapticTorque Real.sin (withShaft s θ v)) ∧
    (∀ θ : ℝ, |computeHapticTorque Real.sin (withShaft s θ v)| ≤ s.detent_strength) ∧
    Set.ncard {θ : ℝ | x ≤ θ ∧ θ < x + 2 * Real.pi ∧
      computeHapticTorque Real.sin (withShaft s θ v) = 0 ∧
      deriv (fun y => computeHapticTorque Real.sin (withShaft s y v)) θ < 0} =
      s.detent_count.toNat := by
  have hpi := Real.pi_pos
  have hNr : (0 : ℝ) < (s.detent_count : ℝ) := by
    have : (0 : ℤ) < s.detent_count := by omega
    exact_mod_cast this
  have hN0 : (s.detent_count : ℝ) ≠ 0 := ne_of_gt hNr
  have hp : 0 < 2 * Real.pi / (s.detent_count : ℝ) := by positivity
  refine ⟨?_, ?_, ?_⟩
  · intro θ
    rw [hapticTorque_eq, hapticTorque_eq]
    have hx : (s.detent_count : ℝ) * (θ + 2 * Real.pi / s.detent_count) =
        (s.detent_count : ℝ) * θ + 2 * Real.pi := by
      field_simp
      ring
    rw [hx, Real.sin_add_two_pi]
  · intro θ
    rw [hapticTorque_eq, abs_mul, abs_neg, abs_of_pos hA]
    calc s.detent_strength * |Real.sin ((s.detent_count : ℝ) * θ)|
        ≤ s.detent_strength * 1 :=
          mul_le_mul_of_nonneg_left (Real.abs_sin_le_one _) (le_of_lt hA)
      _ = s.detent_strength := mul_one _
  · have hinj : Function.Injective (fun k : ℤ => (k : ℝ) * (2 * Real.pi / s.detent_count)) := by
      intro k1 k2 h
      have h2 : (k1 : ℝ) = k2 := mul_right_cancel₀ (ne_of_gt hp) h
      exact_mod_cast h2
    have hset : {θ : ℝ | x ≤ θ ∧ θ < x + 2 * Real.pi ∧
        computeHapticTorque Real.sin (withShaft s θ v) = 0 ∧
        deriv (fun y => computeHapticTorque Real.sin (withShaft s y v)) θ < 0} =
        (fun k : ℤ => (k : ℝ) * (2 * Real.pi / s.detent_count)) ''
          Set.Ico ⌈x / (2 * Real.pi / s.detent_count)⌉
            (⌈x / (2 * Real.pi / s.detent_count)⌉ + s.detent_count) := by
      ext θ
      simp only [Set.mem_setOf_eq, Set.mem_image, Set.mem_Ico]
      constructor
      · rintro ⟨h1, h2, h3⟩
        obtain ⟨k, hk⟩ := (stable_detent_iff s v hA hN θ).mp h3
        refine ⟨k, ⟨?_, ?_⟩, hk.symm⟩
        · rw [Int.ceil_le, div_le_iff₀ hp, ← hk]
          exact h1
        · have h4 : ((k - s.detent_count : ℤ) : ℝ) < x / (2 * Real.pi / s.detent_count) := by
            rw [lt_div_iff₀ hp]
            push_cast
            have h5 : (s.detent_count : ℝ) * (2 * Real.pi / s.detent_count) = 2 * Real.pi := by
              field_simp
            rw [sub_mul, h5, ← hk]
            linarith
          have h6 := Int.lt_ceil.mpr h4
          omega
      · rintro ⟨k, ⟨h1, h2⟩, hk⟩
        have h5 : (s.detent_count : ℝ) * (2 * Real.pi / s.detent_count) = 2 * Real.pi := by
          field_simp
        refine ⟨?_, ?_, (stable_detent_iff s v hA hN θ).mpr ⟨k, hk.symm⟩⟩
        · rw [Int.ceil_le, div_le_iff₀ hp] at h1
          rw [← hk]
          exact h1
        · have h6 : k - s.detent_count < ⌈x / (2 * Real.pi / s.detent_count)⌉ := by omega
          have h7 := Int.lt_ceil.mp h6
          rw [lt_div_iff₀ hp] at h7
          push_cast at h7
          rw [sub_mul, h5] at h7
          rw [← hk]
          linarith
    rw [hset]
    exact ncard_image_Ico _ hinj _ _

/-- Witness of C23 on the default parameters: 36 stable detents in `[0, 2π)`. -/
theorem C23_haptic_periodic_witness :
    (0 : ℝ) < (initial Real.pi (0 : ℝ) 0).detent_strength ∧
    2 ≤ (initial Real.pi (0 : ℝ) 0).detent_count ∧
    Set.ncard {θ : ℝ | 0 ≤ θ ∧ θ < 0 + 2 * Real.pi ∧
      computeHapticTorque Real.sin (withShaft (initial Real.pi 0 0) θ 0) = 0 ∧
      deriv (fun y => computeHapticTorque Real.sin (withShaft (initial Real.pi 0 0) y 0)) θ < 0} =
      (initial Real.pi (0 : ℝ) 0).detent_count.toNat :=
  ⟨by simp only [initial]; norm_num, by simp only [initial]; norm_num,
    (C23_haptic_periodic (initial Real.pi 0 0) 0 0 (by simp only [initial]; norm_num)
      (by simp only [initial]; norm_num)).2.2⟩

/-- C24: for bounds symmetric about zero (`bound_min = -bound_max`, `bound_max > 0`)
the bounded torque over the reals is odd in (angle, velocity):
`boundedTorque(-angle, -velocity) = -boundedTorque(angle, velocity)` for every
angle, velocity, detent count, detent strength, wall strength and wall damping;
the upper wall branch mirrors the lower one, the buffer edges fall in the detent
branch on both sides, and the detent branch is odd because the two phases add up
to `(detent_count - 1) * 2π`. -/
theorem C24_bounded_mirror (s : Knob ℝ) (a v : ℝ) (hsym : s.bound_min = -s.bound_max)
    (hmax : 0 < s.bound_max) :
    computeBoundedTorque Real.sin Real.pi (withShaft s (-a) (-v)) =
      -computeBoundedTorque Real.sin Real.pi (withShaft s a v) := by
  have hpi := Real.pi_pos
  have hb : 0 < 2 * Real.pi / 180 := by positivity
  by_cases h1 : a < s.bound_min - 2 * Real.pi / 180
  · have h2 : ¬ -a < s.bound_min - 2 * Real.pi / 180 := by
      rw [hsym] at h1 ⊢
      intro hc
      linarith
    have h3 : -a > s.bound_max + 2 * Real.pi / 180 := by
      rw [hsym] at h1
      linarith
    rw [boundedTorque_lower _ _ _ _ _ h1, boundedTorque_upper _ _ _ _ _ h2 h3, hsym]
    ring
  · by_cases h2 : a > s.bound_max + 2 * Real.pi / 180
    · have h3 : -a < s.bound_min - 2 * Real.pi / 180 := by
        rw [hsym]
        linarith
      rw [boundedTorque_upper _ _ _ _ _ h1 h2, boundedTorque_lower _ _ _ _ _ h3, hsym]
      ring
    · have h3 : ¬ -a < s.bound_min - 2 * Real.pi / 180 := by
        rw [hsym]
        intro hc
        exact h2 (by linarith)
      have h4 : ¬ -a > s.bound_max + 2 * Real.pi / 180 := by
        rw [hsym] at h1
        intro hc
        exact h1 (by linarith)
      rw [boundedTorque_inside _ _ _ _ _ h1 h2, boundedTorque_inside _ _ _ _ _ h3 h4]
      have hphase : (-a - s.bound_min) / (s.bound_max - s.bound_min) *
          ((s.detent_count - 1 : Int) : ℝ) * 2 * Real.pi =
          ((s.detent_count - 1 : Int) : ℝ) * (2 * Real.pi) -
            (a - s.bound_min) / (s.bound_max - s.bound_min) *
              ((s.detent_count - 1 : Int) : ℝ) * 2 * Real.pi := by
        rw [hsym]
        have hne : s.bound_max - -s.bound_max ≠ 0 := by linarith
        field_simp
        ring
      rw [hphase, Real.sin_int_mul_two_pi_sub]
      ring

/-- Witness of C24 on the default parameters (bounds -60 and +60 degrees), at 1 rad
and 2 rad/s. -/
theorem C24_bounded_mirror_witness :
    (initial Real.pi (0 : ℝ) 0).bound_min = -(initial Real.pi (0 : ℝ) 0).bound_max ∧
    (0 : ℝ) < (initial Real.pi (0 : ℝ) 0).bound_max ∧
    computeBoundedTorque Real.sin Real.pi (withShaft (initial Real.pi 0 0) (-1) (-2)) =
      -computeBoundedTorque Real.sin Real.pi (withShaft (initial Real.pi 0 0) 1 2) :=
  ⟨by simp only [initial]; ring, by simp only [initial]; positivity,
    C24_bounded_mirror (initial Real.pi 0 0) 1 2 (by simp only [initial]; ring)
      (by simp only [initial]; positivity)⟩

/-- C25: in every state reached from the state after `setup()` by command handler
calls (mode, parameter and seek commands), button actions and passes of `loop()`,
the motor controller is angle tracking exactly when `currentMode` is PositionSeek
(and direct torque exactly when it is not).  The same holds at the dispatch of any
further pass: where that pass hands the target angle to `motor.move` the
controller is angle tracking, and where it hands a clamped voltage the controller
is direct torque. -/
theorem C25_controller_matches_mode (sin : α → α) (_PI angle0 vel0 : α)
    (evs : List (Event α)) (c : Cycle α) :
    ((run sin _PI evs (initial _PI angle0 vel0)).motor.controller = .angle ↔
      (run sin _PI evs (initial _PI angle0 vel0)).currentMode = .MODE_POSITION) ∧
    ((run sin _PI evs (initial _PI angle0 vel0)).motor.controller = .torque ↔
      (run sin _PI evs (initial _PI angle0 vel0)).currentMode ≠ .MODE_POSITION) ∧
    ((buttonPhase c (loopFOC c (run sin _PI evs (initial _PI angle0 vel0)))).currentMode
        = .MODE_POSITION →
      (buttonPhase c (loopFOC c (run sin _PI evs (initial _PI angle0 vel0)))).motor.controller
        = .angle ∧
      (loop sin _PI c (run sin _PI evs (initial _PI angle0 vel0))).motor.moved =
        (buttonPhase c (loopFOC c (run sin _PI evs (initial _PI angle0 vel0)))).motor.target) ∧
    ((buttonPhase c (loopFOC c (run sin _PI evs (initial _PI angle0 vel0)))).currentMode
        ≠ .MODE_POSITION →
      (buttonPhase c (loopFOC c (run sin _PI evs (initial _PI angle0 vel0)))).motor.controller
        = .torque ∧
      (loop sin _PI c (run sin _PI evs (initial _PI angle0 vel0))).motor.moved =
        constrain
          (switchTorque sin _PI c.micros
            (buttonPhase c (loopFOC c (run sin _PI evs (initial _PI angle0 vel0))))).1
          (-(buttonPhase c (loopFOC c
            (run sin _PI evs (initial _PI angle0 vel0)))).motor.voltage_limit)
          (buttonPhase c (loopFOC c
            (run sin _PI evs (initial _PI angle0 vel0)))).motor.voltage_limit) := by
  have hinit : (initial _PI angle0 vel0).previousMode ≠ .MODE_POSITION ∧
      ((initial _PI angle0 vel0).motor.controller = .angle ↔
        (initial _PI angle0 vel0).currentMode = .MODE_POSITION) := by
    simp [initial]
  have hrun := run_controller_inv sin _PI evs _ hinit
  have hbtn := buttonPhase_controller_inv c _ hrun
  have htorque : ∀ k : MotionControlType, k = .torque ↔ ¬ k = .angle := by
    intro k
    cases k <;> simp
  refine ⟨hrun.2, ?_, ?_, ?_⟩
  · rw [htorque, hrun.2]
  · intro hm
    refine ⟨hbtn.2.mpr hm, ?_⟩
    rw [loop_moved_eq]
    exact (modeDispatch_seek sin _PI c.millis c.micros _ hm).2.2.2.2.2.1
  · intro hm
    refine ⟨(htorque _).mpr (fun hk => hm (hbtn.2.mp hk)), ?_⟩
    rw [loop_moved_eq]
    exact modeDispatch_moved sin _PI c.millis c.micros _ hm

/-- C26: rest is a fixed point of the inertia model.  If `virt_pos` equals the
shaft angle and `virt_vel` is 0 (as after `resetInertiaState`) and
`virtual_inertia` is not 0, then for every timestamp (every elapsed time) and
every damping, friction and coupling value one call of `computeInertiaTorque`
returns the torque 0 and leaves `virt_pos` and `virt_vel` as they were; the same
holds after any number of calls while the shaft stays where it is. -/
theorem C26_rest_fixed_point (now_us t0 : Nat) (ts : List Nat) (s : Knob α)
    (hp : s.virt_pos = s.motor.shaft_angle) (hv : s.virt_vel = 0)
    (_hJ : s.virtual_inertia ≠ 0) :
    (computeInertiaTorque now_us s).1 = 0 ∧
    (computeInertiaTorque now_us s).2.virt_pos = s.virt_pos ∧
    (computeInertiaTorque now_us s).2.virt_vel = s.virt_vel ∧
    (ts.foldl (fun st t => (computeInertiaTorque t st).2) s).virt_pos = s.virt_pos ∧
    (ts.foldl (fun st t => (computeInertiaTorque t st).2) s).virt_vel = s.virt_vel ∧
    (resetInertiaState t0 s).virt_pos = (resetInertiaState t0 s).motor.shaft_angle ∧
    (resetInertiaState t0 s).virt_vel = 0 := by
  obtain ⟨h1, h2, h3, -⟩ := inertia_rest_step now_us s hp hv
  obtain ⟨r1, r2⟩ := inertia_rest_run ts s hp hv
  exact ⟨h1, h2, h3, r1, r2, rfl, rfl⟩

/-- Witness of C26: Inertia mode entered at boot with the shaft at 0, default
parameters, a call 1234 µs later. -/
theorem C26_rest_fixed_point_witness :
    (doInertia 0 bootQ).virt_pos = (doInertia 0 bootQ).motor.shaft_angle ∧
    (doInertia 0 bootQ).virt_vel = 0 ∧ (doInertia 0 bootQ).virtual_inertia ≠ 0 ∧
    (computeInertiaTorque 1234 (doInertia 0 bootQ)).1 = 0 :=
  ⟨rfl, rfl, by norm_num [doInertia, resetInertiaState, bootQ, initial],
    (C26_rest_fixed_point 1234 0 [] (doInertia 0 bootQ) rfl rfl
      (by norm_num [doInertia, resetInertiaState, bootQ, initial])).1⟩

end Firmware

end SmartKnob
